import Mathlib

/-!
# prometheuslog: a shallow embedding of the log classifier

Source files embedded here: `pkg/app/common.go` (the line classifier) and
`pkg/app/app.go` (supervisor, application monitor, ingestion loop).

Conventions.
* A log line is a `String`; matching works on its list of characters.
* The metric registry of `rcrowley/go-metrics` is a finite map from names to
  metrics; it is embedded as a function `String → Option Metric`.
* Go panics are explicit: an `Outcome` records whether a call returned or
  panicked, and in both cases the state as mutated so far.
* The order in which a `range` loop visits a Go map is a parameter.
* `int64` arithmetic wraps modulo `2^64`; `float64` values are dyadic numbers
  with an explicit rounding function.
-/

set_option autoImplicit false

namespace PrometheusLog

/-! ## Strings -/

/-- Whether the text `s` begins with `pre` (Go `strings.HasPrefix`). -/
def startsWith : List Char → List Char → Bool
  | _, [] => true
  | [], _ :: _ => false
  | c :: cs, p :: ps => c == p && startsWith cs ps

/-- Go `strings.Contains(s, sub)`. -/
def Contains : List Char → List Char → Bool
  | [], sub => sub.isEmpty
  | c :: cs, sub => startsWith (c :: cs) sub || Contains cs sub

/-- The character class `[0-9]`. -/
def isDigit (c : Char) : Bool := 48 ≤ c.toNat && c.toNat ≤ 57

/-- The longest run of `[0-9]` at the head of the text, and what follows it. -/
def spanDigits : List Char → List Char × List Char
  | [] => ([], [])
  | c :: cs =>
    if isDigit c then ((c :: (spanDigits cs).1), (spanDigits cs).2) else ([], c :: cs)

/-- Removes `pre` from the head of the text, when the text begins with it. -/
def dropStart : List Char → List Char → Option (List Char)
  | s, [] => some s
  | [], _ :: _ => none
  | c :: cs, p :: ps => if c == p then dropStart cs ps else none

/-- The value of a string of decimal digits, most significant first. -/
def digitsValue (ds : List Char) : Nat :=
  ds.foldl (fun acc c => 10 * acc + (c.toNat - 48)) 0

/-! ## Machine numbers -/

/-- Two's-complement wrap-around of a mathematical integer into `int64`. -/
def wrapInt64 (x : Int) : Int := (x + 2 ^ 63) % 2 ^ 64 - 2 ^ 63

/-- A `float64` value other than NaN: `±mant · 2^exp`, or an infinity.
Integer values are kept with `exp = 0`. -/
inductive Float64 where
  | finite (neg : Bool) (mant : Nat) (exp : Int)
  | inf (neg : Bool)
  deriving DecidableEq, Repr

/-- Number of binary digits of `n`, by halving (`fuel` bounds the halvings). -/
def bitLengthAux : Nat → Nat → Nat
  | 0, _ => 0
  | fuel + 1, n => if n = 0 then 0 else bitLengthAux fuel (n / 2) + 1

/-- Number of binary digits of `n`: `2^(bitLength n - 1) ≤ n < 2^(bitLength n)`
for positive `n`. -/
def bitLength (n : Nat) : Nat := bitLengthAux n n

/-- The `float64` nearest to the natural number `n` (ties to even): `n` itself
below `2^53`, otherwise a 53-bit significand `m'` scaled by `2^k`; `+Inf` when
the rounded value reaches `2^1024` (the largest finite value is
`(2^53 - 1) · 2^971`). -/
def roundToFloat64 (n : Nat) : Float64 :=
  if n < 2 ^ 53 then .finite false n 0
  else
    let k := bitLength n - 53
    let m := n / 2 ^ k
    let r := n % 2 ^ k
    let half := 2 ^ (k - 1)
    let m' := if half < r ∨ (r = half ∧ m % 2 = 1) then m + 1 else m
    if 971 < k ∨ (k = 971 ∧ m' = 2 ^ 53) then .inf false else .finite false (m' * 2 ^ k) 0

/-- Go `strconv.ParseFloat(s, 64)` with the error result dropped, as at its call
sites (`s, _ := strconv.ParseFloat(...)`). It is embedded on strings of ASCII
decimal digits, the only strings the capture groups `([0-9]{1,})` produce: the
value is the nearest `float64`, `+Inf` on overflow. Any other string is treated
as a syntax error, for which Go returns `0`. -/
def ParseFloat (s : List Char) : Float64 :=
  if s ≠ [] ∧ s.all isDigit then roundToFloat64 (digitsValue s) else .finite false 0 0

/-- Decimal digits of `n`, least significant first (`fuel` bounds the length). -/
def natDigitsRev : Nat → Nat → List Char
  | 0, _ => []
  | fuel + 1, n =>
    if n < 10 then [Char.ofNat (48 + n)]
    else Char.ofNat (48 + n % 10) :: natDigitsRev fuel (n / 10)

/-- Decimal digits of `n`, most significant first; `0` gives the text `0`. -/
def natDigits (n : Nat) : List Char := (natDigitsRev (n + 1) n).reverse

/-- Halves `m` and lowers `k` while `m` is even and `k` is positive. -/
def stripTwos : Nat → Nat → Nat → Nat × Nat
  | 0, m, k => (m, k)
  | fuel + 1, m, k =>
    if k = 0 ∨ m % 2 = 1 ∨ m = 0 then (m, k) else stripTwos fuel (m / 2) (k - 1)

/-- The value `±m · 2^e` in the form the embedding keeps: integers with
exponent `0`, other values with an odd significand. -/
def Float64.normalize (neg : Bool) (m : Nat) (e : Int) : Float64 :=
  if 0 ≤ e then .finite neg (m * 2 ^ e.toNat) 0
  else if m = 0 then .finite neg 0 0
  else .finite neg (stripTwos (-e).toNat m (-e).toNat).1 (-((stripTwos (-e).toNat m (-e).toNat).2 : Int))

/-- The `float64` nearest to `±p/q` (`q > 0`), ties to even: the significand is
the rounded quotient of `p/q` by `2^e`, where `e ≥ -1074` is chosen so that the
quotient has 53 bits (fewer for subnormal values); an infinity when the rounded
value reaches `2^1024`. -/
def roundRatio (neg : Bool) (p q : Nat) : Float64 :=
  if p = 0 then .finite neg 0 0
  else
    let e0 : Int := (bitLength p : Int) - (bitLength q : Int) - 53
    let q0 := if 0 ≤ e0 then p / (q * 2 ^ e0.toNat) else (p * 2 ^ (-e0).toNat) / q
    let e1 : Int := if 2 ^ 53 ≤ q0 then e0 + 1 else e0
    let e : Int := if e1 < -1074 then -1074 else e1
    let num := if 0 ≤ e then p else p * 2 ^ (-e).toNat
    let den := if 0 ≤ e then q * 2 ^ e.toNat else q
    let m := num / den
    let r := num % den
    let m' := if den < 2 * r ∨ (2 * r = den ∧ m % 2 = 1) then m + 1 else m
    if 971 < e ∨ (e = 971 ∧ m' = 2 ^ 53) then .inf neg else Float64.normalize neg m' e

/-- The `float64` nearest to `±d · 10^e10`. Values at or above `10^310` are out
of range, values below `10^-330` round to zero; in between the exact ratio is
rounded. -/
def roundDecimal (neg : Bool) (d : Nat) (e10 : Int) : Float64 :=
  if d = 0 then .finite neg 0 0
  else if 310 < ((natDigits d).length : Int) + e10 then .inf neg
  else if ((natDigits d).length : Int) + e10 < -330 then .finite neg 0 0
  else if 0 ≤ e10 then roundRatio neg (d * 10 ^ e10.toNat) 1
  else roundRatio neg d (10 ^ (-e10).toNat)

/-- Go `strconv.ParseInt(s, 10, 64)`: an optional sign, then one or more decimal
digits and nothing else; `none` stands for a non-nil error (bad syntax, or a
value outside `int64`). -/
def ParseInt (s : List Char) : Option Int :=
  let body := match s with
    | '+' :: r => r
    | '-' :: r => r
    | r => r
  let neg := match s with
    | '-' :: _ => true
    | _ => false
  if body = [] ∨ ¬ body.all isDigit then none
  else if neg then (if digitsValue body ≤ 2 ^ 63 then some (-(digitsValue body : Int)) else none)
  else (if digitsValue body < 2 ^ 63 then some (digitsValue body : Int) else none)

/-! ## Decoded JSON (`encoding/json` into `map[string]interface{}`) and `%v` -/

/-- A Go value held in an `interface{}` after `json.Unmarshal`: `nil`, `bool`,
`float64`, `string`, `[]interface{}` or `map[string]interface{}`. The entries
of a map are kept as a list with distinct keys. -/
inductive JSONValue where
  | null
  | bool (b : Bool)
  | number (f : Float64)
  | string (s : List Char)
  | array (items : List JSONValue)
  | object (entries : List (List Char × JSONValue))

/-- Go map indexing `m[key]`: the value stored under `key`, `null` (a nil
interface) when the key is absent. -/
def mapIndex : List (List Char × JSONValue) → List Char → JSONValue
  | [], _ => .null
  | (k, v) :: rest, key => if k = key then v else mapIndex rest key

/-- Go map assignment `m[key] = v`: replaces the entry when the key is present,
adds one otherwise. -/
def mapAssign : List (List Char × JSONValue) → List Char → JSONValue → List (List Char × JSONValue)
  | [], key, v => [(key, v)]
  | (k, w) :: rest, key, v =>
    if k = key then (k, v) :: rest else (k, w) :: mapAssign rest key v

/-- The exponent part of Go's `%e` form: a sign and at least two digits. -/
def formatExponent (e : Int) : List Char :=
  (if e < 0 then ['e', '-'] else ['e', '+'])
    ++ (if e.natAbs < 10 then ['0'] else []) ++ natDigits e.natAbs

/-- Removes trailing zero digits. -/
def stripTrailingZeros (ds : List Char) : List Char :=
  (ds.reverse.dropWhile (· == '0')).reverse

/-- The `%e` form of the digit string `ds` (first digit, then the fraction). -/
def formatE (ds : List Char) (e : Int) : List Char :=
  match ds with
  | [] => '0' :: formatExponent e
  | [d] => d :: formatExponent e
  | d :: rest => d :: '.' :: rest ++ formatExponent e

/-- Go `%v` of a `float64` (that is `%g` with the shortest precision): the `%e`
form when the decimal exponent is below `-4` or at least `6`, the `%f` form
otherwise. Integer values below `2^53` in magnitude are printed exactly as Go
prints them. For other values the digits printed here are those of the exact
decimal expansion, where Go prints the shortest digits that identify the
value; both forms then contain a `.` or an `e`. -/
def formatFloat : Float64 → List Char
  | .inf neg => if neg then "-Inf".data else "+Inf".data
  | .finite neg m e =>
    let sign : List Char := if neg then ['-'] else []
    if m = 0 then sign ++ ['0']
    else if 0 ≤ e then
      let n := m * 2 ^ e.toNat
      if (natDigits n).length ≤ 6 then sign ++ natDigits n
      else sign ++ formatE (stripTrailingZeros (natDigits n)) ((natDigits n).length - 1)
    else
      let k := (-e).toNat
      let ds := natDigits (m * 5 ^ k)
      let dp : Int := (ds.length : Int) - k
      if dp - 1 < -4 then sign ++ formatE (stripTrailingZeros ds) (dp - 1)
      else if 6 ≤ dp - 1 then sign ++ formatE (stripTrailingZeros ds) (dp - 1)
      else if dp ≤ 0 then
        sign ++ ['0', '.'] ++ List.replicate (-dp).toNat '0' ++ stripTrailingZeros ds
      else sign ++ ds.take dp.toNat ++ ['.'] ++ stripTrailingZeros (ds.drop dp.toNat)

/-- Inserts a printed entry before the first entry with a greater key (Go
prints maps with sorted keys). -/
def insertEntry (e : List Char × List Char) : List (List Char × List Char) → List (List Char × List Char)
  | [] => [e]
  | x :: xs => if e.1 ≤ x.1 then e :: x :: xs else x :: insertEntry e xs

/-- The printed entries `key:value` separated by spaces. -/
def joinEntries : List (List Char × List Char) → List Char
  | [] => []
  | [e] => e.1 ++ ':' :: e.2
  | e :: f :: rest => (e.1 ++ ':' :: e.2) ++ ' ' :: joinEntries (f :: rest)

mutual
/-- Go `fmt.Sprintf("%v", x)` for a decoded JSON value `x`. -/
def sprintV : JSONValue → List Char
  | .null => "<nil>".data
  | .bool b => if b then "true".data else "false".data
  | .number f => formatFloat f
  | .string s => s
  | .array items => '[' :: sprintItems items ++ [']']
  | .object entries =>
    "map[".data ++ joinEntries ((sprintEntries entries).foldr insertEntry []) ++ [']']
/-- The printed elements of a slice, separated by spaces. -/
def sprintItems : List JSONValue → List Char
  | [] => []
  | x :: rest => sprintV x ++ (if rest.isEmpty then [] else ' ' :: sprintItems rest)
/-- Each entry of a map with its value printed. -/
def sprintEntries : List (List Char × JSONValue) → List (List Char × List Char)
  | [] => []
  | (k, v) :: rest => (k, sprintV v) :: sprintEntries rest
end

/-! ## The JSON decoder

`json.Unmarshal` first checks that the whole text is one valid JSON value
(RFC 8259, nesting at most 10000 deep) and decodes only then. -/

/-- Skips JSON white space: space, tab, carriage return, line feed. -/
def skipSpace : List Char → List Char
  | [] => []
  | c :: cs =>
    if c = ' ' ∨ c = Char.ofNat 9 ∨ c = Char.ofNat 13 ∨ c = Char.ofNat 10 then skipSpace cs
    else c :: cs

/-- The value of a hexadecimal digit. -/
def hexValue (c : Char) : Option Nat :=
  if isDigit c then some (c.toNat - 48)
  else if 97 ≤ c.toNat ∧ c.toNat ≤ 102 then some (c.toNat - 87)
  else if 65 ≤ c.toNat ∧ c.toNat ≤ 70 then some (c.toNat - 55)
  else none

/-- The four hexadecimal digits of a `\u` escape as a number (Go `getu4`). -/
def hex4 (a b c d : Char) : Option Nat :=
  match hexValue a, hexValue b, hexValue c, hexValue d with
  | some x, some y, some z, some w => some (((x * 16 + y) * 16 + z) * 16 + w)
  | _, _, _, _ => none

/-- The body of a JSON string, after the opening quote: the decoded text and
what follows the closing quote. Control characters are rejected; a `\u` escape
that is a surrogate is combined with a following low surrogate, and decodes to
U+FFFD when it has none. -/
def parseString : Nat → List Char → Option (List Char × List Char)
  | 0, _ => none
  | _ + 1, [] => none
  | fuel + 1, c :: rest =>
    if c = '"' then some ([], rest)
    else if c = '\\' then
      match rest with
      | 'u' :: h1 :: h2 :: h3 :: h4 :: rest' =>
        match hex4 h1 h2 h3 h4 with
        | none => none
        | some r =>
          if 0xD800 ≤ r ∧ r < 0xE000 then
            match rest' with
            | '\\' :: 'u' :: k1 :: k2 :: k3 :: k4 :: rest'' =>
              match hex4 k1 k2 k3 k4 with
              | some r2 =>
                if r < 0xDC00 ∧ 0xDC00 ≤ r2 ∧ r2 < 0xE000 then
                  (parseString fuel rest'').map
                    (fun x => (Char.ofNat (0x10000 + (r - 0xD800) * 0x400 + (r2 - 0xDC00)) :: x.1, x.2))
                else (parseString fuel rest').map (fun x => (Char.ofNat 0xFFFD :: x.1, x.2))
              | none => (parseString fuel rest').map (fun x => (Char.ofNat 0xFFFD :: x.1, x.2))
            | _ => (parseString fuel rest').map (fun x => (Char.ofNat 0xFFFD :: x.1, x.2))
          else (parseString fuel rest').map (fun x => (Char.ofNat r :: x.1, x.2))
      | e :: rest' =>
        let decoded : Option Char :=
          if e = '"' then some '"' else if e = '\\' then some '\\' else if e = '/' then some '/'
          else if e = 'b' then some (Char.ofNat 8) else if e = 'f' then some (Char.ofNat 12)
          else if e = 'n' then some (Char.ofNat 10) else if e = 'r' then some (Char.ofNat 13)
          else if e = 't' then some (Char.ofNat 9) else none
        match decoded with
        | none => none
        | some d => (parseString fuel rest').map (fun x => (d :: x.1, x.2))
      | [] => none
    else if c.toNat < 32 then none
    else (parseString fuel rest).map (fun x => (c :: x.1, x.2))

/-- A JSON number literal at the head of the text,
`-?(0|[1-9][0-9]*)(\.[0-9]+)?([eE][+-]?[0-9]+)?`, converted as by
`strconv.ParseFloat`; a literal out of the `float64` range decodes to `nil`
(the decoder records an error and goes on). -/
def parseNumber (s : List Char) : Option (JSONValue × List Char) :=
  let neg : Bool := match s with
    | '-' :: _ => true
    | _ => false
  let s0 := match s with
    | '-' :: r => r
    | r => r
  let ip := (spanDigits s0).1
  let s1 := (spanDigits s0).2
  if ip = [] ∨ (ip.head? = some '0' ∧ ip.length ≠ 1) then none
  else
    let hasFrac : Bool := match s1 with
      | '.' :: _ => true
      | _ => false
    let fp := if hasFrac then (spanDigits s1.tail).1 else []
    let s2 := if hasFrac then (spanDigits s1.tail).2 else s1
    if hasFrac ∧ fp = [] then none
    else
      let hasExp : Bool := match s2 with
        | 'e' :: _ => true
        | 'E' :: _ => true
        | _ => false
      let s3 := match s2.tail with
        | '+' :: r => r
        | '-' :: r => r
        | r => r
      let expNeg : Bool := match s2.tail with
        | '-' :: _ => true
        | _ => false
      let ep := if hasExp then (spanDigits s3).1 else []
      let s4 := if hasExp then (spanDigits s3).2 else s2
      if hasExp ∧ ep = [] then none
      else
        let e10 : Int := (if expNeg then -(digitsValue ep : Int) else (digitsValue ep : Int)) - fp.length
        match roundDecimal neg (digitsValue (ip ++ fp)) e10 with
        | .inf _ => some (.null, s4)
        | f => some (.number f, s4)

/-- The deepest nesting of arrays and objects the decoder accepts. -/
def maxNestingDepth : Nat := 10000

mutual
/-- One JSON value at the head of the text (white space already skipped): the
decoded value and the rest of the text. Every two nested calls consume at
least one character, so a fuel of twice the length of the text is never
exhausted. -/
def parseValue : Nat → Nat → List Char → Option (JSONValue × List Char)
  | 0, _, _ => none
  | fuel + 1, depth, s =>
    match s with
    | '{' :: r =>
      if maxNestingDepth ≤ depth then none
      else
        match skipSpace r with
        | '}' :: r' => some (.object [], r')
        | r' => parseMembers fuel (depth + 1) r' []
    | '[' :: r =>
      if maxNestingDepth ≤ depth then none
      else
        match skipSpace r with
        | ']' :: r' => some (.array [], r')
        | r' => parseElements fuel (depth + 1) r' []
    | '"' :: r => (parseString (r.length + 1) r).map (fun x => (.string x.1, x.2))
    | 't' :: 'r' :: 'u' :: 'e' :: r => some (.bool true, r)
    | 'f' :: 'a' :: 'l' :: 's' :: 'e' :: r => some (.bool false, r)
    | 'n' :: 'u' :: 'l' :: 'l' :: r => some (.null, r)
    | _ => parseNumber s
/-- The members of an object from the start of a key; `acc` is the map so far.
A repeated key replaces the earlier entry. -/
def parseMembers : Nat → Nat → List Char → List (List Char × JSONValue) → Option (JSONValue × List Char)
  | 0, _, _, _ => none
  | fuel + 1, depth, s, acc =>
    match s with
    | '"' :: r =>
      match parseString (r.length + 1) r with
      | none => none
      | some (key, r1) =>
        match skipSpace r1 with
        | ':' :: r2 =>
          match parseValue fuel depth (skipSpace r2) with
          | none => none
          | some (v, r3) =>
            match skipSpace r3 with
            | ',' :: r4 => parseMembers fuel depth (skipSpace r4) (mapAssign acc key v)
            | '}' :: r4 => some (.object (mapAssign acc key v), r4)
            | _ => none
        | _ => none
    | _ => none
/-- The elements of an array from the start of an element; `acc` holds the
elements so far. -/
def parseElements : Nat → Nat → List Char → List JSONValue → Option (JSONValue × List Char)
  | 0, _, _, _ => none
  | fuel + 1, depth, s, acc =>
    match parseValue fuel depth s with
    | none => none
    | some (v, r1) =>
      match skipSpace r1 with
      | ',' :: r2 => parseElements fuel depth (skipSpace r2) (acc ++ [v])
      | ']' :: r2 => some (.array (acc ++ [v]), r2)
      | _ => none
end

/-- Go `json.Unmarshal([]byte(text), &result)` for a nil
`result map[string]interface{}`, with the error dropped as at the call site:
the entries of `result` afterwards. The map is filled only when the text is
valid JSON whose top-level value is an object; otherwise it stays nil, which
indexes like an empty map. -/
def Unmarshal (text : List Char) : List (List Char × JSONValue) :=
  match parseValue (2 * text.length + 2) 0 (skipSpace text) with
  | some (.object entries, rest) => if skipSpace rest = [] then entries else []
  | _ => []

/-! ## The metric registry (`rcrowley/go-metrics`) -/

/-- A registered metric: a `Counter` or `Gauge` (both `int64`) or a `GaugeFloat64`. -/
inductive Metric where
  | counter (count : Int)
  | gauge (value : Int)
  | gaugeFloat64 (value : Float64)
  deriving DecidableEq, Repr

/-- A `metrics.Registry`: the metric registered under each name, if any. -/
abbrev Registry := String → Option Metric

/-- The registry made by `metrics.NewRegistry()`. -/
def NewRegistry : Registry := fun _ => none

/-- The registry with `name` bound to `m`. -/
def Registry.set (reg : Registry) (name : String) (m : Metric) : Registry :=
  fun k => if k = name then some m else reg k

/-- What a monitor's task can change: its registry, and the console. -/
structure State where
  registry : Registry
  stdout : List String

/-- The value a Go panic carries. -/
inductive PanicValue where
  | indexOutOfRange
  | interfaceConversion
  deriving DecidableEq, Repr

/-- How a call ended, with the state as it stands at that point. -/
inductive Outcome where
  | ok (st : State)
  | panic (st : State) (v : PanicValue)

/-- The state carried by an outcome. -/
def Outcome.state : Outcome → State
  | .ok st => st
  | .panic st _ => st

/-- The registry carried by an outcome. -/
def Outcome.registry (o : Outcome) : Registry := o.state.registry

/-- Whether the call panicked. -/
def Outcome.panicked : Outcome → Bool
  | .ok _ => false
  | .panic _ _ => true

/-- Sequencing: the next statement runs only if the previous one returned. -/
def Outcome.andThen (o : Outcome) (f : State → Outcome) : Outcome :=
  match o with
  | .ok st => f st
  | .panic st v => .panic st v

/-- Go `fmt.Println(s)` / `fmt.Printf(s)`: one more piece of text on the console. -/
def State.print (st : State) (s : String) : State :=
  { st with stdout := st.stdout ++ [s] }

/-- Go `metrics.GetOrRegisterCounter(name, r)`: registers a zero counter when
the name is free; the type assertion `.(Counter)` panics when the name holds a
metric of another kind. -/
def GetOrRegisterCounter (name : String) (st : State) : Outcome :=
  match st.registry name with
  | none => .ok { st with registry := st.registry.set name (.counter 0) }
  | some (.counter _) => .ok st
  | some _ => .panic st .interfaceConversion

/-- Go `metrics.GetOrRegisterGauge(name, r)`, likewise for an `int64` gauge. -/
def GetOrRegisterGauge (name : String) (st : State) : Outcome :=
  match st.registry name with
  | none => .ok { st with registry := st.registry.set name (.gauge 0) }
  | some (.gauge _) => .ok st
  | some _ => .panic st .interfaceConversion

/-- Go `metrics.GetOrRegisterGaugeFloat64(name, r)`, likewise for a float gauge. -/
def GetOrRegisterGaugeFloat64 (name : String) (st : State) : Outcome :=
  match st.registry name with
  | none => .ok { st with registry := st.registry.set name (.gaugeFloat64 (.finite false 0 0)) }
  | some (.gaugeFloat64 _) => .ok st
  | some _ => .panic st .interfaceConversion

/-- Go `counter.Inc(delta)` on the counter registered under `name`. -/
def counterInc (name : String) (delta : Int) (st : State) : State :=
  match st.registry name with
  | some (.counter c) =>
    { st with registry := st.registry.set name (.counter (wrapInt64 (c + delta))) }
  | _ => st

/-- Go `meter.Update(v)` on the `int64` gauge registered under `name`. -/
def gaugeUpdate (name : String) (v : Int) (st : State) : State :=
  match st.registry name with
  | some (.gauge _) => { st with registry := st.registry.set name (.gauge v) }
  | _ => st

/-- Go `meter.Update(v)` on the float gauge registered under `name`. -/
def gaugeFloat64Update (name : String) (v : Float64) (st : State) : State :=
  match st.registry name with
  | some (.gaugeFloat64 _) => { st with registry := st.registry.set name (.gaugeFloat64 v) }
  | _ => st

/-! ## The three regular expressions of `common.go`

Go's `regexp` returns the leftmost match and, among matches starting at the
same place, the one a backtracking matcher prefers (greedy operators take as
much as they can first). -/

/-- The pattern `freeMemory=([0-9]{1,}) totalMemory=([0-9]{1,})` anchored at the
head of the text; the two captures. A greedy digit group followed by a
character that is no digit can only match the whole run of digits. -/
def memoryMatchHere (s : List Char) : Option (List Char × List Char) :=
  match dropStart s "freeMemory=".data with
  | none => none
  | some s1 =>
    if (spanDigits s1).1 = [] then none
    else
      match dropStart (spanDigits s1).2 " totalMemory=".data with
      | none => none
      | some s3 =>
        if (spanDigits s3).1 = [] then none
        else some ((spanDigits s1).1, (spanDigits s3).1)

/-- Go `FindStringSubmatch` for the memory pattern: the captures of the leftmost
match, `none` for a nil result. -/
def memoryFindSubmatch : List Char → Option (List Char × List Char)
  | [] => none
  | c :: cs =>
    match memoryMatchHere (c :: cs) with
    | some r => some r
    | none => memoryFindSubmatch cs

/-- The tail `completed=true,duration=([0-9]{1,})ms` anchored at the head of the
text; the capture. -/
def durationTail (s : List Char) : Option (List Char) :=
  match dropStart s "completed=true,duration=".data with
  | none => none
  | some s1 =>
    if (spanDigits s1).1 = [] then none
    else if startsWith (spanDigits s1).2 "ms".data then some (spanDigits s1).1
    else none

/-- The part `.*completed=true,duration=([0-9]{1,})ms`: the greedy `.*` first
tries to take every character up to the end of the line, then gives characters
back one at a time; `.` does not match a newline. -/
def durationAfterAny : List Char → Option (List Char)
  | [] => durationTail []
  | c :: cs =>
    if c = Char.ofNat 10 then durationTail (c :: cs)
    else
      match durationAfterAny cs with
      | some d => some d
      | none => durationTail (c :: cs)

/-- The whole duration pattern anchored at the head of the text. -/
def durationMatchHere (s : List Char) : Option (List Char) :=
  match dropStart s "scrapeExecuteFinished".data with
  | none => none
  | some rest => durationAfterAny rest

/-- Go `FindStringSubmatch` for
`scrapeExecuteFinished.*completed=true,duration=([0-9]{1,})ms`. -/
def durationFindSubmatch : List Char → Option (List Char)
  | [] => none
  | c :: cs =>
    match durationMatchHere (c :: cs) with
    | some d => some d
    | none => durationFindSubmatch cs

/-- Matches one character per predicate at the head of the text; what follows. -/
def matchClasses : List (Char → Bool) → List Char → Option (List Char)
  | [], s => some s
  | _ :: _, [] => none
  | p :: ps, c :: cs => if p c then matchClasses ps cs else none

/-- The character classes of
`[0-9][0-9][0-9][0-9]-[0-9][0-9]-[0-9][0-9] [0-9][0-9]:[0-9][0-9]:[0-9][0-9]`. -/
def timestampClasses : List (Char → Bool) :=
  [isDigit, isDigit, isDigit, isDigit, (· == '-'), isDigit, isDigit, (· == '-'),
   isDigit, isDigit, (· == ' '), isDigit, isDigit, (· == ':'), isDigit, isDigit,
   (· == ':'), isDigit, isDigit]

/-- The part `.*(jsonMetricsMessageToBeSent)` anchored at the head of the text:
the text it matches (greedy, `.` matching no newline). -/
def metricsAfterAny : List Char → Option (List Char)
  | [] => none
  | c :: cs =>
    if c = Char.ofNat 10 then
      (if startsWith (c :: cs) "jsonMetricsMessageToBeSent".data
        then some "jsonMetricsMessageToBeSent".data else none)
    else
      match metricsAfterAny cs with
      | some m => some (c :: m)
      | none =>
        if startsWith (c :: cs) "jsonMetricsMessageToBeSent".data
          then some "jsonMetricsMessageToBeSent".data else none

/-- Go `FindString` for the structured-metrics trigger, anchored by `^` at the
start of the text: the matched text, empty when there is no match. -/
def metricsFindString (line : List Char) : List Char :=
  match matchClasses timestampClasses line with
  | none => []
  | some rest =>
    match metricsAfterAny rest with
    | none => []
    | some m => line.take 19 ++ m

/-! ## `strings.Split` -/

/-- Splitting at a non-empty separator, left to right: `skip` counts the
characters of a separator just found that are still to be passed over, `cur`
holds the current piece in reverse. -/
def splitAux (sep : List Char) : Nat → List Char → List Char → List (List Char)
  | _, [], cur => [cur.reverse]
  | skip + 1, _ :: cs, cur => splitAux sep skip cs cur
  | 0, c :: cs, cur =>
    if startsWith (c :: cs) sep then cur.reverse :: splitAux sep (sep.length - 1) cs []
    else splitAux sep 0 cs (c :: cur)

/-- Go `strings.Split(s, sep)` for a non-empty separator. -/
def Split (s sep : List Char) : List (List Char) := splitAux sep 0 s []

/-! ## `pkg/app/common.go` -/

/-- Go `writeDebugMessage` (app.go): with debug on, one console line naming the
application and the message. -/
def writeDebugMessage (debug : Bool) (message : String) (applicationName : String)
    (st : State) : State :=
  if debug then st.print ("     " ++ applicationName ++ " ---------> " ++ message ++ "\n") else st

/-- Go `parseMemoryMessages`. -/
def parseMemoryMessages (line : String) (applicationName : String) (debug : Bool)
    (st : State) : Outcome :=
  if Contains line.data "memoryUsageIs".data then
    match memoryFindSubmatch line.data with
    | some (freemem, totalmem) =>
      let st1 :=
        if debug then
          writeDebugMessage debug
            ("Common - Memory Report - Free " ++ String.mk freemem ++ " Max: " ++ String.mk totalmem)
            applicationName st
        else st
      (GetOrRegisterGaugeFloat64 "apm-common-memoryfree-bytes" st1).andThen fun st2 =>
      (GetOrRegisterGaugeFloat64 "apm-common-memorytotal-bytes"
          (gaugeFloat64Update "apm-common-memoryfree-bytes" (ParseFloat freemem) st2)).andThen
        fun st3 =>
      .ok (gaugeFloat64Update "apm-common-memorytotal-bytes" (ParseFloat totalmem) st3)
    | none => .ok st
  else .ok st

/-- Go `parseCommonMessages`. -/
def parseCommonMessages (line : String) (applicationName : String) (debug : Bool)
    (st : State) : Outcome :=
  (if Contains line.data "postPayloadStarted".data then
      (GetOrRegisterCounter "apm-alert-created-total"
          (writeDebugMessage debug "Common - Alert Created" applicationName st)).andThen
        fun st1 => .ok (counterInc "apm-alert-created-total" 1 st1)
    else .ok st).andThen fun st2 =>
  if Contains line.data "scrapeExecuteFinished".data then
    match durationFindSubmatch line.data with
    | some duration =>
      (GetOrRegisterGaugeFloat64 "apm-webharvest-exit-duration"
          (writeDebugMessage debug
            ("APM >> WebHarvest Thread Exit Duration: " ++ String.mk duration)
            applicationName st2)).andThen
        fun st3 => .ok (gaugeFloat64Update "apm-webharvest-exit-duration" (ParseFloat duration) st3)
    | none => .ok st2
  else .ok st2

/-- Go `rescue`, deferred by `parseMetricMessages`: a panic is recovered and
reported on the console, and the function returns normally. The `%d` rendering
of the panic value is abbreviated to its kind. -/
def rescue (o : Outcome) : Outcome :=
  match o with
  | .ok st => .ok st
  | .panic st v =>
    .ok (st.print ("Panic (code "
      ++ (match v with
          | .indexOutOfRange => "index out of range"
          | .interfaceConversion => "interface conversion")
      ++ ") has been recovered from somewhere\n"))

/-- One `if key == "<wellKnown>" { ... }` block of the loop in
`parseMetricMessages`: the type assertion on `metric[key]` panics unless the
value is an object; the gauge is fetched (registered if new) before the
integer is parsed, and updated only if parsing succeeds. -/
def metricBlock (metric : List (List Char × JSONValue)) (applicationName : String)
    (key : List Char) (wellKnown : String) (gaugeName : String) (st : State) : Outcome :=
  if key = wellKnown.data then
    match mapIndex metric key with
    | .object perApp =>
      (GetOrRegisterGauge gaugeName st).andThen fun st1 =>
        match ParseInt (sprintV (mapIndex perApp applicationName.data)) with
        | some valInt => .ok (gaugeUpdate gaugeName valInt st1)
        | none => .ok st1
    | _ => .panic st .interfaceConversion
  else .ok st

/-- The body of the loop `for key, _ := range metric`: the five blocks in the
order of the source. -/
def metricLoopBody (metric : List (List Char × JSONValue)) (applicationName : String)
    (key : List Char) (st : State) : Outcome :=
  (metricBlock metric applicationName key "apmAlertsRunning" "apm-metric-alertsrunning-total" st).andThen
    fun st1 =>
  (metricBlock metric applicationName key "apmAlertCreationRate"
      "apm-metric-alertcreationrate-total" st1).andThen fun st2 =>
  (metricBlock metric applicationName key "payloadReceptionRate"
      "apm-metric-payloadreceptionrate-total" st2).andThen fun st3 =>
  (metricBlock metric applicationName key "caseCreationRate"
      "apm-metric-casecreationrate-total" st3).andThen fun st4 =>
  metricBlock metric applicationName key "caseTerminateRate" "apm-metric-caseterminaterate-total" st4

/-- The loop over the keys in the order given; a panic ends it. -/
def metricLoop (metric : List (List Char × JSONValue)) (applicationName : String) :
    List (List Char) → State → Outcome
  | [], st => .ok st
  | key :: keys, st =>
    (metricLoopBody metric applicationName key st).andThen (metricLoop metric applicationName keys)

/-- The order in which a `range` loop visits the keys of a map: Go leaves it
unspecified, so it is a parameter; it maps the keys of the map to the visiting
sequence, a permutation of them. -/
abbrev KeyOrder := List (List Char) → List (List Char)

/-- Go `parseMetricMessages` without the deferred `rescue`. -/
def parseMetricMessagesBody (order : KeyOrder) (line : String) (applicationName : String)
    (debug : Bool) (st : State) : Outcome :=
  let st0 :=
    if debug then writeDebugMessage debug "Common - Processing Metrics" applicationName st else st
  if metricsFindString line.data ≠ [] then
    match (Split line.data "json=".data)[1]? with
    | none => .panic st0 .indexOutOfRange
    | some json_text =>
      match mapIndex (Unmarshal json_text) "metrics".data with
      | .object metric => metricLoop metric applicationName (order (metric.map Prod.fst)) st0
      | _ => .panic st0 .interfaceConversion
  else .ok st0

/-- Go `parseMetricMessages`: the body under `defer rescue()`. -/
def parseMetricMessages (order : KeyOrder) (line : String) (applicationName : String)
    (debug : Bool) (st : State) : Outcome :=
  rescue (parseMetricMessagesBody order line applicationName debug st)

/-- One severity block of `CategorizeLogData`: a debug line, then the counter. -/
def severityBlock (marker : String) (counterName : String) (line : String)
    (applicationName : String) (debug : Bool) (st : State) : Outcome :=
  if Contains line.data marker.data then
    (GetOrRegisterCounter counterName
        (writeDebugMessage debug (line ++ "\n") applicationName st)).andThen
      fun st1 => .ok (counterInc counterName 1 st1)
  else .ok st

/-- Go `CategorizeLogData`. -/
def CategorizeLogData (order : KeyOrder) (line : String) (applicationName : String)
    (debug : Bool) (st : State) : Outcome :=
  (if Contains line.data "memoryUsageIs".data then
      parseMemoryMessages line applicationName debug st
    else .ok st).andThen fun st1 =>
  (parseCommonMessages line applicationName debug st1).andThen fun st2 =>
  (if Contains line.data "jsonMetricsMessageToBeSent".data then
      parseMetricMessages order line applicationName debug st2
    else .ok st2).andThen fun st3 =>
  (severityBlock "WARN" "common-warn-messages-total" line applicationName debug st3).andThen
    fun st4 =>
  (severityBlock "ERROR" "common-error-messages-total" line applicationName debug st4).andThen
    fun st5 =>
  severityBlock "FATAL" "apm-common-fatal-messages-total" line applicationName debug st5

/-- A fresh monitor state: an empty registry and nothing printed. -/
def State.fresh : State := ⟨NewRegistry, []⟩

/-! ## `pkg/app/app.go` -/

/-- Go `Application`, without the embedded `App` and the handles of its
external collaborators (log follower, Prometheus registry and configuration).
`MetricsRegistry` is an interface value: `none` is Go's nil. `stdout` records
what the monitor's task has printed. -/
structure Application where
  ID : Int
  TotalLinesRead : Int
  ReadRate : Int
  LogTimeDifference : String
  ApplicationName : String
  LogPath : String
  MetricsRegistry : Option Registry
  DebugEnabled : Bool
  stdout : List String

/-- Go `App`: the supervisor and its sequence of applications. -/
structure App where
  MetricsShipFrequency : Int
  TotalLinesRead : Int
  LogTimeDifference : String
  Applications : List Application

/-- Go `NewApp`. -/
def NewApp : App :=
  { MetricsShipFrequency := 0, TotalLinesRead := 0, LogTimeDifference := "", Applications := [] }

/-- Go `NewApplication`: the fields not listed are zero values; in particular
`MetricsRegistry` is left nil. -/
def NewApplication (_app : App) (id : Int) (applicationName : String) : Application :=
  { ID := id, TotalLinesRead := 0, ReadRate := 0, LogTimeDifference := "",
    ApplicationName := applicationName, LogPath := "", MetricsRegistry := none,
    DebugEnabled := false, stdout := [] }

/-- Go `GetApplication`: `&app.Applications[i]`; `none` stands for the
index-out-of-range panic of the slice access. -/
def GetApplication (app : App) (i : Int) : Option Application :=
  if i < 0 then none else app.Applications[i.toNat]?

/-- Go `createRegistry`. -/
def createRegistry (_logPath : String) : Registry := NewRegistry

/-- Go `AddApplication`: the supervisor afterwards and the monitor returned.
The follower, the Prometheus provider and the start of the `queueWorker` task
act on collaborators outside this embedding; the body makes no assignment to
`app.Applications`. `createFollower` prints the path it attaches to. -/
def AddApplication (app : App) (id : Int) (applicationName : String) (logPath : String)
    (_maxRate : Int) (debugEnabled : Bool) : App × Application :=
  let application := NewApplication app id applicationName
  let application := { application with ID := id }
  let application := { application with stdout := ["Attaching to: " ++ logPath ++ "\n"] }
  let application :=
    { application with MetricsRegistry := some (createRegistry applicationName) }
  let application := { application with DebugEnabled := debugEnabled }
  (app, application)

/-- A monitor's worker task: the monitor, and the process-wide
`metrics.DefaultRegistry`, on which go-metrics acts when it is handed a nil
registry (`if nil == r { r = DefaultRegistry }`). -/
structure Worker where
  application : Application
  DefaultRegistry : Registry

/-- The registry the worker's go-metrics calls act on, with the console. -/
def Worker.state (w : Worker) : State :=
  match w.application.MetricsRegistry with
  | some reg => ⟨reg, w.application.stdout⟩
  | none => ⟨w.DefaultRegistry, w.application.stdout⟩

/-- The worker after its calls left the registry they act on, and the console,
as in `st`. -/
def Worker.withState (w : Worker) (st : State) : Worker :=
  match w.application.MetricsRegistry with
  | some _ =>
    { application :=
        { w.application with MetricsRegistry := some st.registry, stdout := st.stdout }
      DefaultRegistry := w.DefaultRegistry }
  | none =>
    { application := { w.application with stdout := st.stdout }
      DefaultRegistry := st.registry }

/-- Go `application.TotalLinesRead++`. -/
def Worker.countLine (w : Worker) : Worker :=
  { application :=
      { w.application with TotalLinesRead := wrapInt64 (w.application.TotalLinesRead + 1) }
    DefaultRegistry := w.DefaultRegistry }

/-- How the ingestion loop stands after a finite run of delivered lines: all
of them processed, or the task brought down by a panic. -/
inductive WorkerOutcome where
  | drained (w : Worker)
  | crashed (w : Worker) (v : PanicValue)

/-- The monitor carried by a worker outcome. -/
def WorkerOutcome.application : WorkerOutcome → Application
  | .drained w => w.application
  | .crashed w _ => w.application

/-- The loop of Go `queueWorker` over the lines delivered, each with the order
in which the metrics map of that line is visited: classify, then count the
line on the meter and on the monitor. Waiting on the rate limiter changes no
state. -/
def queueWorkerLoop : List (KeyOrder × String) → Worker → WorkerOutcome
  | [], w => .drained w
  | (order, line) :: rest, w =>
    match CategorizeLogData order line w.application.ApplicationName
        w.application.DebugEnabled w.state with
    | .panic st v => .crashed (w.withState st) v
    | .ok st =>
      queueWorkerLoop rest (w.withState (counterInc "apm-log-read-rate" 1 st)).countLine

/-- Go `queueWorker` on a finite run of delivered lines, in a process whose
`metrics.DefaultRegistry` is the one given. -/
def queueWorker (application : Application) (DefaultRegistry : Registry)
    (feed : List (KeyOrder × String)) : WorkerOutcome :=
  match GetOrRegisterCounter "apm-log-read-rate" (Worker.state ⟨application, DefaultRegistry⟩) with
  | .panic st v => .crashed (Worker.withState ⟨application, DefaultRegistry⟩ st) v
  | .ok st => queueWorkerLoop feed (Worker.withState ⟨application, DefaultRegistry⟩ st)

/-! ## Invariants of the registry -/

/-- The counters the rules write. -/
def counterNames : List String :=
  ["apm-alert-created-total", "common-warn-messages-total", "common-error-messages-total",
   "apm-common-fatal-messages-total"]

/-- The float gauges the rules write. -/
def floatGaugeNames : List String :=
  ["apm-common-memoryfree-bytes", "apm-common-memorytotal-bytes", "apm-webharvest-exit-duration"]

/-- The integer gauges the structured-metrics rule writes. -/
def gaugeNames : List String :=
  ["apm-metric-alertsrunning-total", "apm-metric-alertcreationrate-total",
   "apm-metric-payloadreceptionrate-total", "apm-metric-casecreationrate-total",
   "apm-metric-caseterminaterate-total"]

/-- Every name the classifier reads or writes. -/
def ruleNames : List String := counterNames ++ floatGaugeNames ++ gaugeNames

/-- Each name is used as one kind only: a name the rules use as a counter holds
a counter if it holds anything, and likewise for the two kinds of gauge. -/
def WellKinded (reg : Registry) : Prop :=
  (∀ name ∈ "apm-log-read-rate" :: counterNames, ∀ m, reg name = some m → ∃ c, m = .counter c) ∧
  (∀ name ∈ floatGaugeNames, ∀ m, reg name = some m → ∃ v, m = .gaugeFloat64 v) ∧
  (∀ name ∈ gaugeNames, ∀ m, reg name = some m → ∃ v, m = .gauge v)

/-- The count held under `name`; a name not yet registered counts as zero. -/
def counterValue (reg : Registry) (name : String) : Int :=
  match reg name with
  | some (.counter c) => c
  | _ => 0

/-! ## Notions used to state and prove the properties -/

/-- Two states whose registries hold the same metric under every name outside `X`. -/
def Agree (X : String → Prop) (st st' : State) : Prop :=
  ∀ name, ¬ X name → st.registry name = st'.registry name

/-- Two outcomes that both returned or both panicked, in agreeing states. -/
def OutAgree (X : String → Prop) (o o' : Outcome) : Prop :=
  o.panicked = o'.panicked ∧ Agree X o.state o'.state

/-- An outcome that returned, with a well-kinded registry. -/
def Safe (o : Outcome) : Prop := o.panicked = false ∧ WellKinded o.registry

/-- The count under `name` is an `int64` below the largest one, so that one
more increment does not wrap. -/
def CounterRoom (reg : Registry) (name : String) : Prop :=
  -(2 : Int) ^ 63 ≤ counterValue reg name ∧ counterValue reg name < 2 ^ 63 - 1

/-- Whether the text is one valid JSON value, possibly surrounded by white
space: the check `json.Unmarshal` makes before decoding. -/
def validJSON (text : List Char) : Bool :=
  match parseValue (2 * text.length + 2) 0 (skipSpace text) with
  | some (_, rest) => skipSpace rest = []
  | none => false

/-- The payload faults of a structured-metrics line: no `json=` delimiter; or a
payload that is not valid JSON; or a decoded payload without a `metrics` key;
or a `metrics` value that is not an object. -/
def PayloadFault (line : String) : Prop :=
  (Split line.data "json=".data)[1]? = none ∨
  ∃ json_text, (Split line.data "json=".data)[1]? = some json_text ∧
    (validJSON json_text = false ∨
     "metrics".data ∉ (Unmarshal json_text).map Prod.fst ∨
     ∀ metric, mapIndex (Unmarshal json_text) "metrics".data ≠ .object metric)

/-- The rules of `CategorizeLogData` other than the structured-metrics rule, in
the order of the source: memory, common messages, then the three severities. -/
def classifyOtherRules (line : String) (applicationName : String) (debug : Bool)
    (st : State) : Outcome :=
  (if Contains line.data "memoryUsageIs".data then
      parseMemoryMessages line applicationName debug st
    else .ok st).andThen fun st1 =>
  (parseCommonMessages line applicationName debug st1).andThen fun st2 =>
  (severityBlock "WARN" "common-warn-messages-total" line applicationName debug st2).andThen
    fun st4 =>
  (severityBlock "ERROR" "common-error-messages-total" line applicationName debug st4).andThen
    fun st5 =>
  severityBlock "FATAL" "apm-common-fatal-messages-total" line applicationName debug st5

/-- The lines classified one after another, each from the state the previous
one left. -/
def classifyAll (applicationName : String) (debug : Bool) :
    List (KeyOrder × String) → State → State
  | [], st => st
  | (order, line) :: rest, st =>
    classifyAll applicationName debug rest
      (CategorizeLogData order line applicationName debug st).state

/-- The five well-known keys of the metrics object, each with the gauge its
block of `parseMetricMessages` writes. -/
def wellKnownGauges : List (String × String) :=
  [("apmAlertsRunning", "apm-metric-alertsrunning-total"),
   ("apmAlertCreationRate", "apm-metric-alertcreationrate-total"),
   ("payloadReceptionRate", "apm-metric-payloadreceptionrate-total"),
   ("caseCreationRate", "apm-metric-casecreationrate-total"),
   ("caseTerminateRate", "apm-metric-caseterminaterate-total")]

/-- Whether a decoded value is an object (a `map[string]interface{}`). -/
def isObject : JSONValue → Bool
  | .object _ => true
  | _ => false

/-- No well-known key of the metrics object holds a value that is not an
object: no type assertion in the loop can panic. -/
def FaultFree (metric : List (List Char × JSONValue)) : Prop :=
  ∀ p ∈ wellKnownGauges, p.1.data ∈ metric.map Prod.fst →
    isObject (mapIndex metric p.1.data) = true

/-- The metric a gauge holds after its block ran on the per-application value
`v`: the parsed integer, or else what it held before (zero if new). -/
def gaugeAfter (v : JSONValue) (old : Option Metric) : Metric :=
  match ParseInt (sprintV v) with
  | some n => .gauge n
  | none =>
    match old with
    | some m => m
    | none => .gauge 0

/-- What the block of the well-known key `w` does to the entry of its gauge,
when it is visited and does not panic. -/
def gaugeStep (metric : List (List Char × JSONValue)) (a : String) (w : String)
    (old : Option Metric) : Option Metric :=
  match mapIndex metric w.data with
  | .object perApp => some (gaugeAfter (mapIndex perApp a.data) old)
  | _ => old

/-- The registry after one block that returns. -/
def blockEffect (metric : List (List Char × JSONValue)) (a : String) (key : List Char)
    (w g : String) (reg : Registry) : Registry :=
  if key = w.data then
    match gaugeStep metric a w (reg g) with
    | some m => reg.set g m
    | none => reg
  else reg

/-- The registry after one round of the loop in which every block returns. -/
def bodyEffect (metric : List (List Char × JSONValue)) (a : String) (key : List Char)
    (reg : Registry) : Registry :=
  blockEffect metric a key "caseTerminateRate" "apm-metric-caseterminaterate-total"
    (blockEffect metric a key "caseCreationRate" "apm-metric-casecreationrate-total"
      (blockEffect metric a key "payloadReceptionRate" "apm-metric-payloadreceptionrate-total"
        (blockEffect metric a key "apmAlertCreationRate" "apm-metric-alertcreationrate-total"
          (blockEffect metric a key "apmAlertsRunning" "apm-metric-alertsrunning-total" reg))))

/-- The registry after the whole loop, when no block panics. -/
def loopEffect (metric : List (List Char × JSONValue)) (a : String) :
    List (List Char) → Registry → Registry
  | [], reg => reg
  | key :: keys, reg => loopEffect metric a keys (bodyEffect metric a key reg)

/-- The metrics object of a structured-metrics line: `split[1]` decoded, and
its `metrics` entry when that is an object. -/
def lineMetrics (line : String) : Option (List (List Char × JSONValue)) :=
  match (Split line.data "json=".data)[1]? with
  | none => none
  | some json_text =>
    match mapIndex (Unmarshal json_text) "metrics".data with
    | .object metric => some metric
    | _ => none

/-- The per-application value nested under the well-known key `w`. -/
def perAppValue (metric : List (List Char × JSONValue)) (a : String) (w : String) :
    Option JSONValue :=
  match mapIndex metric w.data with
  | .object perApp => some (mapIndex perApp a.data)
  | _ => none

/-- The integer the block of `w` parses from the per-application value. -/
def perAppInt (metric : List (List Char × JSONValue)) (a : String) (w : String) : Option Int :=
  match perAppValue metric a w with
  | some v => ParseInt (sprintV v)
  | none => none

/-- The decoded number, when the value is a JSON number. -/
def asNumber : JSONValue → Option Float64
  | .number f => some f
  | _ => none

instance (metric : List (List Char × JSONValue)) : Decidable (FaultFree metric) :=
  inferInstanceAs (Decidable (∀ p ∈ wellKnownGauges, p.1.data ∈ metric.map Prod.fst →
    isObject (mapIndex metric p.1.data) = true))

/-- How the entry of a gauge name may change when the extraction for it fails:
it stays what it was, or a name that held nothing holds a gauge at zero. -/
def StaleOrZero (old new : Option Metric) : Prop :=
  new = old ∨ (old = none ∧ new = some (.gauge 0))

/-! ## Lemmas -/

theorem outAgree_ok {X : String → Prop} {s s' : State} (h : Agree X s s') :
    OutAgree X (.ok s) (.ok s') := ⟨rfl, h⟩

theorem outAgree_andThen {X : String → Prop} {o o' : Outcome} {f f' : State → Outcome}
    (h : OutAgree X o o') (hf : ∀ s s', Agree X s s' → OutAgree X (f s) (f' s')) :
    OutAgree X (o.andThen f) (o'.andThen f') := by
  obtain ⟨hp, hs⟩ := h
  cases o <;> cases o' <;> simp [Outcome.panicked] at hp
  · exact hf _ _ hs
  · exact ⟨rfl, hs⟩

theorem agree_writeDebugMessage {X : String → Prop} {s s' : State} (h : Agree X s s')
    (d d' : Bool) (m m' a a' : String) :
    Agree X (writeDebugMessage d m a s) (writeDebugMessage d' m' a' s') := by
  unfold writeDebugMessage State.print
  split <;> split <;> exact h

theorem agree_set {X : String → Prop} {s s' : State} (h : Agree X s s') (name : String)
    (m : Metric) :
    Agree X { s with registry := s.registry.set name m }
      { s' with registry := s'.registry.set name m } := by
  intro k hk
  simp only [Registry.set]
  split
  · rfl
  · exact h k hk

theorem outAgree_GetOrRegisterCounter {X : String → Prop} {s s' : State} (h : Agree X s s')
    {name : String} (hn : ¬ X name) :
    OutAgree X (GetOrRegisterCounter name s) (GetOrRegisterCounter name s') := by
  unfold GetOrRegisterCounter
  rw [← h name hn]
  split
  · exact outAgree_ok (agree_set h _ _)
  · exact outAgree_ok h
  · exact ⟨rfl, h⟩

theorem outAgree_GetOrRegisterGauge {X : String → Prop} {s s' : State} (h : Agree X s s')
    {name : String} (hn : ¬ X name) :
    OutAgree X (GetOrRegisterGauge name s) (GetOrRegisterGauge name s') := by
  unfold GetOrRegisterGauge
  rw [← h name hn]
  split
  · exact outAgree_ok (agree_set h _ _)
  · exact outAgree_ok h
  · exact ⟨rfl, h⟩

theorem outAgree_GetOrRegisterGaugeFloat64 {X : String → Prop} {s s' : State}
    (h : Agree X s s') {name : String} (hn : ¬ X name) :
    OutAgree X (GetOrRegisterGaugeFloat64 name s) (GetOrRegisterGaugeFloat64 name s') := by
  unfold GetOrRegisterGaugeFloat64
  rw [← h name hn]
  split
  · exact outAgree_ok (agree_set h _ _)
  · exact outAgree_ok h
  · exact ⟨rfl, h⟩

theorem agree_counterInc {X : String → Prop} {s s' : State} (h : Agree X s s')
    {name : String} (hn : ¬ X name) (d : Int) :
    Agree X (counterInc name d s) (counterInc name d s') := by
  unfold counterInc
  rw [← h name hn]
  split
  · exact agree_set h _ _
  · exact h

theorem agree_gaugeUpdate {X : String → Prop} {s s' : State} (h : Agree X s s')
    {name : String} (hn : ¬ X name) (v : Int) :
    Agree X (gaugeUpdate name v s) (gaugeUpdate name v s') := by
  unfold gaugeUpdate
  rw [← h name hn]
  split
  · exact agree_set h _ _
  · exact h

theorem agree_gaugeFloat64Update {X : String → Prop} {s s' : State} (h : Agree X s s')
    {name : String} (hn : ¬ X name) (v : Float64) :
    Agree X (gaugeFloat64Update name v s) (gaugeFloat64Update name v s') := by
  unfold gaugeFloat64Update
  rw [← h name hn]
  split
  · exact agree_set h _ _
  · exact h

theorem outAgree_parseMemoryMessages {X : String → Prop} (hX : ∀ n ∈ ruleNames, ¬ X n)
    (line a : String) (d d' : Bool) {s s' : State} (h : Agree X s s') :
    OutAgree X (parseMemoryMessages line a d s) (parseMemoryMessages line a d' s') := by
  unfold parseMemoryMessages
  split
  · split
    · refine outAgree_andThen (outAgree_GetOrRegisterGaugeFloat64 ?_ (hX _ (by decide))) ?_
      · cases d <;> cases d' <;> exact h
      · intro t t' ht
        refine outAgree_andThen (outAgree_GetOrRegisterGaugeFloat64
          (agree_gaugeFloat64Update ht (hX _ (by decide)) _) (hX _ (by decide))) ?_
        intro u u' hu
        exact outAgree_ok (agree_gaugeFloat64Update hu (hX _ (by decide)) _)
    · exact outAgree_ok h
  · exact outAgree_ok h

theorem outAgree_parseCommonMessages {X : String → Prop} (hX : ∀ n ∈ ruleNames, ¬ X n)
    (line a : String) (d d' : Bool) {s s' : State} (h : Agree X s s') :
    OutAgree X (parseCommonMessages line a d s) (parseCommonMessages line a d' s') := by
  unfold parseCommonMessages
  refine outAgree_andThen ?_ ?_
  · split
    · refine outAgree_andThen (outAgree_GetOrRegisterCounter
        (agree_writeDebugMessage h _ _ _ _ _ _) (hX _ (by decide))) ?_
      intro t t' ht
      exact outAgree_ok (agree_counterInc ht (hX _ (by decide)) _)
    · exact outAgree_ok h
  · intro t t' ht
    split
    · split
      · refine outAgree_andThen (outAgree_GetOrRegisterGaugeFloat64
          (agree_writeDebugMessage ht _ _ _ _ _ _) (hX _ (by decide))) ?_
        intro u u' hu
        exact outAgree_ok (agree_gaugeFloat64Update hu (hX _ (by decide)) _)
      · exact outAgree_ok ht
    · exact outAgree_ok ht

theorem outAgree_rescue {X : String → Prop} {o o' : Outcome} (h : OutAgree X o o') :
    OutAgree X (rescue o) (rescue o') := by
  obtain ⟨hp, hs⟩ := h
  cases o <;> cases o' <;> simp [Outcome.panicked] at hp
  · exact outAgree_ok hs
  · exact outAgree_ok hs

theorem outAgree_metricBlock {X : String → Prop} (metric : List (List Char × JSONValue))
    (a : String) (key : List Char) (wk g : String) (hg : ¬ X g) {s s' : State}
    (h : Agree X s s') :
    OutAgree X (metricBlock metric a key wk g s) (metricBlock metric a key wk g s') := by
  unfold metricBlock
  split
  · split
    · refine outAgree_andThen (outAgree_GetOrRegisterGauge h hg) ?_
      intro t t' ht
      split
      · exact outAgree_ok (agree_gaugeUpdate ht hg _)
      · exact outAgree_ok ht
    · exact ⟨rfl, h⟩
  · exact outAgree_ok h

theorem outAgree_metricLoopBody {X : String → Prop} (hX : ∀ n ∈ ruleNames, ¬ X n)
    (metric : List (List Char × JSONValue)) (a : String) (key : List Char) {s s' : State}
    (h : Agree X s s') :
    OutAgree X (metricLoopBody metric a key s) (metricLoopBody metric a key s') := by
  unfold metricLoopBody
  refine outAgree_andThen (outAgree_metricBlock _ _ _ _ _ (hX _ (by decide)) h) ?_
  intro t1 t1' h1
  refine outAgree_andThen (outAgree_metricBlock _ _ _ _ _ (hX _ (by decide)) h1) ?_
  intro t2 t2' h2
  refine outAgree_andThen (outAgree_metricBlock _ _ _ _ _ (hX _ (by decide)) h2) ?_
  intro t3 t3' h3
  refine outAgree_andThen (outAgree_metricBlock _ _ _ _ _ (hX _ (by decide)) h3) ?_
  intro t4 t4' h4
  exact outAgree_metricBlock _ _ _ _ _ (hX _ (by decide)) h4

theorem outAgree_metricLoop {X : String → Prop} (hX : ∀ n ∈ ruleNames, ¬ X n)
    (metric : List (List Char × JSONValue)) (a : String) (keys : List (List Char)) :
    ∀ {s s' : State}, Agree X s s' →
      OutAgree X (metricLoop metric a keys s) (metricLoop metric a keys s') := by
  induction keys with
  | nil => intro s s' h; exact outAgree_ok h
  | cons k ks ih =>
    intro s s' h
    unfold metricLoop
    exact outAgree_andThen (outAgree_metricLoopBody hX _ _ _ h) (fun t t' ht => ih ht)

theorem outAgree_parseMetricMessages {X : String → Prop} (hX : ∀ n ∈ ruleNames, ¬ X n)
    (order : KeyOrder) (line a : String) (d d' : Bool) {s s' : State} (h : Agree X s s') :
    OutAgree X (parseMetricMessages order line a d s) (parseMetricMessages order line a d' s') := by
  unfold parseMetricMessages
  apply outAgree_rescue
  unfold parseMetricMessagesBody
  have h0 : Agree X
      (if d = true then writeDebugMessage d "Common - Processing Metrics" a s else s)
      (if d' = true then writeDebugMessage d' "Common - Processing Metrics" a s' else s') := by
    cases d <;> cases d' <;> exact h
  simp only []
  split
  · split
    · exact ⟨rfl, h0⟩
    · split
      · exact outAgree_metricLoop hX _ _ _ h0
      · exact ⟨rfl, h0⟩
  · exact outAgree_ok h0

theorem outAgree_severityBlock {X : String → Prop} (marker c : String) (hc : ¬ X c)
    (line a : String) (d d' : Bool) {s s' : State} (h : Agree X s s') :
    OutAgree X (severityBlock marker c line a d s) (severityBlock marker c line a d' s') := by
  unfold severityBlock
  split
  · refine outAgree_andThen (outAgree_GetOrRegisterCounter
      (agree_writeDebugMessage h _ _ _ _ _ _) hc) ?_
    intro t t' ht
    exact outAgree_ok (agree_counterInc ht hc _)
  · exact outAgree_ok h

/-- The registry effect of classification does not depend on the console, on
the debug flag, or on registry entries under names the rules do not use. -/
theorem outAgree_CategorizeLogData {X : String → Prop} (hX : ∀ n ∈ ruleNames, ¬ X n)
    (order : KeyOrder) (line a : String) (d d' : Bool) {s s' : State} (h : Agree X s s') :
    OutAgree X (CategorizeLogData order line a d s) (CategorizeLogData order line a d' s') := by
  unfold CategorizeLogData
  refine outAgree_andThen ?_ ?_
  · split
    · exact outAgree_parseMemoryMessages hX _ _ _ _ h
    · exact outAgree_ok h
  intro t1 t1' h1
  refine outAgree_andThen (outAgree_parseCommonMessages hX _ _ _ _ h1) ?_
  intro t2 t2' h2
  refine outAgree_andThen ?_ ?_
  · split
    · exact outAgree_parseMetricMessages hX _ _ _ _ _ h2
    · exact outAgree_ok h2
  intro t3 t3' h3
  refine outAgree_andThen (outAgree_severityBlock _ _ (hX _ (by decide)) _ _ _ _ h3) ?_
  intro t4 t4' h4
  refine outAgree_andThen (outAgree_severityBlock _ _ (hX _ (by decide)) _ _ _ _ h4) ?_
  intro t5 t5' h5
  exact outAgree_severityBlock _ _ (hX _ (by decide)) _ _ _ _ h5

/-! ### Frame: an operation leaves the other names alone -/

theorem registry_andThen_keep {o : Outcome} {f : State → Outcome} {st : State} {k : String}
    (h : o.registry k = st.registry k) (hf : ∀ s, (f s).registry k = s.registry k) :
    (o.andThen f).registry k = st.registry k := by
  cases o with
  | ok s => exact (hf s).trans h
  | panic s v => exact h

theorem keep_writeDebugMessage (d : Bool) (m a : String) (st : State) :
    (writeDebugMessage d m a st).registry = st.registry := by
  unfold writeDebugMessage State.print
  split <;> rfl

theorem keep_GetOrRegisterCounter {n k : String} (h : k ≠ n) (st : State) :
    (GetOrRegisterCounter n st).registry k = st.registry k := by
  unfold GetOrRegisterCounter
  split <;> simp [Outcome.registry, Outcome.state, Registry.set, h]

theorem keep_GetOrRegisterGauge {n k : String} (h : k ≠ n) (st : State) :
    (GetOrRegisterGauge n st).registry k = st.registry k := by
  unfold GetOrRegisterGauge
  split <;> simp [Outcome.registry, Outcome.state, Registry.set, h]

theorem keep_GetOrRegisterGaugeFloat64 {n k : String} (h : k ≠ n) (st : State) :
    (GetOrRegisterGaugeFloat64 n st).registry k = st.registry k := by
  unfold GetOrRegisterGaugeFloat64
  split <;> simp [Outcome.registry, Outcome.state, Registry.set, h]

theorem keep_counterInc {n k : String} (h : k ≠ n) (d : Int) (st : State) :
    (counterInc n d st).registry k = st.registry k := by
  unfold counterInc
  split <;> simp [Registry.set, h]

theorem keep_gaugeUpdate {n k : String} (h : k ≠ n) (v : Int) (st : State) :
    (gaugeUpdate n v st).registry k = st.registry k := by
  unfold gaugeUpdate
  split <;> simp [Registry.set, h]

theorem keep_gaugeFloat64Update {n k : String} (h : k ≠ n) (v : Float64) (st : State) :
    (gaugeFloat64Update n v st).registry k = st.registry k := by
  unfold gaugeFloat64Update
  split <;> simp [Registry.set, h]

theorem keep_parseMemoryMessages {k : String} (h1 : k ≠ "apm-common-memoryfree-bytes")
    (h2 : k ≠ "apm-common-memorytotal-bytes") (line a : String) (d : Bool) (st : State) :
    (parseMemoryMessages line a d st).registry k = st.registry k := by
  unfold parseMemoryMessages
  split
  · split
    · refine registry_andThen_keep ?_ ?_
      · rw [keep_GetOrRegisterGaugeFloat64 h1]
        cases d
        · rfl
        · exact congrFun (keep_writeDebugMessage _ _ _ _) k
      · intro s
        refine registry_andThen_keep ?_ ?_
        · rw [keep_GetOrRegisterGaugeFloat64 h2, keep_gaugeFloat64Update h1]
        · intro t
          exact keep_gaugeFloat64Update h2 _ _
    · rfl
  · rfl

theorem keep_parseCommonMessages {k : String} (h1 : k ≠ "apm-alert-created-total")
    (h2 : k ≠ "apm-webharvest-exit-duration") (line a : String) (d : Bool) (st : State) :
    (parseCommonMessages line a d st).registry k = st.registry k := by
  unfold parseCommonMessages
  refine registry_andThen_keep ?_ ?_
  · split
    · refine registry_andThen_keep ?_ ?_
      · rw [keep_GetOrRegisterCounter h1, keep_writeDebugMessage]
      · intro s
        exact keep_counterInc h1 _ _
    · rfl
  · intro s
    split
    · split
      · refine registry_andThen_keep ?_ ?_
        · rw [keep_GetOrRegisterGaugeFloat64 h2, keep_writeDebugMessage]
        · intro t
          exact keep_gaugeFloat64Update h2 _ _
      · rfl
    · rfl

theorem keep_rescue (o : Outcome) : (rescue o).registry = o.registry := by
  cases o <;> rfl

theorem keep_metricBlock {k g : String} (h : k ≠ g) (metric : List (List Char × JSONValue))
    (a : String) (key : List Char) (wk : String) (st : State) :
    (metricBlock metric a key wk g st).registry k = st.registry k := by
  unfold metricBlock
  split
  · split
    · refine registry_andThen_keep (keep_GetOrRegisterGauge h _) ?_
      intro s
      split
      · exact keep_gaugeUpdate h _ _
      · rfl
    · rfl
  · rfl

theorem keep_metricLoopBody {k : String} (h : k ∉ gaugeNames)
    (metric : List (List Char × JSONValue)) (a : String) (key : List Char) (st : State) :
    (metricLoopBody metric a key st).registry k = st.registry k := by
  simp only [gaugeNames, List.mem_cons, List.mem_singleton, not_or, List.mem_nil_iff,
    not_false_eq_true, and_true] at h
  obtain ⟨h1, h2, h3, h4, h5⟩ := h
  unfold metricLoopBody
  refine registry_andThen_keep (keep_metricBlock h1 _ _ _ _ _) ?_
  intro s1
  refine registry_andThen_keep (keep_metricBlock h2 _ _ _ _ _) ?_
  intro s2
  refine registry_andThen_keep (keep_metricBlock h3 _ _ _ _ _) ?_
  intro s3
  refine registry_andThen_keep (keep_metricBlock h4 _ _ _ _ _) ?_
  intro s4
  exact keep_metricBlock h5 _ _ _ _ _

theorem keep_metricLoop {k : String} (h : k ∉ gaugeNames)
    (metric : List (List Char × JSONValue)) (a : String) (keys : List (List Char)) :
    ∀ st : State, (metricLoop metric a keys st).registry k = st.registry k := by
  induction keys with
  | nil => intro st; rfl
  | cons key keys ih =>
    intro st
    unfold metricLoop
    exact registry_andThen_keep (keep_metricLoopBody h _ _ _ _) ih

theorem keep_parseMetricMessages {k : String} (h : k ∉ gaugeNames) (order : KeyOrder)
    (line a : String) (d : Bool) (st : State) :
    (parseMetricMessages order line a d st).registry k = st.registry k := by
  unfold parseMetricMessages
  rw [keep_rescue]
  unfold parseMetricMessagesBody
  have h0 : (if d = true then writeDebugMessage d "Common - Processing Metrics" a st
      else st).registry = st.registry := by
    split
    · exact keep_writeDebugMessage _ _ _ _
    · rfl
  simp only []
  split
  · split
    · exact congrFun h0 k
    · split
      · rw [keep_metricLoop h]; exact congrFun h0 k
      · exact congrFun h0 k
  · exact congrFun h0 k

theorem keep_severityBlock {k c : String} (h : k ≠ c) (marker line a : String) (d : Bool)
    (st : State) : (severityBlock marker c line a d st).registry k = st.registry k := by
  unfold severityBlock
  split
  · refine registry_andThen_keep ?_ ?_
    · rw [keep_GetOrRegisterCounter h, keep_writeDebugMessage]
    · intro s
      exact keep_counterInc h _ _
  · rfl

/-- Classification leaves every name outside its rule outputs alone. -/
theorem keep_CategorizeLogData {k : String} (h : k ∉ ruleNames) (order : KeyOrder)
    (line a : String) (d : Bool) (st : State) :
    (CategorizeLogData order line a d st).registry k = st.registry k := by
  have hg : k ∉ gaugeNames := fun hk => h (by simp [ruleNames, hk])
  simp only [ruleNames, counterNames, floatGaugeNames, List.mem_append, List.mem_cons,
    List.mem_singleton, not_or, List.mem_nil_iff, or_false] at h
  obtain ⟨⟨⟨c1, c2, c3, c4⟩, f1, f2, f3⟩, -⟩ := h
  unfold CategorizeLogData
  refine registry_andThen_keep ?_ ?_
  · split
    · exact keep_parseMemoryMessages f1 f2 _ _ _ _
    · rfl
  intro s1
  refine registry_andThen_keep (keep_parseCommonMessages c1 f3 _ _ _ _) ?_
  intro s2
  refine registry_andThen_keep ?_ ?_
  · split
    · exact keep_parseMetricMessages hg _ _ _ _ _
    · rfl
  intro s3
  refine registry_andThen_keep (keep_severityBlock c2 _ _ _ _ _) ?_
  intro s4
  refine registry_andThen_keep (keep_severityBlock c3 _ _ _ _ _) ?_
  intro s5
  exact keep_severityBlock c4 _ _ _ _ _

/-! ### Kinds: on a well-kinded registry no registration panics -/

theorem safe_andThen {o : Outcome} {f : State → Outcome} (h : Safe o)
    (hf : ∀ s, WellKinded s.registry → Safe (f s)) : Safe (o.andThen f) := by
  cases o with
  | ok s => exact hf s h.2
  | panic s v => simp [Safe, Outcome.panicked] at h

theorem wellKinded_andThen {o : Outcome} {f : State → Outcome} (h : WellKinded o.registry)
    (hf : ∀ s, WellKinded s.registry → WellKinded (f s).registry) :
    WellKinded (o.andThen f).registry := by
  cases o with
  | ok s => exact hf s h
  | panic s v => exact h

theorem wellKinded_set_counter {reg : Registry} (h : WellKinded reg) {n : String}
    (h1 : n ∉ floatGaugeNames) (h2 : n ∉ gaugeNames) (c : Int) :
    WellKinded (reg.set n (.counter c)) := by
  refine ⟨fun name hn m hm => ?_, fun name hn m hm => ?_, fun name hn m hm => ?_⟩ <;>
    simp only [Registry.set] at hm <;> split at hm
  · exact ⟨c, (Option.some.inj hm).symm⟩
  · exact h.1 name hn m hm
  · subst_vars; exact absurd hn h1
  · exact h.2.1 name hn m hm
  · subst_vars; exact absurd hn h2
  · exact h.2.2 name hn m hm

theorem wellKinded_set_gaugeFloat64 {reg : Registry} (h : WellKinded reg) {n : String}
    (h1 : n ∉ "apm-log-read-rate" :: counterNames) (h2 : n ∉ gaugeNames) (v : Float64) :
    WellKinded (reg.set n (.gaugeFloat64 v)) := by
  refine ⟨fun name hn m hm => ?_, fun name hn m hm => ?_, fun name hn m hm => ?_⟩ <;>
    simp only [Registry.set] at hm <;> split at hm
  · subst_vars; exact absurd hn h1
  · exact h.1 name hn m hm
  · exact ⟨v, (Option.some.inj hm).symm⟩
  · exact h.2.1 name hn m hm
  · subst_vars; exact absurd hn h2
  · exact h.2.2 name hn m hm

theorem wellKinded_set_gauge {reg : Registry} (h : WellKinded reg) {n : String}
    (h1 : n ∉ "apm-log-read-rate" :: counterNames) (h2 : n ∉ floatGaugeNames) (v : Int) :
    WellKinded (reg.set n (.gauge v)) := by
  refine ⟨fun name hn m hm => ?_, fun name hn m hm => ?_, fun name hn m hm => ?_⟩ <;>
    simp only [Registry.set] at hm <;> split at hm
  · subst_vars; exact absurd hn h1
  · exact h.1 name hn m hm
  · subst_vars; exact absurd hn h2
  · exact h.2.1 name hn m hm
  · exact ⟨v, (Option.some.inj hm).symm⟩
  · exact h.2.2 name hn m hm

theorem wellKinded_NewRegistry : WellKinded NewRegistry := by
  refine ⟨fun name _ m hm => ?_, fun name _ m hm => ?_, fun name _ m hm => ?_⟩ <;>
    simp [NewRegistry] at hm

theorem wellKinded_writeDebugMessage {st : State} (h : WellKinded st.registry) (d : Bool)
    (m a : String) : WellKinded (writeDebugMessage d m a st).registry := by
  rw [keep_writeDebugMessage]; exact h

/-- On a well-kinded registry, incrementing a counter the rules use returns,
and the counter then holds its old count plus the increment, wrapped. -/
theorem counter_step {st : State} (h : WellKinded st.registry) {n : String}
    (hn : n ∈ "apm-log-read-rate" :: counterNames) (d : Int) :
    ∃ s, (GetOrRegisterCounter n st).andThen (fun s1 => .ok (counterInc n d s1)) = .ok s ∧
      s.stdout = st.stdout ∧
      s.registry = st.registry.set n (.counter (wrapInt64 (counterValue st.registry n + d))) := by
  unfold GetOrRegisterCounter counterValue
  cases hr : st.registry n with
  | none =>
    refine ⟨_, rfl, ?_, ?_⟩
    · simp [counterInc, Registry.set]
    · funext k
      simp only [counterInc, Registry.set, if_true]
      split <;> simp
  | some m =>
    obtain ⟨c, rfl⟩ := h.1 n hn m hr
    refine ⟨_, rfl, ?_, ?_⟩
    · simp [counterInc, hr]
    · simp [counterInc, hr]

theorem gaugeFloat64_step {st : State} (h : WellKinded st.registry) {n : String}
    (hn : n ∈ floatGaugeNames) (v : Float64) :
    ∃ s, (GetOrRegisterGaugeFloat64 n st).andThen
        (fun s1 => .ok (gaugeFloat64Update n v s1)) = .ok s ∧
      s.stdout = st.stdout ∧ s.registry = st.registry.set n (.gaugeFloat64 v) := by
  unfold GetOrRegisterGaugeFloat64
  cases hr : st.registry n with
  | none =>
    refine ⟨_, rfl, ?_, ?_⟩
    · simp [gaugeFloat64Update, Registry.set]
    · funext k
      simp only [gaugeFloat64Update, Registry.set, if_true]
      split <;> simp
  | some m =>
    obtain ⟨c, rfl⟩ := h.2.1 n hn m hr
    refine ⟨_, rfl, ?_, ?_⟩
    · simp [gaugeFloat64Update, hr]
    · simp [gaugeFloat64Update, hr]

theorem safe_of_ok {o : Outcome} {s : State} (h : o = .ok s) (hw : WellKinded s.registry) :
    Safe o := by
  subst h; exact ⟨rfl, hw⟩

theorem safe_counter_block {st : State} (h : WellKinded st.registry) {n : String}
    (hn : n ∈ counterNames) (h1 : n ∉ floatGaugeNames) (h2 : n ∉ gaugeNames) :
    Safe ((GetOrRegisterCounter n st).andThen (fun s1 => .ok (counterInc n 1 s1))) := by
  obtain ⟨s, hs, -, hr⟩ := counter_step h (List.mem_cons_of_mem _ hn) 1
  refine safe_of_ok hs ?_
  rw [hr]
  exact wellKinded_set_counter h h1 h2 _

theorem safe_gaugeFloat64_block {st : State} (h : WellKinded st.registry) {n : String}
    (hn : n ∈ floatGaugeNames) (h1 : n ∉ "apm-log-read-rate" :: counterNames)
    (h2 : n ∉ gaugeNames) (v : Float64) :
    Safe ((GetOrRegisterGaugeFloat64 n st).andThen
      (fun s1 => .ok (gaugeFloat64Update n v s1))) := by
  obtain ⟨s, hs, -, hr⟩ := gaugeFloat64_step h hn v
  refine safe_of_ok hs ?_
  rw [hr]
  exact wellKinded_set_gaugeFloat64 h h1 h2 _

theorem safe_parseMemoryMessages (line a : String) (d : Bool) {st : State}
    (h : WellKinded st.registry) : Safe (parseMemoryMessages line a d st) := by
  unfold parseMemoryMessages
  split
  · split
    · rename_i f t _
      have h0 : WellKinded (if d = true then writeDebugMessage d
          ("Common - Memory Report - Free " ++ String.mk f ++ " Max: " ++ String.mk t) a st
          else st).registry := by
        split
        · exact wellKinded_writeDebugMessage h _ _ _
        · exact h
      obtain ⟨s, hs, -, hr⟩ := gaugeFloat64_step h0
        (n := "apm-common-memoryfree-bytes") (by decide) (ParseFloat f)
      have hw : WellKinded s.registry := by
        rw [hr]; exact wellKinded_set_gaugeFloat64 h0 (by decide) (by decide) _
      have key : ∀ o : Outcome, (o.andThen fun s1 =>
            Outcome.ok (gaugeFloat64Update "apm-common-memoryfree-bytes" (ParseFloat f) s1)) = .ok s →
          Safe (o.andThen fun st2 =>
            (GetOrRegisterGaugeFloat64 "apm-common-memorytotal-bytes"
              (gaugeFloat64Update "apm-common-memoryfree-bytes" (ParseFloat f) st2)).andThen
            fun st3 => .ok (gaugeFloat64Update "apm-common-memorytotal-bytes" (ParseFloat t) st3)) := by
        intro o ho
        cases o with
        | panic s' v => simp [Outcome.andThen] at ho
        | ok s' =>
          simp only [Outcome.andThen, Outcome.ok.injEq] at ho
          simp only [Outcome.andThen]
          rw [ho]
          exact safe_gaugeFloat64_block hw (by decide) (by decide) (by decide) _
      exact key _ hs
    · exact ⟨rfl, h⟩
  · exact ⟨rfl, h⟩

theorem safe_parseCommonMessages (line a : String) (d : Bool) {st : State}
    (h : WellKinded st.registry) : Safe (parseCommonMessages line a d st) := by
  unfold parseCommonMessages
  refine safe_andThen ?_ ?_
  · split
    · exact safe_counter_block (wellKinded_writeDebugMessage h _ _ _) (by decide) (by decide)
        (by decide)
    · exact ⟨rfl, h⟩
  · intro s hs
    split
    · split
      · exact safe_gaugeFloat64_block (wellKinded_writeDebugMessage hs _ _ _) (by decide)
          (by decide) (by decide) _
      · exact ⟨rfl, hs⟩
    · exact ⟨rfl, hs⟩

theorem safe_severityBlock (marker : String) {c : String} (hc : c ∈ counterNames)
    (h1 : c ∉ floatGaugeNames) (h2 : c ∉ gaugeNames) (line a : String) (d : Bool) {st : State}
    (h : WellKinded st.registry) : Safe (severityBlock marker c line a d st) := by
  unfold severityBlock
  split
  · exact safe_counter_block (wellKinded_writeDebugMessage h _ _ _) hc h1 h2
  · exact ⟨rfl, h⟩

theorem wellKinded_GetOrRegisterGauge {g : String}
    (h1 : g ∉ "apm-log-read-rate" :: counterNames) (h2 : g ∉ floatGaugeNames) {st : State}
    (h : WellKinded st.registry) : WellKinded (GetOrRegisterGauge g st).registry := by
  unfold GetOrRegisterGauge
  split
  · exact wellKinded_set_gauge h h1 h2 _
  · exact h
  · exact h

theorem wellKinded_gaugeUpdate {g : String}
    (h1 : g ∉ "apm-log-read-rate" :: counterNames) (h2 : g ∉ floatGaugeNames) (v : Int)
    {st : State} (h : WellKinded st.registry) : WellKinded (gaugeUpdate g v st).registry := by
  unfold gaugeUpdate
  split
  · exact wellKinded_set_gauge h h1 h2 _
  · exact h

theorem wellKinded_metricBlock {g : String}
    (h1 : g ∉ "apm-log-read-rate" :: counterNames) (h2 : g ∉ floatGaugeNames)
    (metric : List (List Char × JSONValue)) (a : String) (key : List Char) (wk : String)
    {st : State} (h : WellKinded st.registry) :
    WellKinded (metricBlock metric a key wk g st).registry := by
  unfold metricBlock
  split
  · split
    · refine wellKinded_andThen (wellKinded_GetOrRegisterGauge h1 h2 h) ?_
      intro s hs
      split
      · exact wellKinded_gaugeUpdate h1 h2 _ hs
      · exact hs
    · exact h
  · exact h

theorem wellKinded_metricLoopBody (metric : List (List Char × JSONValue)) (a : String)
    (key : List Char) {st : State} (h : WellKinded st.registry) :
    WellKinded (metricLoopBody metric a key st).registry := by
  unfold metricLoopBody
  refine wellKinded_andThen
    (wellKinded_metricBlock (by decide) (by decide) _ _ _ _ h) ?_
  intro s1 h1
  refine wellKinded_andThen
    (wellKinded_metricBlock (by decide) (by decide) _ _ _ _ h1) ?_
  intro s2 h2
  refine wellKinded_andThen
    (wellKinded_metricBlock (by decide) (by decide) _ _ _ _ h2) ?_
  intro s3 h3
  refine wellKinded_andThen
    (wellKinded_metricBlock (by decide) (by decide) _ _ _ _ h3) ?_
  intro s4 h4
  exact wellKinded_metricBlock (by decide) (by decide) _ _ _ _ h4

theorem wellKinded_metricLoop (metric : List (List Char × JSONValue)) (a : String)
    (keys : List (List Char)) :
    ∀ {st : State}, WellKinded st.registry →
      WellKinded (metricLoop metric a keys st).registry := by
  induction keys with
  | nil => intro st h; exact h
  | cons key keys ih =>
    intro st h
    unfold metricLoop
    exact wellKinded_andThen (wellKinded_metricLoopBody _ _ _ h) (fun s hs => ih hs)

/-- The structured-metrics rule always returns: `rescue` recovers every panic. -/
theorem parseMetricMessages_returns (order : KeyOrder) (line a : String) (d : Bool)
    (st : State) : (parseMetricMessages order line a d st).panicked = false := by
  unfold parseMetricMessages rescue
  split <;> rfl

theorem safe_parseMetricMessages (order : KeyOrder) (line a : String) (d : Bool) {st : State}
    (h : WellKinded st.registry) : Safe (parseMetricMessages order line a d st) := by
  refine ⟨parseMetricMessages_returns _ _ _ _ _, ?_⟩
  unfold parseMetricMessages
  rw [keep_rescue]
  unfold parseMetricMessagesBody
  have h0 : WellKinded (if d = true then writeDebugMessage d "Common - Processing Metrics" a st
      else st).registry := by
    split
    · exact wellKinded_writeDebugMessage h _ _ _
    · exact h
  simp only []
  split
  · split
    · exact h0
    · split
      · exact wellKinded_metricLoop _ _ _ h0
      · exact h0
  · exact h0

/-- On a well-kinded registry classification returns, and the registry stays
well-kinded. -/
theorem safe_CategorizeLogData (order : KeyOrder) (line a : String) (d : Bool) {st : State}
    (h : WellKinded st.registry) : Safe (CategorizeLogData order line a d st) := by
  unfold CategorizeLogData
  refine safe_andThen ?_ ?_
  · split
    · exact safe_parseMemoryMessages _ _ _ h
    · exact ⟨rfl, h⟩
  intro s1 h1
  refine safe_andThen (safe_parseCommonMessages _ _ _ h1) ?_
  intro s2 h2
  refine safe_andThen ?_ ?_
  · split
    · exact safe_parseMetricMessages _ _ _ _ h2
    · exact ⟨rfl, h2⟩
  intro s3 h3
  refine safe_andThen (safe_severityBlock _ (by decide) (by decide) (by decide) _ _ _ h3) ?_
  intro s4 h4
  refine safe_andThen (safe_severityBlock _ (by decide) (by decide) (by decide) _ _ _ h4) ?_
  intro s5 h5
  exact safe_severityBlock _ (by decide) (by decide) (by decide) _ _ _ h5

theorem wellKinded_fresh : WellKinded State.fresh.registry := wellKinded_NewRegistry

theorem counterRoom_fresh (c : String) : CounterRoom State.fresh.registry c := by
  simp [CounterRoom, counterValue, State.fresh, NewRegistry]

theorem Safe.exists_ok {o : Outcome} (h : Safe o) : ∃ s, o = .ok s ∧ WellKinded s.registry := by
  cases o with
  | ok s => exact ⟨s, rfl, h.2⟩
  | panic s v => simp [Safe, Outcome.panicked] at h

/-- On a well-kinded registry the six stages of `CategorizeLogData` all return;
the states between them. -/
theorem categorize_stages (order : KeyOrder) (line a : String) (d : Bool) {st : State}
    (h : WellKinded st.registry) :
    ∃ s1 s2 s3 s4 s5 s6 : State,
      (if Contains line.data "memoryUsageIs".data then parseMemoryMessages line a d st
        else .ok st) = .ok s1 ∧
      parseCommonMessages line a d s1 = .ok s2 ∧
      (if Contains line.data "jsonMetricsMessageToBeSent".data then
        parseMetricMessages order line a d s2 else .ok s2) = .ok s3 ∧
      severityBlock "WARN" "common-warn-messages-total" line a d s3 = .ok s4 ∧
      severityBlock "ERROR" "common-error-messages-total" line a d s4 = .ok s5 ∧
      severityBlock "FATAL" "apm-common-fatal-messages-total" line a d s5 = .ok s6 ∧
      CategorizeLogData order line a d st = .ok s6 ∧
      WellKinded s1.registry ∧ WellKinded s2.registry ∧ WellKinded s3.registry ∧
      WellKinded s4.registry ∧ WellKinded s5.registry ∧ WellKinded s6.registry := by
  have hA : Safe (if Contains line.data "memoryUsageIs".data then
      parseMemoryMessages line a d st else .ok st) := by
    split
    · exact safe_parseMemoryMessages _ _ _ h
    · exact ⟨rfl, h⟩
  obtain ⟨s1, e1, w1⟩ := hA.exists_ok
  obtain ⟨s2, e2, w2⟩ := (safe_parseCommonMessages line a d w1).exists_ok
  have hM : Safe (if Contains line.data "jsonMetricsMessageToBeSent".data then
      parseMetricMessages order line a d s2 else .ok s2) := by
    split
    · exact safe_parseMetricMessages _ _ _ _ w2
    · exact ⟨rfl, w2⟩
  obtain ⟨s3, e3, w3⟩ := hM.exists_ok
  obtain ⟨s4, e4, w4⟩ := (safe_severityBlock "WARN" (c := "common-warn-messages-total")
    (by decide) (by decide) (by decide) line a d w3).exists_ok
  obtain ⟨s5, e5, w5⟩ := (safe_severityBlock "ERROR" (c := "common-error-messages-total")
    (by decide) (by decide) (by decide) line a d w4).exists_ok
  obtain ⟨s6, e6, w6⟩ := (safe_severityBlock "FATAL" (c := "apm-common-fatal-messages-total")
    (by decide) (by decide) (by decide) line a d w5).exists_ok
  refine ⟨s1, s2, s3, s4, s5, s6, e1, e2, e3, e4, e5, e6, ?_, w1, w2, w3, w4, w5, w6⟩
  unfold CategorizeLogData
  rw [e1]; simp only [Outcome.andThen]
  rw [e2]; simp only [Outcome.andThen]
  rw [e3]; simp only [Outcome.andThen]
  rw [e4]; simp only [Outcome.andThen]
  rw [e5]; simp only [Outcome.andThen]
  exact e6

theorem registry_of_eq_ok {o : Outcome} {s : State} (h : o = .ok s) : o.registry = s.registry := by
  subst h; rfl

theorem wrapInt64_of_range {x : Int} (h1 : -(2 : Int) ^ 63 ≤ x) (h2 : x < 2 ^ 63) :
    wrapInt64 x = x := by
  unfold wrapInt64
  rw [Int.emod_eq_of_lt (by omega) (by omega)]
  omega

/-- The effect of one severity block on its own counter. -/
theorem severityBlock_counter (marker : String) {c : String} (hc : c ∈ counterNames)
    (line a : String) (d : Bool) {st s : State} (h : WellKinded st.registry)
    (hs : severityBlock marker c line a d st = .ok s) :
    s.registry c =
      if Contains line.data marker.data then
        some (.counter (wrapInt64 (counterValue st.registry c + 1)))
      else st.registry c := by
  unfold severityBlock at hs
  split at hs
  · rename_i hcon
    obtain ⟨s', hs', -, hr⟩ := counter_step (wellKinded_writeDebugMessage h d (line ++ "\n") a)
      (List.mem_cons_of_mem _ hc) 1
    rw [hs'] at hs
    cases hs
    rw [hr, keep_writeDebugMessage]
    simp [Registry.set, hcon]
  · rename_i hcon
    cases hs
    simp [hcon]

/-! ### The captures are digit strings -/

theorem spanDigits_fst_all (s : List Char) : (spanDigits s).1.all isDigit = true := by
  induction s with
  | nil => rfl
  | cons c cs ih =>
    unfold spanDigits
    split
    · rename_i hc
      simp only [List.all_cons, hc, ih, Bool.and_self]
    · rfl

theorem memoryMatchHere_digits {s f t : List Char} (h : memoryMatchHere s = some (f, t)) :
    (f ≠ [] ∧ f.all isDigit = true) ∧ (t ≠ [] ∧ t.all isDigit = true) := by
  unfold memoryMatchHere at h
  split at h
  · cases h
  · split at h
    · cases h
    · rename_i hf
      split at h
      · cases h
      · split at h
        · cases h
        · rename_i ht
          simp only [Option.some.injEq, Prod.mk.injEq] at h
          obtain ⟨rfl, rfl⟩ := h
          exact ⟨⟨hf, spanDigits_fst_all _⟩, ⟨ht, spanDigits_fst_all _⟩⟩

theorem memoryFindSubmatch_digits {s f t : List Char} (h : memoryFindSubmatch s = some (f, t)) :
    (f ≠ [] ∧ f.all isDigit = true) ∧ (t ≠ [] ∧ t.all isDigit = true) := by
  induction s with
  | nil => simp [memoryFindSubmatch] at h
  | cons c cs ih =>
    unfold memoryFindSubmatch at h
    split at h
    · rename_i r hr
      cases h
      exact memoryMatchHere_digits hr
    · exact ih h

theorem durationTail_digits {s d : List Char} (h : durationTail s = some d) :
    d ≠ [] ∧ d.all isDigit = true := by
  unfold durationTail at h
  split at h
  · cases h
  · split at h
    · cases h
    · rename_i hd
      split at h
      · cases h
        exact ⟨hd, spanDigits_fst_all _⟩
      · cases h

theorem durationAfterAny_digits {s d : List Char} (h : durationAfterAny s = some d) :
    d ≠ [] ∧ d.all isDigit = true := by
  induction s with
  | nil => exact durationTail_digits (by simpa [durationAfterAny] using h)
  | cons c cs ih =>
    unfold durationAfterAny at h
    split at h
    · exact durationTail_digits h
    · split at h
      · rename_i d' hd'
        cases h
        exact ih hd'
      · exact durationTail_digits h

theorem durationFindSubmatch_digits {s d : List Char} (h : durationFindSubmatch s = some d) :
    d ≠ [] ∧ d.all isDigit = true := by
  induction s with
  | nil => simp [durationFindSubmatch] at h
  | cons c cs ih =>
    unfold durationFindSubmatch at h
    split at h
    · rename_i r hr
      cases h
      unfold durationMatchHere at hr
      split at hr
      · cases hr
      · exact durationAfterAny_digits hr
    · exact ih h

theorem ParseFloat_digits {d : List Char} (h : d ≠ [] ∧ d.all isDigit = true) :
    ParseFloat d = roundToFloat64 (digitsValue d) := by
  unfold ParseFloat
  rw [if_pos h]

theorem roundToFloat64_exact {n : Nat} (h : n < 2 ^ 53) :
    roundToFloat64 n = .finite false n 0 := by
  unfold roundToFloat64
  rw [if_pos h]

/-! ### Effects of the memory and common rules -/

theorem getOrRegisterGaugeFloat64_ok {st : State} (h : WellKinded st.registry) {n : String}
    (hn : n ∈ floatGaugeNames) :
    ∃ s0, GetOrRegisterGaugeFloat64 n st = .ok s0 ∧
      ∀ v, (gaugeFloat64Update n v s0).registry = st.registry.set n (.gaugeFloat64 v) := by
  unfold GetOrRegisterGaugeFloat64
  cases hr : st.registry n with
  | none =>
    refine ⟨_, rfl, fun v => ?_⟩
    funext k
    simp only [gaugeFloat64Update, Registry.set, if_true]
    split <;> simp
  | some m =>
    obtain ⟨c, rfl⟩ := h.2.1 n hn m hr
    exact ⟨_, rfl, fun v => by simp [gaugeFloat64Update, hr]⟩

/-- The memory rule, on a line where its pattern matches: both gauges are set. -/
theorem parseMemoryMessages_effect {line a : String} {d : Bool} {st s : State}
    {f t : List Char} (h : WellKinded st.registry)
    (hc : Contains line.data "memoryUsageIs".data = true)
    (hm : memoryFindSubmatch line.data = some (f, t))
    (hs : parseMemoryMessages line a d st = .ok s) :
    s.registry "apm-common-memoryfree-bytes" = some (.gaugeFloat64 (ParseFloat f)) ∧
    s.registry "apm-common-memorytotal-bytes" = some (.gaugeFloat64 (ParseFloat t)) := by
  unfold parseMemoryMessages at hs
  rw [if_pos hc, hm] at hs
  simp only [] at hs
  have h0 : WellKinded (if d = true then writeDebugMessage d
      ("Common - Memory Report - Free " ++ String.mk f ++ " Max: " ++ String.mk t) a st
      else st).registry := by
    split
    · exact wellKinded_writeDebugMessage h _ _ _
    · exact h
  obtain ⟨s0, e0, u0⟩ := getOrRegisterGaugeFloat64_ok h0 (n := "apm-common-memoryfree-bytes")
    (by decide)
  rw [e0] at hs
  simp only [Outcome.andThen] at hs
  have h1 : WellKinded (gaugeFloat64Update "apm-common-memoryfree-bytes" (ParseFloat f)
      s0).registry := by
    rw [u0]; exact wellKinded_set_gaugeFloat64 h0 (by decide) (by decide) _
  obtain ⟨s1, e1, u1⟩ := getOrRegisterGaugeFloat64_ok h1 (n := "apm-common-memorytotal-bytes")
    (by decide)
  rw [e1] at hs
  simp only [Outcome.andThen, Outcome.ok.injEq] at hs
  subst hs
  rw [u1, u0]
  constructor <;> simp [Registry.set]

/-- The common rule, on a line where the duration pattern matches. -/
theorem parseCommonMessages_duration {line a : String} {d : Bool} {st s : State}
    {dur : List Char} (h : WellKinded st.registry)
    (hc : Contains line.data "scrapeExecuteFinished".data = true)
    (hm : durationFindSubmatch line.data = some dur)
    (hs : parseCommonMessages line a d st = .ok s) :
    s.registry "apm-webharvest-exit-duration" = some (.gaugeFloat64 (ParseFloat dur)) := by
  unfold parseCommonMessages at hs
  have hA : Safe (if Contains line.data "postPayloadStarted".data = true then
      (GetOrRegisterCounter "apm-alert-created-total"
        (writeDebugMessage d "Common - Alert Created" a st)).andThen
        fun st1 => Outcome.ok (counterInc "apm-alert-created-total" 1 st1)
      else Outcome.ok st) := by
    split
    · exact safe_counter_block (wellKinded_writeDebugMessage h _ _ _) (by decide) (by decide)
        (by decide)
    · exact ⟨rfl, h⟩
  obtain ⟨s2, e2, w2⟩ := hA.exists_ok
  rw [e2] at hs
  simp only [Outcome.andThen] at hs
  rw [if_pos hc, hm] at hs
  simp only [] at hs
  obtain ⟨s0, e0, u0⟩ := getOrRegisterGaugeFloat64_ok
    (wellKinded_writeDebugMessage w2 d
      ("APM >> WebHarvest Thread Exit Duration: " ++ String.mk dur) a)
    (n := "apm-webharvest-exit-duration") (by decide)
  rw [e0] at hs
  simp only [Outcome.andThen, Outcome.ok.injEq] at hs
  subst hs
  rw [u0]
  simp [Registry.set]

/-! ### The loop of the structured-metrics rule -/

theorem State.ext_registry {st : State} {r r' : Registry} (h : r = r') :
    ({ st with registry := r } : State) = { st with registry := r' } := by
  rw [h]

/-- One block, when the gauge name holds a gauge or nothing and the type
assertion holds. -/
theorem metricBlock_eq (metric : List (List Char × JSONValue)) (a : String) (key : List Char)
    (w g : String) (st : State)
    (hk : ∀ m, st.registry g = some m → ∃ v, m = .gauge v)
    (hobj : key = w.data → isObject (mapIndex metric w.data) = true) :
    metricBlock metric a key w g st
      = .ok { st with registry := blockEffect metric a key w g st.registry } := by
  unfold metricBlock blockEffect gaugeStep
  by_cases hkey : key = w.data
  · rw [if_pos hkey, if_pos hkey]
    have ho := hobj hkey
    subst hkey
    cases hv : mapIndex metric w.data with
    | object perApp =>
      simp only []
      unfold GetOrRegisterGauge gaugeAfter
      cases hr : st.registry g with
      | none =>
        simp only [Outcome.andThen]
        cases hp : ParseInt (sprintV (mapIndex perApp a.data)) with
        | none =>
          simp only []
        | some n =>
          simp only [gaugeUpdate, Registry.set, if_true]
          congr 1
          refine State.ext_registry ?_
          funext k
          simp only [Registry.set]
          split <;> rfl
      | some m =>
        obtain ⟨v, rfl⟩ := hk m hr
        simp only [Outcome.andThen]
        cases hp : ParseInt (sprintV (mapIndex perApp a.data)) with
        | none =>
          simp only []
          congr 1
          show st = { st with registry := st.registry.set g (.gauge v) }
          have : st.registry.set g (.gauge v) = st.registry := by
            funext k
            simp only [Registry.set]
            split
            · rename_i h; rw [h, hr]
            · rfl
          rw [this]
        | some n =>
          simp only [gaugeUpdate, hr]
    | null => rw [hv] at ho; cases ho
    | bool b => rw [hv] at ho; cases ho
    | number f => rw [hv] at ho; cases ho
    | string s => rw [hv] at ho; cases ho
    | array xs => rw [hv] at ho; cases ho
  · rw [if_neg hkey, if_neg hkey]

theorem gaugeAfter_isGauge {v : JSONValue} {old : Option Metric}
    (h : ∀ m, old = some m → ∃ x, m = .gauge x) : ∃ x, gaugeAfter v old = .gauge x := by
  unfold gaugeAfter
  split
  · exact ⟨_, rfl⟩
  · split
    · rename_i m
      exact h m rfl
    · exact ⟨0, rfl⟩

theorem wellKinded_blockEffect {reg : Registry} (h : WellKinded reg) {g : String}
    (hg : g ∈ gaugeNames) (h1 : g ∉ "apm-log-read-rate" :: counterNames)
    (h2 : g ∉ floatGaugeNames) (metric : List (List Char × JSONValue)) (a : String)
    (key : List Char) (w : String) : WellKinded (blockEffect metric a key w g reg) := by
  unfold blockEffect
  split
  · cases hs : gaugeStep metric a w (reg g) with
    | none => exact h
    | some m =>
      have hm : ∃ x, m = .gauge x := by
        unfold gaugeStep at hs
        split at hs
        · rename_i perApp _
          obtain ⟨x, hx⟩ := gaugeAfter_isGauge (v := mapIndex perApp a.data) (h.2.2 g hg)
          rw [hx] at hs
          exact ⟨x, (Option.some.inj hs).symm⟩
        · exact h.2.2 g hg m hs
      obtain ⟨x, rfl⟩ := hm
      exact wellKinded_set_gauge h h1 h2 _
  · exact h

theorem metricLoopBody_eq {metric : List (List Char × JSONValue)} {a : String}
    {key : List Char} {st : State} (h : WellKinded st.registry)
    (hobj : ∀ p ∈ wellKnownGauges, key = p.1.data → isObject (mapIndex metric p.1.data) = true) :
    metricLoopBody metric a key st
      = .ok { st with registry := bodyEffect metric a key st.registry } ∧
    WellKinded (bodyEffect metric a key st.registry) := by
  have w1 := wellKinded_blockEffect h (g := "apm-metric-alertsrunning-total") (by decide)
    (by decide) (by decide) metric a key "apmAlertsRunning"
  have w2 := wellKinded_blockEffect w1 (g := "apm-metric-alertcreationrate-total") (by decide)
    (by decide) (by decide) metric a key "apmAlertCreationRate"
  have w3 := wellKinded_blockEffect w2 (g := "apm-metric-payloadreceptionrate-total")
    (by decide) (by decide) (by decide) metric a key "payloadReceptionRate"
  have w4 := wellKinded_blockEffect w3 (g := "apm-metric-casecreationrate-total") (by decide)
    (by decide) (by decide) metric a key "caseCreationRate"
  have w5 := wellKinded_blockEffect w4 (g := "apm-metric-caseterminaterate-total") (by decide)
    (by decide) (by decide) metric a key "caseTerminateRate"
  refine ⟨?_, w5⟩
  have e1 := metricBlock_eq metric a key "apmAlertsRunning"
    "apm-metric-alertsrunning-total"
    (st)
    (h.2.2 _ (by decide)) (hobj ("apmAlertsRunning", "apm-metric-alertsrunning-total") (by decide))
  have e2 := metricBlock_eq metric a key "apmAlertCreationRate"
    "apm-metric-alertcreationrate-total"
    (⟨(blockEffect metric a key "apmAlertsRunning" "apm-metric-alertsrunning-total"
      st.registry), st.stdout⟩)
    (w1.2.2 _ (by decide)) (hobj ("apmAlertCreationRate", "apm-metric-alertcreationrate-total") (by decide))
  have e3 := metricBlock_eq metric a key "payloadReceptionRate"
    "apm-metric-payloadreceptionrate-total"
    (⟨(blockEffect metric a key "apmAlertCreationRate" "apm-metric-alertcreationrate-total"
      (blockEffect metric a key "apmAlertsRunning" "apm-metric-alertsrunning-total"
      st.registry)), st.stdout⟩)
    (w2.2.2 _ (by decide)) (hobj ("payloadReceptionRate", "apm-metric-payloadreceptionrate-total") (by decide))
  have e4 := metricBlock_eq metric a key "caseCreationRate"
    "apm-metric-casecreationrate-total"
    (⟨(blockEffect metric a key "payloadReceptionRate" "apm-metric-payloadreceptionrate-total"
      (blockEffect metric a key "apmAlertCreationRate" "apm-metric-alertcreationrate-total"
      (blockEffect metric a key "apmAlertsRunning" "apm-metric-alertsrunning-total"
      st.registry))), st.stdout⟩)
    (w3.2.2 _ (by decide)) (hobj ("caseCreationRate", "apm-metric-casecreationrate-total") (by decide))
  have e5 := metricBlock_eq metric a key "caseTerminateRate"
    "apm-metric-caseterminaterate-total"
    (⟨(blockEffect metric a key "caseCreationRate" "apm-metric-casecreationrate-total"
      (blockEffect metric a key "payloadReceptionRate" "apm-metric-payloadreceptionrate-total"
      (blockEffect metric a key "apmAlertCreationRate" "apm-metric-alertcreationrate-total"
      (blockEffect metric a key "apmAlertsRunning" "apm-metric-alertsrunning-total"
      st.registry)))), st.stdout⟩)
    (w4.2.2 _ (by decide)) (hobj ("caseTerminateRate", "apm-metric-caseterminaterate-total") (by decide))
  unfold metricLoopBody
  rw [e1]; simp only [Outcome.andThen]
  rw [e2]; simp only [Outcome.andThen]
  rw [e3]; simp only [Outcome.andThen]
  rw [e4]; simp only [Outcome.andThen]
  rw [e5]
  rfl

theorem metricLoop_eq {metric : List (List Char × JSONValue)} {a : String} :
    ∀ (keys : List (List Char)) {st : State}, WellKinded st.registry →
      (∀ key ∈ keys, ∀ p ∈ wellKnownGauges, key = p.1.data →
        isObject (mapIndex metric p.1.data) = true) →
      metricLoop metric a keys st
        = .ok { st with registry := loopEffect metric a keys st.registry } := by
  intro keys
  induction keys with
  | nil => intro st _ _; rfl
  | cons key keys ih =>
    intro st h hobj
    obtain ⟨e, w⟩ := metricLoopBody_eq (a := a) h (hobj key (List.mem_cons_self _ _))
    have e' := @ih ⟨bodyEffect metric a key st.registry, st.stdout⟩ w
      (fun k hk => hobj k (List.mem_cons_of_mem _ hk))
    unfold metricLoop
    rw [e]
    simp only [Outcome.andThen]
    rw [e']
    rfl

/-! ### The loop's effect, name by name -/

theorem blockEffect_self (metric : List (List Char × JSONValue)) (a : String)
    (key : List Char) (w g : String) (reg : Registry) :
    blockEffect metric a key w g reg g
      = if key = w.data then gaugeStep metric a w (reg g) else reg g := by
  unfold blockEffect
  split
  · cases hs : gaugeStep metric a w (reg g) with
    | some m => simp [Registry.set]
    | none =>
      simp only []
      unfold gaugeStep at hs
      split at hs
      · cases hs
      · exact hs
  · rfl

theorem blockEffect_other (metric : List (List Char × JSONValue)) (a : String)
    (key : List Char) (w : String) {g k : String} (h : k ≠ g) (reg : Registry) :
    blockEffect metric a key w g reg k = reg k := by
  unfold blockEffect
  split
  · cases gaugeStep metric a w (reg g) with
    | some m => simp [Registry.set, h]
    | none => rfl
  · rfl

theorem bodyEffect_self (metric : List (List Char × JSONValue)) (a : String)
    (key : List Char) (reg : Registry) {p : String × String} (hp : p ∈ wellKnownGauges) :
    bodyEffect metric a key reg p.2
      = if key = p.1.data then gaugeStep metric a p.1 (reg p.2) else reg p.2 := by
  simp only [wellKnownGauges, List.mem_cons, List.mem_singleton, List.mem_nil_iff,
    or_false] at hp
  unfold bodyEffect
  rcases hp with rfl | rfl | rfl | rfl | rfl
  · rw [blockEffect_other _ _ _ _ (by decide), blockEffect_other _ _ _ _ (by decide),
      blockEffect_other _ _ _ _ (by decide), blockEffect_other _ _ _ _ (by decide),
      blockEffect_self]
  · rw [blockEffect_other _ _ _ _ (by decide), blockEffect_other _ _ _ _ (by decide),
      blockEffect_other _ _ _ _ (by decide), blockEffect_self,
      blockEffect_other _ _ _ _ (by decide)]
  · rw [blockEffect_other _ _ _ _ (by decide), blockEffect_other _ _ _ _ (by decide),
      blockEffect_self, blockEffect_other _ _ _ _ (by decide),
      blockEffect_other _ _ _ _ (by decide)]
  · rw [blockEffect_other _ _ _ _ (by decide), blockEffect_self,
      blockEffect_other _ _ _ _ (by decide), blockEffect_other _ _ _ _ (by decide),
      blockEffect_other _ _ _ _ (by decide)]
  · rw [blockEffect_self, blockEffect_other _ _ _ _ (by decide),
      blockEffect_other _ _ _ _ (by decide), blockEffect_other _ _ _ _ (by decide),
      blockEffect_other _ _ _ _ (by decide)]

theorem bodyEffect_other (metric : List (List Char × JSONValue)) (a : String)
    (key : List Char) (reg : Registry) {k : String} (hk : k ∉ gaugeNames) :
    bodyEffect metric a key reg k = reg k := by
  simp only [gaugeNames, List.mem_cons, List.mem_singleton, not_or, List.mem_nil_iff,
    not_false_eq_true, and_true] at hk
  obtain ⟨h1, h2, h3, h4, h5⟩ := hk
  unfold bodyEffect
  rw [blockEffect_other _ _ _ _ h5, blockEffect_other _ _ _ _ h4, blockEffect_other _ _ _ _ h3,
    blockEffect_other _ _ _ _ h2, blockEffect_other _ _ _ _ h1]

theorem gaugeAfter_idem (v : JSONValue) (old : Option Metric) :
    gaugeAfter v (some (gaugeAfter v old)) = gaugeAfter v old := by
  unfold gaugeAfter
  split <;> rfl

theorem gaugeStep_idem (metric : List (List Char × JSONValue)) (a w : String)
    (old : Option Metric) :
    gaugeStep metric a w (gaugeStep metric a w old) = gaugeStep metric a w old := by
  unfold gaugeStep
  cases mapIndex metric w.data with
  | object perApp => simp only [gaugeAfter_idem]
  | _ => rfl

theorem loopEffect_self (metric : List (List Char × JSONValue)) (a : String)
    {p : String × String} (hp : p ∈ wellKnownGauges) :
    ∀ (keys : List (List Char)) (reg : Registry),
      loopEffect metric a keys reg p.2
        = if p.1.data ∈ keys then gaugeStep metric a p.1 (reg p.2) else reg p.2 := by
  intro keys
  induction keys with
  | nil => intro reg; simp [loopEffect]
  | cons key keys ih =>
    intro reg
    unfold loopEffect
    rw [ih, bodyEffect_self _ _ _ _ hp]
    by_cases h1 : key = p.1.data
    · subst h1
      simp only [if_true, gaugeStep_idem, List.mem_cons, true_or, ite_self]
    · have h1' : ¬ p.1.data = key := fun h => h1 h.symm
      simp only [if_neg h1, List.mem_cons, h1', false_or]

theorem loopEffect_other (metric : List (List Char × JSONValue)) (a : String) {k : String}
    (hk : k ∉ gaugeNames) :
    ∀ (keys : List (List Char)) (reg : Registry), loopEffect metric a keys reg k = reg k := by
  intro keys
  induction keys with
  | nil => intro reg; rfl
  | cons key keys ih =>
    intro reg
    unfold loopEffect
    rw [ih, bodyEffect_other _ _ _ _ hk]

theorem mem_gaugeNames_iff {k : String} :
    k ∈ gaugeNames ↔ ∃ p ∈ wellKnownGauges, p.2 = k := by
  simp [gaugeNames, wellKnownGauges, eq_comm]

/-- The loop's effect depends only on which keys are visited, not on their
order or number of visits. -/
theorem loopEffect_congr (metric : List (List Char × JSONValue)) (a : String)
    {keys keys' : List (List Char)} (h : ∀ k, k ∈ keys ↔ k ∈ keys') (reg : Registry) :
    loopEffect metric a keys reg = loopEffect metric a keys' reg := by
  funext k
  by_cases hk : k ∈ gaugeNames
  · obtain ⟨p, hp, rfl⟩ := mem_gaugeNames_iff.mp hk
    rw [loopEffect_self _ _ hp, loopEffect_self _ _ hp]
    simp only [h]
  · rw [loopEffect_other _ _ hk, loopEffect_other _ _ hk]

/-! ### Printing and re-reading a small integer -/

theorem toNat_ofNat_digit {k : Nat} (h : k < 10) : (Char.ofNat (48 + k)).toNat = 48 + k := by
  interval_cases k <;> rfl

theorem isDigit_ofNat_digit {k : Nat} (h : k < 10) : isDigit (Char.ofNat (48 + k)) = true := by
  interval_cases k <;> rfl

theorem natDigitsRev_spec :
    ∀ (fuel n : Nat), n < 10 ^ fuel →
      (natDigitsRev fuel n).foldr (fun c acc => 10 * acc + (c.toNat - 48)) 0 = n ∧
      (∀ c ∈ natDigitsRev fuel n, isDigit c = true) ∧
      (1 ≤ fuel → natDigitsRev fuel n ≠ []) := by
  intro fuel
  induction fuel with
  | zero =>
    intro n hn
    simp only [pow_zero, Nat.lt_one_iff] at hn
    subst hn
    simp [natDigitsRev]
  | succ fuel ih =>
    intro n hn
    unfold natDigitsRev
    split
    · rename_i h10
      refine ⟨?_, ?_, fun _ => by simp⟩
      · simp [toNat_ofNat_digit h10]
      · intro c hc
        simp only [List.mem_singleton] at hc
        subst hc
        exact isDigit_ofNat_digit h10
    · rename_i h10
      have hdiv : n / 10 < 10 ^ fuel := by
        rw [Nat.div_lt_iff_lt_mul (by norm_num)]
        calc n < 10 ^ (fuel + 1) := hn
          _ = 10 ^ fuel * 10 := by ring
      obtain ⟨h1, h2, -⟩ := ih (n / 10) hdiv
      have hmod : n % 10 < 10 := Nat.mod_lt _ (by norm_num)
      refine ⟨?_, ?_, fun _ => by simp⟩
      · simp only [List.foldr_cons, h1, toNat_ofNat_digit hmod]
        omega
      · intro c hc
        simp only [List.mem_cons] at hc
        rcases hc with rfl | hc
        · exact isDigit_ofNat_digit hmod
        · exact h2 c hc

theorem natDigitsRev_length :
    ∀ (fuel n d : Nat), 1 ≤ d → n < 10 ^ d → (natDigitsRev fuel n).length ≤ d := by
  intro fuel
  induction fuel with
  | zero => intro n d _ _; simp [natDigitsRev]
  | succ fuel ih =>
    intro n d hd hn
    unfold natDigitsRev
    split
    · simpa using hd
    · rename_i h10
      have hd2 : 2 ≤ d := by
        by_contra hlt
        have : d = 1 := by omega
        subst this
        simp at hn
        exact h10 hn
      obtain ⟨e, rfl⟩ : ∃ e, d = e + 1 := ⟨d - 1, by omega⟩
      have hdiv : n / 10 < 10 ^ e := by
        rw [Nat.div_lt_iff_lt_mul (by norm_num)]
        calc n < 10 ^ (e + 1) := hn
          _ = 10 ^ e * 10 := by ring
      have := ih (n / 10) e (by omega) hdiv
      simp only [List.length_cons]
      omega

theorem lt_ten_pow_succ (n : Nat) : n < 10 ^ (n + 1) :=
  lt_trans (Nat.lt_pow_self (by norm_num) n) (Nat.pow_lt_pow_right (by norm_num) (by omega))

theorem natDigits_value (n : Nat) : digitsValue (natDigits n) = n := by
  unfold digitsValue natDigits
  rw [List.foldl_reverse]
  exact (natDigitsRev_spec (n + 1) n (lt_ten_pow_succ n)).1

theorem natDigits_all (n : Nat) : (natDigits n).all isDigit = true := by
  unfold natDigits
  rw [List.all_eq_true]
  intro c hc
  exact (natDigitsRev_spec (n + 1) n (lt_ten_pow_succ n)).2.1 c (List.mem_reverse.mp hc)

theorem natDigits_ne_nil (n : Nat) : natDigits n ≠ [] := by
  unfold natDigits
  intro h
  exact (natDigitsRev_spec (n + 1) n (lt_ten_pow_succ n)).2.2 (by omega)
    (List.reverse_eq_nil_iff.mp h)

theorem natDigits_length {n : Nat} (h : n < 10 ^ 6) : (natDigits n).length ≤ 6 := by
  unfold natDigits
  rw [List.length_reverse]
  exact natDigitsRev_length _ _ 6 (by norm_num) h

theorem ParseInt_digits {ds : List Char} (h1 : ds ≠ []) (h2 : ds.all isDigit = true)
    (h3 : digitsValue ds < 2 ^ 63) : ParseInt ds = some (digitsValue ds : Int) := by
  cases ds with
  | nil => exact absurd rfl h1
  | cons c cs =>
    have hc : isDigit c = true := by
      simp only [List.all_cons, Bool.and_eq_true] at h2
      exact h2.1
    have hp : c ≠ '+' := by rintro rfl; revert hc; decide
    have hm : c ≠ '-' := by rintro rfl; revert hc; decide
    unfold ParseInt
    have hb : (match c :: cs with
      | '+' :: r => r
      | '-' :: r => r
      | r => r) = c :: cs := by
      split
      · rename_i r heq; cases heq; exact absurd rfl hp
      · rename_i r heq; cases heq; exact absurd rfl hm
      · rfl
    have hn : (match c :: cs with
      | '-' :: _ => true
      | _ => false) = false := by
      split
      · rename_i r heq; cases heq; exact absurd rfl hm
      · rfl
    simp only [hb, hn]
    norm_num at h3
    simp [h2, h3]

theorem ParseInt_neg_digits {ds : List Char} (h1 : ds ≠ []) (h2 : ds.all isDigit = true)
    (h3 : digitsValue ds ≤ 2 ^ 63) : ParseInt ('-' :: ds) = some (-(digitsValue ds : Int)) := by
  unfold ParseInt
  simp only []
  norm_num at h3
  simp [h1, h2, h3]

/-- Go prints a decoded integer below `10^6` in magnitude as plain digits, and
`ParseInt` reads it back. -/
theorem ParseInt_sprintV_integer (neg : Bool) {m : Nat} (h : m < 10 ^ 6) :
    ParseInt (sprintV (.number (.finite neg m 0)))
      = some (if neg then -(m : Int) else (m : Int)) := by
  have hlen := natDigits_length h
  have hv := natDigits_value m
  have hfmt : formatFloat (.finite neg m 0) = (if neg then ['-'] else []) ++ natDigits m := by
    unfold formatFloat
    by_cases h0 : m = 0
    · subst h0
      simp [natDigits, natDigitsRev]
    · simp [h0, hlen]
  rw [sprintV, hfmt]
  cases neg with
  | false =>
    simp only [Bool.false_eq_true, if_false, List.nil_append]
    rw [ParseInt_digits (natDigits_ne_nil m) (natDigits_all m) (by rw [hv]; omega), hv]
  | true =>
    simp only [if_true, List.singleton_append]
    rw [ParseInt_neg_digits (natDigits_ne_nil m) (natDigits_all m) (by rw [hv]; omega), hv]

theorem mapIndex_of_not_mem {m : List (List Char × JSONValue)} {key : List Char}
    (h : key ∉ m.map Prod.fst) : mapIndex m key = .null := by
  induction m with
  | nil => rfl
  | cons e rest ih =>
    obtain ⟨k, v⟩ := e
    simp only [List.map_cons, List.mem_cons, not_or] at h
    unfold mapIndex
    rw [if_neg (fun hk => h.1 hk.symm)]
    exact ih h.2

theorem Unmarshal_of_invalid {text : List Char} (h : validJSON text = false) :
    Unmarshal text = [] := by
  unfold validJSON at h
  unfold Unmarshal
  split at h
  · rename_i v rest hv
    rw [hv]
    split
    · rename_i entries rest' heq
      cases heq
      rw [if_neg (by simpa using h)]
    · rfl
  · rename_i hv
    rw [hv]

/-- Every payload fault leaves the `metrics` lookup without an object. -/
theorem PayloadFault.no_object {line : String} (h : PayloadFault line) :
    (Split line.data "json=".data)[1]? = none ∨
    ∃ json_text, (Split line.data "json=".data)[1]? = some json_text ∧
      ∀ metric, mapIndex (Unmarshal json_text) "metrics".data ≠ .object metric := by
  rcases h with h | ⟨t, ht, h | h | h⟩
  · exact Or.inl h
  · refine Or.inr ⟨t, ht, fun metric hm => ?_⟩
    rw [Unmarshal_of_invalid h] at hm
    cases hm
  · refine Or.inr ⟨t, ht, fun metric hm => ?_⟩
    rw [mapIndex_of_not_mem h] at hm
    cases hm
  · exact Or.inr ⟨t, ht, h⟩

/-- With a payload fault and the trigger matched, the body of the rule panics
before it touches the registry. -/
theorem parseMetricMessagesBody_fault {line : String} (hf : PayloadFault line)
    (order : KeyOrder) (a : String) (d : Bool) (st : State) :
    (parseMetricMessagesBody order line a d st).registry = st.registry ∧
    (metricsFindString line.data ≠ [] →
      (parseMetricMessagesBody order line a d st).panicked = true) := by
  have h0 : (if d = true then writeDebugMessage d "Common - Processing Metrics" a st
      else st).registry = st.registry := by
    split
    · exact keep_writeDebugMessage _ _ _ _
    · rfl
  unfold parseMetricMessagesBody
  simp only []
  generalize (if d = true then writeDebugMessage d "Common - Processing Metrics" a st
    else st) = st0 at h0 ⊢
  by_cases hn : metricsFindString line.data ≠ []
  · rw [if_pos hn]
    rcases hf.no_object with h | ⟨t, ht, h⟩
    · rw [h]
      exact ⟨h0, fun _ => rfl⟩
    · rw [ht]
      simp only []
      exact ⟨h0, fun _ => rfl⟩
  · rw [if_neg hn]
    exact ⟨h0, fun hm => absurd hm hn⟩

theorem keep_classifyOtherRules {k : String} (h : k ∈ gaugeNames) (line a : String) (d : Bool)
    (st : State) : (classifyOtherRules line a d st).registry k = st.registry k := by
  have hne : ∀ n : String, n ∉ gaugeNames → k ≠ n := by
    intro n hn hk
    exact hn (hk ▸ h)
  unfold classifyOtherRules
  refine registry_andThen_keep ?_ ?_
  · split
    · exact keep_parseMemoryMessages (hne _ (by decide)) (hne _ (by decide)) _ _ _ _
    · rfl
  intro s1
  refine registry_andThen_keep
    (keep_parseCommonMessages (hne _ (by decide)) (hne _ (by decide)) _ _ _ _) ?_
  intro s2
  refine registry_andThen_keep (keep_severityBlock (hne _ (by decide)) _ _ _ _ _) ?_
  intro s4
  refine registry_andThen_keep (keep_severityBlock (hne _ (by decide)) _ _ _ _ _) ?_
  intro s5
  exact keep_severityBlock (hne _ (by decide)) _ _ _ _ _

theorem outAgree_refl (o : Outcome) : OutAgree (fun _ => False) o o := ⟨rfl, fun _ _ => rfl⟩

theorem categorize_agrees_otherRules {line : String} (hf : PayloadFault line)
    (order : KeyOrder) (a : String) (d : Bool) (st : State) :
    OutAgree (fun _ => False) (CategorizeLogData order line a d st)
      (classifyOtherRules line a d st) := by
  have hX : ∀ n ∈ ruleNames, ¬ (fun _ : String => False) n := fun _ _ => not_false
  unfold CategorizeLogData classifyOtherRules
  refine outAgree_andThen (outAgree_refl _) ?_
  intro t1 t1' h1
  refine outAgree_andThen (outAgree_parseCommonMessages hX _ _ _ _ h1) ?_
  intro t2 t2' h2
  have hM : ∃ s3, (if Contains line.data "jsonMetricsMessageToBeSent".data = true then
      parseMetricMessages order line a d t2 else Outcome.ok t2) = .ok s3 ∧
      s3.registry = t2.registry := by
    split
    · have hr := (parseMetricMessagesBody_fault hf order a d t2).1
      have hp := parseMetricMessages_returns order line a d t2
      cases hm : parseMetricMessages order line a d t2 with
      | ok s3 =>
        refine ⟨s3, rfl, ?_⟩
        have : (parseMetricMessages order line a d t2).registry = t2.registry := by
          unfold parseMetricMessages
          rw [keep_rescue]; exact hr
        rw [hm] at this
        exact this
      | panic s3 v => rw [hm] at hp; cases hp
    · exact ⟨t2, rfl, rfl⟩
  obtain ⟨s3, e3, r3⟩ := hM
  rw [e3]
  simp only [Outcome.andThen]
  have h3 : Agree (fun _ => False) s3 t2' := fun k hk => by rw [r3]; exact h2 k hk
  refine outAgree_andThen (outAgree_severityBlock _ _ not_false _ _ _ _ h3) ?_
  intro t4 t4' h4
  refine outAgree_andThen (outAgree_severityBlock _ _ not_false _ _ _ _ h4) ?_
  intro t5 t5' h5
  exact outAgree_severityBlock _ _ not_false _ _ _ _ h5

/-! ### From the loop to the whole classification -/

theorem contains_of_matchClasses {sub : List Char} :
    ∀ (ps : List (Char → Bool)) (s r : List Char), matchClasses ps s = some r →
      Contains r sub = true → Contains s sub = true := by
  intro ps
  induction ps with
  | nil =>
    intro s r h hc
    simp only [matchClasses, Option.some.injEq] at h
    subst h
    exact hc
  | cons p ps ih =>
    intro s r h hc
    cases s with
    | nil => simp [matchClasses] at h
    | cons c cs =>
      unfold matchClasses at h
      split at h
      · unfold Contains
        rw [ih cs r h hc]
        simp
      · cases h

theorem contains_of_metricsAfterAny {s m : List Char} (h : metricsAfterAny s = some m) :
    Contains s "jsonMetricsMessageToBeSent".data = true := by
  induction s generalizing m with
  | nil => simp [metricsAfterAny] at h
  | cons c cs ih =>
    unfold metricsAfterAny at h
    unfold Contains
    split at h
    · split at h
      · rename_i hs
        rw [hs]; rfl
      · cases h
    · split at h
      · rename_i m' hm'
        rw [ih hm']
        simp
      · split at h
        · rename_i hs
          rw [hs]; rfl
        · cases h

theorem contains_of_metricsFindString {s : List Char} (h : metricsFindString s ≠ []) :
    Contains s "jsonMetricsMessageToBeSent".data = true := by
  unfold metricsFindString at h
  split at h
  · exact absurd rfl h
  · rename_i rest hrest
    split at h
    · exact absurd rfl h
    · rename_i m hm
      exact contains_of_matchClasses _ _ _ hrest (contains_of_metricsAfterAny hm)

theorem lineMetrics_eq_some {line : String} {metric : List (List Char × JSONValue)}
    (h : lineMetrics line = some metric) :
    ∃ json_text, (Split line.data "json=".data)[1]? = some json_text ∧
      mapIndex (Unmarshal json_text) "metrics".data = .object metric := by
  unfold lineMetrics at h
  split at h
  · cases h
  · rename_i t ht
    refine ⟨t, ht, ?_⟩
    split at h
    · rename_i m hm
      cases h
      exact hm
    · cases h

theorem mem_keys_of_isObject {m : List (List Char × JSONValue)} {key : List Char}
    (h : isObject (mapIndex m key) = true) : key ∈ m.map Prod.fst := by
  by_contra hn
  rw [mapIndex_of_not_mem hn] at h
  cases h

/-- The structured-metrics rule on a line with a fault-free metrics object: it
returns with the registry the loop leaves, whatever the visiting order. -/
theorem parseMetricMessages_faultFree {order : KeyOrder} {line a : String} {d : Bool}
    {st : State} {metric : List (List Char × JSONValue)} (hwk : WellKinded st.registry)
    (hperm : ∀ ks, (order ks).Perm ks) (htrig : metricsFindString line.data ≠ [])
    (hm : lineMetrics line = some metric) (hff : FaultFree metric) :
    parseMetricMessages order line a d st
      = .ok { (if d = true then writeDebugMessage d "Common - Processing Metrics" a st
            else st) with
          registry := loopEffect metric a (metric.map Prod.fst) st.registry } := by
  obtain ⟨t, ht, hobj⟩ := lineMetrics_eq_some hm
  have h0 : (if d = true then writeDebugMessage d "Common - Processing Metrics" a st
      else st).registry = st.registry := by
    split
    · exact keep_writeDebugMessage _ _ _ _
    · rfl
  unfold parseMetricMessages parseMetricMessagesBody
  simp only []
  generalize (if d = true then writeDebugMessage d "Common - Processing Metrics" a st
    else st) = st0 at h0 ⊢
  rw [if_pos htrig, ht]
  simp only [hobj]
  have hw0 : WellKinded st0.registry := by rw [h0]; exact hwk
  rw [metricLoop_eq (order (metric.map Prod.fst)) hw0
    (fun key hkey p hp hkp =>
      hff p hp (hkp ▸ (hperm _).mem_iff.mp hkey))]
  simp only [rescue]
  rw [loopEffect_congr metric a (fun k => (hperm (metric.map Prod.fst)).mem_iff), h0]

/-- The order of visits does not matter when the metrics object, if the line
has one, is fault-free. -/
theorem parseMetricMessages_order_irrelevant (order order' : KeyOrder) {line a : String}
    {d : Bool} {st : State} (hwk : WellKinded st.registry)
    (hperm : ∀ ks, (order ks).Perm ks) (hperm' : ∀ ks, (order' ks).Perm ks)
    (hff : ∀ metric, lineMetrics line = some metric → FaultFree metric) :
    parseMetricMessages order line a d st = parseMetricMessages order' line a d st := by
  by_cases htrig : metricsFindString line.data ≠ []
  · cases hm : lineMetrics line with
    | some metric =>
      rw [parseMetricMessages_faultFree hwk hperm htrig hm (hff metric hm),
        parseMetricMessages_faultFree hwk hperm' htrig hm (hff metric hm)]
    | none =>
      unfold parseMetricMessages parseMetricMessagesBody
      simp only []
      rw [if_pos htrig, if_pos htrig]
      unfold lineMetrics at hm
      cases hs : (Split line.data "json=".data)[1]? with
      | none => rfl
      | some t =>
        rw [hs] at hm
        simp only [] at hm ⊢
        split
        · rename_i metric heq
          rw [heq] at hm
          cases hm
        · rfl
  · unfold parseMetricMessages parseMetricMessagesBody
    simp only []
    rw [if_neg htrig, if_neg htrig]

/-- After classification of a line with a fault-free metrics object, the gauge
of each well-known key holds what its block leaves there when the key is in
the object, and what it held before otherwise. -/
theorem categorize_gauge {order : KeyOrder} {line a : String} {d : Bool} {st : State}
    {metric : List (List Char × JSONValue)} (hwk : WellKinded st.registry)
    (hperm : ∀ ks, (order ks).Perm ks) (htrig : metricsFindString line.data ≠ [])
    (hm : lineMetrics line = some metric) (hff : FaultFree metric)
    {p : String × String} (hp : p ∈ wellKnownGauges) :
    (CategorizeLogData order line a d st).registry p.2
      = if p.1.data ∈ metric.map Prod.fst then gaugeStep metric a p.1 (st.registry p.2)
        else st.registry p.2 := by
  obtain ⟨s1, s2, s3, s4, s5, s6, e1, e2, e3, e4, e5, e6, e, w1, w2, -⟩ :=
    categorize_stages order line a d hwk
  have hg : p.2 ∈ gaugeNames := mem_gaugeNames_iff.mpr ⟨p, hp, rfl⟩
  have hne : ∀ n : String, n ∉ gaugeNames → p.2 ≠ n := fun n hn hk => hn (hk ▸ hg)
  have a1 : s1.registry p.2 = st.registry p.2 := by
    rw [← registry_of_eq_ok e1]
    split
    · exact keep_parseMemoryMessages (hne _ (by decide)) (hne _ (by decide)) _ _ _ _
    · rfl
  have a2 : s2.registry p.2 = s1.registry p.2 := by
    rw [← registry_of_eq_ok e2]
    exact keep_parseCommonMessages (hne _ (by decide)) (hne _ (by decide)) _ _ _ _
  rw [if_pos (contains_of_metricsFindString htrig),
    parseMetricMessages_faultFree w2 hperm htrig hm hff] at e3
  have a3 : s3.registry p.2 = loopEffect metric a (metric.map Prod.fst) s2.registry p.2 := by
    cases e3; rfl
  have a4 : s4.registry p.2 = s3.registry p.2 := by
    rw [← registry_of_eq_ok e4]; exact keep_severityBlock (hne _ (by decide)) _ _ _ _ _
  have a5 : s5.registry p.2 = s4.registry p.2 := by
    rw [← registry_of_eq_ok e5]; exact keep_severityBlock (hne _ (by decide)) _ _ _ _ _
  have a6 : s6.registry p.2 = s5.registry p.2 := by
    rw [← registry_of_eq_ok e6]; exact keep_severityBlock (hne _ (by decide)) _ _ _ _ _
  rw [e]
  show s6.registry p.2 = _
  rw [a6, a5, a4, a3, loopEffect_self _ _ hp, a2, a1]

theorem startsWith_of_dropStart {s p r : List Char} (h : dropStart s p = some r) :
    startsWith s p = true := by
  induction p generalizing s with
  | nil => cases s <;> rfl
  | cons q qs ih =>
    cases s with
    | nil => simp [dropStart] at h
    | cons c cs =>
      unfold dropStart at h
      split at h
      · rename_i hc
        simp [startsWith, hc, ih h]
      · cases h

theorem contains_of_durationFindSubmatch {s d : List Char}
    (h : durationFindSubmatch s = some d) :
    Contains s "scrapeExecuteFinished".data = true := by
  induction s with
  | nil => simp [durationFindSubmatch] at h
  | cons c cs ih =>
    unfold durationFindSubmatch at h
    unfold Contains
    split at h
    · rename_i r hr
      unfold durationMatchHere at hr
      split at hr
      · cases hr
      · rename_i rest hrest
        rw [startsWith_of_dropStart hrest]
        rfl
    · rw [ih h]
      simp

theorem keep_parseCommonMessages_noMatch {line a : String} {d : Bool}
    (hm : durationFindSubmatch line.data = none) (st : State) :
    (parseCommonMessages line a d st).registry "apm-webharvest-exit-duration"
      = st.registry "apm-webharvest-exit-duration" := by
  unfold parseCommonMessages
  refine registry_andThen_keep ?_ ?_
  · split
    · refine registry_andThen_keep ?_ ?_
      · rw [keep_GetOrRegisterCounter (by decide), keep_writeDebugMessage]
      · intro s
        exact keep_counterInc (by decide) _ _
    · rfl
  · intro s
    rw [hm]
    split <;> rfl

/-- Classification leaves a name alone when the common rule does and the name
is no output of the other rules. -/
theorem keep_CategorizeLogData_of {k : String} {line a : String} {d : Bool}
    (hc : ∀ s, (parseCommonMessages line a d s).registry k = s.registry k)
    (h1 : k ≠ "apm-common-memoryfree-bytes") (h2 : k ≠ "apm-common-memorytotal-bytes")
    (hg : k ∉ gaugeNames) (c2 : k ≠ "common-warn-messages-total")
    (c3 : k ≠ "common-error-messages-total") (c4 : k ≠ "apm-common-fatal-messages-total")
    (order : KeyOrder) (st : State) :
    (CategorizeLogData order line a d st).registry k = st.registry k := by
  unfold CategorizeLogData
  refine registry_andThen_keep ?_ ?_
  · split
    · exact keep_parseMemoryMessages h1 h2 _ _ _ _
    · rfl
  intro s1
  refine registry_andThen_keep (hc s1) ?_
  intro s2
  refine registry_andThen_keep ?_ ?_
  · split
    · exact keep_parseMetricMessages hg _ _ _ _ _
    · rfl
  intro s3
  refine registry_andThen_keep (keep_severityBlock c2 _ _ _ _ _) ?_
  intro s4
  refine registry_andThen_keep (keep_severityBlock c3 _ _ _ _ _) ?_
  intro s5
  exact keep_severityBlock c4 _ _ _ _ _

/-- The stages after the memory rule leave the two memory gauges alone, and
the stages after the common rule leave the duration gauge alone. -/
theorem later_stages_keep {order : KeyOrder} {line a : String} {d : Bool}
    {s2 s3 s4 s5 s6 : State}
    (e3 : (if Contains line.data "jsonMetricsMessageToBeSent".data then
        parseMetricMessages order line a d s2 else .ok s2) = .ok s3)
    (e4 : severityBlock "WARN" "common-warn-messages-total" line a d s3 = .ok s4)
    (e5 : severityBlock "ERROR" "common-error-messages-total" line a d s4 = .ok s5)
    (e6 : severityBlock "FATAL" "apm-common-fatal-messages-total" line a d s5 = .ok s6)
    {k : String} (hk : k ∈ floatGaugeNames) : s6.registry k = s2.registry k := by
  have hg : k ∉ gaugeNames := by
    simp only [floatGaugeNames, List.mem_cons, List.mem_singleton, List.mem_nil_iff,
      or_false] at hk
    rcases hk with rfl | rfl | rfl <;> decide
  have c2 : k ≠ "common-warn-messages-total" := by
    rintro rfl; revert hk; decide
  have c3 : k ≠ "common-error-messages-total" := by
    rintro rfl; revert hk; decide
  have c4 : k ≠ "apm-common-fatal-messages-total" := by
    rintro rfl; revert hk; decide
  have a3 : s3.registry k = s2.registry k := by
    rw [← registry_of_eq_ok e3]
    split
    · exact keep_parseMetricMessages hg _ _ _ _ _
    · rfl
  have a4 : s4.registry k = s3.registry k := by
    rw [← registry_of_eq_ok e4]; exact keep_severityBlock c2 _ _ _ _ _
  have a5 : s5.registry k = s4.registry k := by
    rw [← registry_of_eq_ok e5]; exact keep_severityBlock c3 _ _ _ _ _
  have a6 : s6.registry k = s5.registry k := by
    rw [← registry_of_eq_ok e6]; exact keep_severityBlock c4 _ _ _ _ _
  rw [a6, a5, a4, a3]

theorem Worker.state_withState (w : Worker) (st : State) : (w.withState st).state = st := by
  cases hm : w.application.MetricsRegistry <;> simp [Worker.withState, Worker.state, hm]

theorem Worker.state_countLine (w : Worker) : w.countLine.state = w.state := rfl

theorem Worker.withState_fields (w : Worker) (st : State) :
    (w.withState st).application.ApplicationName = w.application.ApplicationName ∧
    (w.withState st).application.DebugEnabled = w.application.DebugEnabled ∧
    (w.withState st).application.TotalLinesRead = w.application.TotalLinesRead := by
  cases hm : w.application.MetricsRegistry <;> simp [Worker.withState, hm]

theorem Worker.withState_of_isSome (w : Worker) (st : State)
    (h : w.application.MetricsRegistry.isSome = true) :
    (w.withState st).application.MetricsRegistry = some st.registry ∧
    (w.withState st).DefaultRegistry = w.DefaultRegistry := by
  cases hm : w.application.MetricsRegistry with
  | none => rw [hm] at h; cases h
  | some reg => simp [Worker.withState, hm]

theorem queueWorkerLoop_invariant (name : String) (debug : Bool) :
    ∀ (feed : List (KeyOrder × String)) (w : Worker) (sh : State) (n : Nat),
      w.application.ApplicationName = name → w.application.DebugEnabled = debug →
      w.application.MetricsRegistry.isSome = true →
      WellKinded w.state.registry → WellKinded sh.registry →
      w.state.registry "apm-log-read-rate" = some (.counter n) →
      (∀ k, k ≠ "apm-log-read-rate" → w.state.registry k = sh.registry k) →
      w.application.TotalLinesRead = n → n + feed.length < 2 ^ 63 →
      ∃ w', queueWorkerLoop feed w = .drained w' ∧
        w'.application.TotalLinesRead = ((n + feed.length : Nat) : Int) ∧
        w'.state.registry "apm-log-read-rate"
          = some (.counter ((n + feed.length : Nat) : Int)) ∧
        (∀ k, k ≠ "apm-log-read-rate" →
          w'.state.registry k = (classifyAll name debug feed sh).registry k) ∧
        w'.application.MetricsRegistry.isSome = true ∧
        w'.DefaultRegistry = w.DefaultRegistry := by
  intro feed
  induction feed with
  | nil =>
    intro w sh n _ _ hsome _ _ hrr hag htl _
    exact ⟨w, rfl, by simpa using htl, by simpa using hrr, hag, hsome, rfl⟩
  | cons x rest ih =>
    obtain ⟨order, line⟩ := x
    intro w sh n hname hdbg hsome hwa hws hrr hag htl hlen
    subst hname hdbg
    simp only [List.length_cons] at hlen
    obtain ⟨st, est, wst⟩ :=
      (safe_CategorizeLogData order line w.application.ApplicationName
        w.application.DebugEnabled hwa).exists_ok
    obtain ⟨sh', esh, wsh⟩ :=
      (safe_CategorizeLogData order line w.application.ApplicationName
        w.application.DebugEnabled hws).exists_ok
    have hX : ∀ m ∈ ruleNames, ¬ (fun k : String => k = "apm-log-read-rate") m := by
      intro m hm
      revert m
      decide
    have hagree := outAgree_CategorizeLogData hX order line w.application.ApplicationName
      w.application.DebugEnabled w.application.DebugEnabled
      (show Agree _ w.state sh from fun k hk => hag k hk)
    rw [est, esh] at hagree
    have hkeep : st.registry "apm-log-read-rate" = some (.counter n) := by
      rw [← hrr, ← registry_of_eq_ok est]
      exact keep_CategorizeLogData (by decide) _ _ _ _ _
    have hstep : (counterInc "apm-log-read-rate" 1 st).registry
        = st.registry.set "apm-log-read-rate" (.counter ((n + 1 : Nat) : Int)) := by
      simp only [counterInc, hkeep]
      rw [wrapInt64_of_range (by omega) (by omega)]
      rfl
    have hwrap : wrapInt64 (w.application.TotalLinesRead + 1) = ((n + 1 : Nat) : Int) := by
      rw [htl, wrapInt64_of_range (by omega) (by omega)]
      rfl
    have hf := Worker.withState_fields w (counterInc "apm-log-read-rate" 1 st)
    have hs := Worker.withState_of_isSome w (counterInc "apm-log-read-rate" 1 st) hsome
    have hst : (w.withState (counterInc "apm-log-read-rate" 1 st)).countLine.state
        = counterInc "apm-log-read-rate" 1 st := by
      rw [Worker.state_countLine, Worker.state_withState]
    unfold queueWorkerLoop
    rw [est]
    simp only []
    obtain ⟨w', hw', h1, h2, h3, h4, h5⟩ := ih
      (w.withState (counterInc "apm-log-read-rate" 1 st)).countLine
      sh' (n + 1) hf.1 hf.2.1
      (by
        show (w.withState (counterInc "apm-log-read-rate" 1 st)).application.MetricsRegistry.isSome
          = true
        rw [hs.1]; rfl)
      (by rw [hst, hstep]; exact wellKinded_set_counter wst (by decide) (by decide) _)
      wsh
      (by rw [hst, hstep]; simp [Registry.set])
      (by
        intro k hk
        rw [hst, hstep]
        simp only [Registry.set, if_neg hk]
        exact hagree.2 k hk)
      (by
        show wrapInt64 ((w.withState (counterInc "apm-log-read-rate" 1 st)).application.TotalLinesRead
          + 1) = _
        rw [hf.2.2]; exact hwrap)
      (by omega)
    refine ⟨w', hw', ?_, ?_, ?_, h4, ?_⟩
    · rw [h1]; congr 1; simp only [List.length_cons]; omega
    · rw [h2]; congr 3; simp only [List.length_cons]; omega
    · intro k hk
      rw [h3 k hk]
      simp only [classifyAll, esh, Outcome.state]
    · rw [h5]; exact hs.2

theorem eq_some_getD_of_isSome {α : Type} {o : Option α} (d : α) (h : o.isSome = true) :
    o = some (o.getD d) := by
  cases o with
  | none => cases h
  | some x => rfl

theorem gaugeStep_of_perAppInt {metric : List (List Char × JSONValue)} {a w : String} {n : Int}
    (h : perAppInt metric a w = some n) (old : Option Metric) :
    w.data ∈ metric.map Prod.fst ∧ gaugeStep metric a w old = some (.gauge n) := by
  unfold perAppInt perAppValue at h
  unfold gaugeStep
  cases hv : mapIndex metric w.data with
  | object perApp =>
    rw [hv] at h
    simp only [] at h
    refine ⟨mem_keys_of_isObject (by rw [hv]; rfl), ?_⟩
    simp only [gaugeAfter, h]
  | null => rw [hv] at h; cases h
  | bool b => rw [hv] at h; cases h
  | number f => rw [hv] at h; cases h
  | string s => rw [hv] at h; cases h
  | array xs => rw [hv] at h; cases h

theorem perAppInt_of_number {metric : List (List Char × JSONValue)} {a w : String}
    {neg : Bool} {m : Nat}
    (h : (perAppValue metric a w).bind asNumber = some (.finite neg m 0)) (hm : m < 10 ^ 6) :
    perAppInt metric a w = some (if neg then -(m : Int) else (m : Int)) := by
  unfold perAppInt
  cases hv : perAppValue metric a w with
  | none => rw [hv] at h; cases h
  | some v =>
    rw [hv] at h
    simp only [Option.some_bind] at h
    cases v with
    | number f =>
      simp only [asNumber, Option.some.injEq] at h
      subst h
      exact ParseInt_sprintV_integer neg hm
    | null => cases h
    | bool b => cases h
    | string s => cases h
    | array xs => cases h
    | object es => cases h

theorem faultFree_of_getD {line : String}
    (h : FaultFree ((lineMetrics line).getD [])) :
    ∀ metric, lineMetrics line = some metric → FaultFree metric := by
  intro metric hm
  rw [hm] at h
  exact h

theorem gaugeStep_of_parse_failure {metric : List (List Char × JSONValue)} {a w : String}
    (hobj : isObject (mapIndex metric w.data) = true) (h : perAppInt metric a w = none)
    (old : Option Metric) : gaugeStep metric a w old = some (old.getD (.gauge 0)) := by
  unfold perAppInt perAppValue at h
  unfold gaugeStep
  cases hv : mapIndex metric w.data with
  | object perApp =>
    rw [hv] at h
    simp only [] at h
    simp only [gaugeAfter, h]
    cases old <;> rfl
  | null => rw [hv] at hobj; cases hobj
  | bool b => rw [hv] at hobj; cases hobj
  | number f => rw [hv] at hobj; cases hobj
  | string s => rw [hv] at hobj; cases hobj
  | array xs => rw [hv] at hobj; cases hobj

/-! ### A failed extraction: the gauge is stale or newly registered at zero -/

theorem StaleOrZero.of_eq {old new : Option Metric} (h : new = old) : StaleOrZero old new :=
  Or.inl h

theorem StaleOrZero.trans {x y z : Option Metric} (h1 : StaleOrZero x y)
    (h2 : StaleOrZero y z) : StaleOrZero x z := by
  rcases h1 with rfl | ⟨rfl, rfl⟩
  · exact h2
  · rcases h2 with rfl | ⟨h, -⟩
    · exact Or.inr ⟨rfl, rfl⟩
    · cases h

theorem stale_andThen {g : String} {o : Outcome} {f : State → Outcome} {st : State}
    (h : StaleOrZero (st.registry g) (o.registry g))
    (hf : ∀ s, StaleOrZero (s.registry g) ((f s).registry g)) :
    StaleOrZero (st.registry g) ((o.andThen f).registry g) := by
  cases o with
  | ok s => exact h.trans (hf s)
  | panic s v => exact h

/-- The block of a key whose per-application value does not parse: it may
register its gauge, and never updates it. -/
theorem stale_metricBlock_self {metric : List (List Char × JSONValue)} {a w : String}
    (hfail : perAppInt metric a w = none) (key : List Char) (g : String) (st : State) :
    StaleOrZero (st.registry g) ((metricBlock metric a key w g st).registry g) := by
  unfold metricBlock
  by_cases hkey : key = w.data
  · rw [if_pos hkey]
    subst hkey
    unfold perAppInt perAppValue at hfail
    cases hv : mapIndex metric w.data with
    | object perApp =>
      rw [hv] at hfail
      simp only [] at hfail
      simp only [hfail]
      unfold GetOrRegisterGauge
      cases hr : st.registry g with
      | none =>
        refine Or.inr ⟨rfl, ?_⟩
        simp [Outcome.andThen, Outcome.registry, Outcome.state, Registry.set]
      | some m =>
        cases m with
        | gauge x =>
          refine Or.inl ?_
          simp [Outcome.andThen, Outcome.registry, Outcome.state, hr]
        | counter c =>
          refine Or.inl ?_
          simp [Outcome.andThen, Outcome.registry, Outcome.state, hr]
        | gaugeFloat64 x =>
          refine Or.inl ?_
          simp [Outcome.andThen, Outcome.registry, Outcome.state, hr]
    | null => exact Or.inl rfl
    | bool b => exact Or.inl rfl
    | number f => exact Or.inl rfl
    | string s => exact Or.inl rfl
    | array xs => exact Or.inl rfl
  · rw [if_neg hkey]
    exact Or.inl rfl

theorem wellKnownGauges_gauge_injective :
    ∀ p ∈ wellKnownGauges, ∀ q ∈ wellKnownGauges, q.2 = p.2 → q = p := by
  decide

theorem stale_metricBlock_any {metric : List (List Char × JSONValue)} {a : String}
    {p : String × String} (hp : p ∈ wellKnownGauges) (hfail : perAppInt metric a p.1 = none)
    (key : List Char) (q : String × String) (hq : q ∈ wellKnownGauges) (st : State) :
    StaleOrZero (st.registry p.2) ((metricBlock metric a key q.1 q.2 st).registry p.2) := by
  by_cases h : q.2 = p.2
  · have hqp := wellKnownGauges_gauge_injective p hp q hq h
    subst hqp
    exact stale_metricBlock_self hfail key _ st
  · exact StaleOrZero.of_eq (keep_metricBlock (fun hk => h hk.symm) _ _ _ _ _)

theorem stale_metricLoopBody {metric : List (List Char × JSONValue)} {a : String}
    {p : String × String} (hp : p ∈ wellKnownGauges) (hfail : perAppInt metric a p.1 = none)
    (key : List Char) (st : State) :
    StaleOrZero (st.registry p.2) ((metricLoopBody metric a key st).registry p.2) := by
  unfold metricLoopBody
  refine stale_andThen (stale_metricBlock_any hp hfail key
    ("apmAlertsRunning", "apm-metric-alertsrunning-total") (by decide) st) ?_
  intro s1
  refine stale_andThen (stale_metricBlock_any hp hfail key
    ("apmAlertCreationRate", "apm-metric-alertcreationrate-total") (by decide) s1) ?_
  intro s2
  refine stale_andThen (stale_metricBlock_any hp hfail key
    ("payloadReceptionRate", "apm-metric-payloadreceptionrate-total") (by decide) s2) ?_
  intro s3
  refine stale_andThen (stale_metricBlock_any hp hfail key
    ("caseCreationRate", "apm-metric-casecreationrate-total") (by decide) s3) ?_
  intro s4
  exact stale_metricBlock_any hp hfail key
    ("caseTerminateRate", "apm-metric-caseterminaterate-total") (by decide) s4

theorem stale_metricLoop {metric : List (List Char × JSONValue)} {a : String}
    {p : String × String} (hp : p ∈ wellKnownGauges) (hfail : perAppInt metric a p.1 = none)
    (keys : List (List Char)) :
    ∀ st : State,
      StaleOrZero (st.registry p.2) ((metricLoop metric a keys st).registry p.2) := by
  induction keys with
  | nil => intro st; exact Or.inl rfl
  | cons key keys ih =>
    intro st
    unfold metricLoop
    exact stale_andThen (stale_metricLoopBody hp hfail key st) ih

theorem stale_parseMetricMessages {line a : String} {metric : List (List Char × JSONValue)}
    {p : String × String} (hm : lineMetrics line = some metric) (hp : p ∈ wellKnownGauges)
    (hfail : perAppInt metric a p.1 = none) (order : KeyOrder) (d : Bool) (st : State) :
    StaleOrZero (st.registry p.2) ((parseMetricMessages order line a d st).registry p.2) := by
  obtain ⟨t, ht, hobj⟩ := lineMetrics_eq_some hm
  have h0 : (if d = true then writeDebugMessage d "Common - Processing Metrics" a st
      else st).registry = st.registry := by
    split
    · exact keep_writeDebugMessage _ _ _ _
    · rfl
  unfold parseMetricMessages
  rw [keep_rescue]
  unfold parseMetricMessagesBody
  simp only []
  generalize (if d = true then writeDebugMessage d "Common - Processing Metrics" a st
    else st) = st0 at h0 ⊢
  rw [← h0]
  by_cases htrig : metricsFindString line.data ≠ []
  · rw [if_pos htrig, ht]
    simp only [hobj]
    exact stale_metricLoop hp hfail _ st0
  · rw [if_neg htrig]
    exact Or.inl rfl

/-- Over the whole classification, for any sink and any visiting order: the
gauge of a key whose extraction fails is stale or newly registered at zero. -/
theorem stale_CategorizeLogData {line a : String} {metric : List (List Char × JSONValue)}
    {p : String × String} (hm : lineMetrics line = some metric) (hp : p ∈ wellKnownGauges)
    (hfail : perAppInt metric a p.1 = none) (order : KeyOrder) (d : Bool) (st : State) :
    StaleOrZero (st.registry p.2) ((CategorizeLogData order line a d st).registry p.2) := by
  have hg : p.2 ∈ gaugeNames := mem_gaugeNames_iff.mpr ⟨p, hp, rfl⟩
  have hne : ∀ n : String, n ∉ gaugeNames → p.2 ≠ n := fun n hn hk => hn (hk ▸ hg)
  unfold CategorizeLogData
  refine stale_andThen ?_ ?_
  · split
    · exact StaleOrZero.of_eq
        (keep_parseMemoryMessages (hne _ (by decide)) (hne _ (by decide)) _ _ _ _)
    · exact Or.inl rfl
  intro s1
  refine stale_andThen (StaleOrZero.of_eq
    (keep_parseCommonMessages (hne _ (by decide)) (hne _ (by decide)) _ _ _ _)) ?_
  intro s2
  refine stale_andThen ?_ ?_
  · split
    · exact stale_parseMetricMessages hm hp hfail order d s2
    · exact Or.inl rfl
  intro s3
  refine stale_andThen (StaleOrZero.of_eq
    (keep_severityBlock (hne _ (by decide)) _ _ _ _ _)) ?_
  intro s4
  refine stale_andThen (StaleOrZero.of_eq
    (keep_severityBlock (hne _ (by decide)) _ _ _ _ _)) ?_
  intro s5
  exact StaleOrZero.of_eq (keep_severityBlock (hne _ (by decide)) _ _ _ _ _)

/-! ## The claims -/

/-- C1 (as amended): on a line that matches the structured-metrics trigger and
whose payload decodes to a metrics object in which no well-known key holds a
non-object, classification on a well-kinded sink, for any visiting order, sets
the gauge of each well-known key (`apm-metric-alertsrunning-total` for
`apmAlertsRunning`, and likewise the other four names of the table) to the
integer parsed from the value nested under the application name; a decoded
integer `n` of magnitude below `10^6` is such a value, and the gauge is then
set to `n`. -/
theorem wellknown_key_sets_its_gauge (order : KeyOrder) (line a : String) (debug : Bool)
    (st : State) (metric : List (List Char × JSONValue)) (p : String × String)
    (hwk : WellKinded st.registry) (hperm : ∀ ks, (order ks).Perm ks)
    (htrig : metricsFindString line.data ≠ []) (hm : lineMetrics line = some metric)
    (hff : FaultFree metric) (hp : p ∈ wellKnownGauges) :
    (∀ n : Int, perAppInt metric a p.1 = some n →
      (CategorizeLogData order line a debug st).registry p.2 = some (.gauge n)) ∧
    (∀ (neg : Bool) (m : Nat),
      (perAppValue metric a p.1).bind asNumber = some (.finite neg m 0) → m < 10 ^ 6 →
      (CategorizeLogData order line a debug st).registry p.2
        = some (.gauge (if neg then -(m : Int) else (m : Int)))) := by
  have key : ∀ n : Int, perAppInt metric a p.1 = some n →
      (CategorizeLogData order line a debug st).registry p.2 = some (.gauge n) := by
    intro n hn
    obtain ⟨hmem, hstep⟩ := gaugeStep_of_perAppInt hn (st.registry p.2)
    rw [categorize_gauge hwk hperm htrig hm hff hp, if_pos hmem, hstep]
  exact ⟨key, fun neg m hv hlt => key _ (perAppInt_of_number hv hlt)⟩

/-- Witness for C1: the structured-metrics line of the specification. -/
theorem wellknown_key_sets_its_gauge_witness :
    metricsFindString
      "2019-12-28 00:44:45,714 INFO jsonMetricsMessageToBeSent json=\x7b\"metrics\":\x7b\"apmAlertsRunning\":\x7b\"app1\":79\x7d\x7d\x7d".data
      ≠ [] ∧
    (CategorizeLogData id
      "2019-12-28 00:44:45,714 INFO jsonMetricsMessageToBeSent json=\x7b\"metrics\":\x7b\"apmAlertsRunning\":\x7b\"app1\":79\x7d\x7d\x7d"
      "app1" false State.fresh).registry "apm-metric-alertsrunning-total" = some (.gauge 79) :=
  ⟨by decide,
    (wellknown_key_sets_its_gauge id
      "2019-12-28 00:44:45,714 INFO jsonMetricsMessageToBeSent json=\x7b\"metrics\":\x7b\"apmAlertsRunning\":\x7b\"app1\":79\x7d\x7d\x7d"
      "app1" false State.fresh
      ((lineMetrics
        "2019-12-28 00:44:45,714 INFO jsonMetricsMessageToBeSent json=\x7b\"metrics\":\x7b\"apmAlertsRunning\":\x7b\"app1\":79\x7d\x7d\x7d").getD [])
      ("apmAlertsRunning", "apm-metric-alertsrunning-total")
      wellKinded_fresh (fun ks => List.Perm.refl ks) (by decide)
      (eq_some_getD_of_isSome [] (by decide!)) (by decide!) (by decide)).1 79 (by decide!)⟩

/-- Counterexample to C1 as stated: on the line of the specification the gauge
named `apm-metric-apmAlertsRunning-total` is not set at all, the value 79 is
under `apm-metric-alertsrunning-total`; and with the integer 1000000 in the
payload, which Go prints as `1e+06`, the gauge is registered but not set. -/
theorem gauge_named_after_key_stays_unset :
    (CategorizeLogData id
      "2019-12-28 00:44:45,714 INFO jsonMetricsMessageToBeSent json=\x7b\"metrics\":\x7b\"apmAlertsRunning\":\x7b\"app1\":79\x7d\x7d\x7d"
      "app1" false State.fresh).registry "apm-metric-apmAlertsRunning-total" = none ∧
    (CategorizeLogData id
      "2019-12-28 00:44:45,714 INFO jsonMetricsMessageToBeSent json=\x7b\"metrics\":\x7b\"apmAlertsRunning\":\x7b\"app1\":79\x7d\x7d\x7d"
      "app1" false State.fresh).registry "apm-metric-alertsrunning-total" = some (.gauge 79) ∧
    (CategorizeLogData id
      "2019-12-28 00:44:45,714 INFO jsonMetricsMessageToBeSent json=\x7b\"metrics\":\x7b\"apmAlertsRunning\":\x7b\"app1\":1000000\x7d\x7d\x7d"
      "app1" false State.fresh).registry "apm-metric-alertsrunning-total" = some (.gauge 0) := by
  decide!

/-- C2 (as amended): on a line that contains `memoryUsageIs` and in which the
memory pattern matches with captures `f` and `t`, classification on a
well-kinded sink leaves `apm-common-memoryfree-bytes` equal to the `float64`
nearest to the number `f` and `apm-common-memorytotal-bytes` equal to the
`float64` nearest to `t` (the numbers themselves when they are below `2^53`),
and the resulting sink is the same with debug on and off. -/
theorem memory_gauges_hold_nearest_float (order : KeyOrder) (line a : String) (st : State)
    (f t : List Char) (hwk : WellKinded st.registry)
    (hc : Contains line.data "memoryUsageIs".data = true)
    (hm : memoryFindSubmatch line.data = some (f, t)) :
    (∀ debug : Bool,
      (CategorizeLogData order line a debug st).registry "apm-common-memoryfree-bytes"
        = some (.gaugeFloat64 (roundToFloat64 (digitsValue f))) ∧
      (CategorizeLogData order line a debug st).registry "apm-common-memorytotal-bytes"
        = some (.gaugeFloat64 (roundToFloat64 (digitsValue t)))) ∧
    (digitsValue f < 2 ^ 53 → roundToFloat64 (digitsValue f) = .finite false (digitsValue f) 0) ∧
    (digitsValue t < 2 ^ 53 → roundToFloat64 (digitsValue t) = .finite false (digitsValue t) 0) ∧
    (CategorizeLogData order line a true st).registry
      = (CategorizeLogData order line a false st).registry := by
  refine ⟨fun debug => ?_, roundToFloat64_exact, roundToFloat64_exact, ?_⟩
  · obtain ⟨s1, s2, s3, s4, s5, s6, e1, e2, e3, e4, e5, e6, e, w1, -⟩ :=
      categorize_stages order line a debug hwk
    rw [if_pos hc] at e1
    obtain ⟨m1, m2⟩ := parseMemoryMessages_effect hwk hc hm e1
    obtain ⟨df, dt⟩ := memoryFindSubmatch_digits hm
    rw [ParseFloat_digits df] at m1
    rw [ParseFloat_digits dt] at m2
    have a2 : ∀ k : String, k ≠ "apm-alert-created-total" → k ≠ "apm-webharvest-exit-duration" →
        s2.registry k = s1.registry k := by
      intro k h1 h2
      rw [← registry_of_eq_ok e2]
      exact keep_parseCommonMessages h1 h2 _ _ _ _
    rw [e]
    constructor
    · show s6.registry _ = _
      rw [later_stages_keep e3 e4 e5 e6 (by decide), a2 _ (by decide) (by decide), m1]
    · show s6.registry _ = _
      rw [later_stages_keep e3 e4 e5 e6 (by decide), a2 _ (by decide) (by decide), m2]
  · have h := outAgree_CategorizeLogData (X := fun _ => False) (fun _ _ => not_false) order line a
      true false (show Agree _ st st from fun _ _ => rfl)
    funext k
    exact h.2 k not_false

/-- Witness for C2: the memory report of the specification. -/
theorem memory_gauges_hold_nearest_float_witness :
    WellKinded State.fresh.registry ∧
    memoryFindSubmatch
      "2019.03.17 01:56:49,740 INFO memoryUsageIs: freeMemory=187 totalMemory=380 Mb".data
      = some ("187".data, "380".data) ∧
    (CategorizeLogData id
      "2019.03.17 01:56:49,740 INFO memoryUsageIs: freeMemory=187 totalMemory=380 Mb" "app1"
      true State.fresh).registry "apm-common-memoryfree-bytes"
      = some (.gaugeFloat64 (.finite false 187 0)) ∧
    (CategorizeLogData id
      "2019.03.17 01:56:49,740 INFO memoryUsageIs: freeMemory=187 totalMemory=380 Mb" "app1"
      true State.fresh).registry "apm-common-memorytotal-bytes"
      = some (.gaugeFloat64 (.finite false 380 0)) :=
  have h := memory_gauges_hold_nearest_float id
    "2019.03.17 01:56:49,740 INFO memoryUsageIs: freeMemory=187 totalMemory=380 Mb" "app1"
    State.fresh "187".data "380".data wellKinded_fresh (by decide) (by decide)
  ⟨wellKinded_fresh, by decide, (h.1 true).1, (h.1 true).2⟩

/-- Counterexample to C2 as stated: with `freeMemory=9007199254740993` the
gauge holds 9007199254740992, not the number captured. -/
theorem memory_gauge_differs_from_capture :
    Contains "memoryUsageIs: freeMemory=9007199254740993 totalMemory=380".data
      "memoryUsageIs".data = true ∧
    memoryFindSubmatch "memoryUsageIs: freeMemory=9007199254740993 totalMemory=380".data
      = some ("9007199254740993".data, "380".data) ∧
    (CategorizeLogData id "memoryUsageIs: freeMemory=9007199254740993 totalMemory=380" "app1"
      false State.fresh).registry "apm-common-memoryfree-bytes"
      = some (.gaugeFloat64 (.finite false 9007199254740992 0)) ∧
    (CategorizeLogData id "memoryUsageIs: freeMemory=9007199254740993 totalMemory=380" "app1"
      false State.fresh).registry "apm-common-memoryfree-bytes"
      ≠ some (.gaugeFloat64 (.finite false 9007199254740993 0)) := by
  decide

/-- C3 (as amended): on a well-kinded sink, when the duration pattern matches
with capture `d` the gauge `apm-webharvest-exit-duration` is set to the
`float64` nearest to the number `d` (to `d` itself when it is below `2^53`);
when the line contains `scrapeExecuteFinished` and the pattern does not match,
the gauge is left untouched. -/
theorem exit_duration_gauge_nearest_float (order : KeyOrder) (line a : String) (debug : Bool)
    (st : State) (hwk : WellKinded st.registry) :
    (∀ d : List Char, durationFindSubmatch line.data = some d →
      (CategorizeLogData order line a debug st).registry "apm-webharvest-exit-duration"
        = some (.gaugeFloat64 (roundToFloat64 (digitsValue d))) ∧
      (digitsValue d < 2 ^ 53 →
        (CategorizeLogData order line a debug st).registry "apm-webharvest-exit-duration"
          = some (.gaugeFloat64 (.finite false (digitsValue d) 0)))) ∧
    (Contains line.data "scrapeExecuteFinished".data = true →
      durationFindSubmatch line.data = none →
      (CategorizeLogData order line a debug st).registry "apm-webharvest-exit-duration"
        = st.registry "apm-webharvest-exit-duration") := by
  constructor
  · intro d hm
    obtain ⟨s1, s2, s3, s4, s5, s6, e1, e2, e3, e4, e5, e6, e, w1, -⟩ :=
      categorize_stages order line a debug hwk
    have m := parseCommonMessages_duration w1 (contains_of_durationFindSubmatch hm) hm e2
    rw [ParseFloat_digits (durationFindSubmatch_digits hm)] at m
    have hr : (CategorizeLogData order line a debug st).registry "apm-webharvest-exit-duration"
        = some (.gaugeFloat64 (roundToFloat64 (digitsValue d))) := by
      rw [e]
      show s6.registry _ = _
      rw [later_stages_keep e3 e4 e5 e6 (by decide), m]
    exact ⟨hr, fun hlt => by rw [hr, roundToFloat64_exact hlt]⟩
  · intro _ hm
    exact keep_CategorizeLogData_of (fun s => keep_parseCommonMessages_noMatch hm s)
      (by decide) (by decide) (by decide) (by decide) (by decide) (by decide) order st

/-- Witness for C3: the scraper line of the specification. -/
theorem exit_duration_gauge_nearest_float_witness :
    WellKinded State.fresh.registry ∧
    durationFindSubmatch
      "2019-12-28 00:44:45,714 DEBUG Scraper - scrapeExecuteFinished: completed=true,duration=769ms".data
      = some "769".data ∧
    (CategorizeLogData id
      "2019-12-28 00:44:45,714 DEBUG Scraper - scrapeExecuteFinished: completed=true,duration=769ms"
      "app1" false State.fresh).registry "apm-webharvest-exit-duration"
      = some (.gaugeFloat64 (.finite false 769 0)) :=
  ⟨wellKinded_fresh, by decide,
    ((exit_duration_gauge_nearest_float id
      "2019-12-28 00:44:45,714 DEBUG Scraper - scrapeExecuteFinished: completed=true,duration=769ms"
      "app1" false State.fresh wellKinded_fresh).1 "769".data (by decide)).2 (by decide)⟩

/-- Counterexample to C3 as stated: with `duration=9007199254740993ms` the
gauge holds 9007199254740992, not the number captured. -/
theorem exit_duration_differs_from_capture :
    durationFindSubmatch
      "scrapeExecuteFinished: completed=true,duration=9007199254740993ms".data
      = some "9007199254740993".data ∧
    (CategorizeLogData id "scrapeExecuteFinished: completed=true,duration=9007199254740993ms"
      "app1" false State.fresh).registry "apm-webharvest-exit-duration"
      = some (.gaugeFloat64 (.finite false 9007199254740992 0)) ∧
    (CategorizeLogData id "scrapeExecuteFinished: completed=true,duration=9007199254740993ms"
      "app1" false State.fresh).registry "apm-webharvest-exit-duration"
      ≠ some (.gaugeFloat64 (.finite false 9007199254740993 0)) := by
  decide

/-- C4 (as amended): on a well-kinded sink whose three severity counters are
`int64` values below the largest one, `CategorizeLogData` returns, and it raises
`common-warn-messages-total` by exactly 1 when the line contains `WARN` and
leaves its entry as it was otherwise; likewise `common-error-messages-total`
for `ERROR` and `apm-common-fatal-messages-total` for `FATAL`, each
independently of the others and of every other rule. -/
theorem severity_counters_count_markers (order : KeyOrder) (line a : String) (debug : Bool)
    (st : State) (hwk : WellKinded st.registry)
    (hw : CounterRoom st.registry "common-warn-messages-total")
    (he : CounterRoom st.registry "common-error-messages-total")
    (hf : CounterRoom st.registry "apm-common-fatal-messages-total") :
    (CategorizeLogData order line a debug st).panicked = false ∧
    (CategorizeLogData order line a debug st).registry "common-warn-messages-total" =
      (if Contains line.data "WARN".data then
        some (.counter (counterValue st.registry "common-warn-messages-total" + 1))
      else st.registry "common-warn-messages-total") ∧
    (CategorizeLogData order line a debug st).registry "common-error-messages-total" =
      (if Contains line.data "ERROR".data then
        some (.counter (counterValue st.registry "common-error-messages-total" + 1))
      else st.registry "common-error-messages-total") ∧
    (CategorizeLogData order line a debug st).registry "apm-common-fatal-messages-total" =
      (if Contains line.data "FATAL".data then
        some (.counter (counterValue st.registry "apm-common-fatal-messages-total" + 1))
      else st.registry "apm-common-fatal-messages-total") := by
  obtain ⟨s1, s2, s3, s4, s5, s6, e1, e2, e3, e4, e5, e6, e, w1, w2, w3, w4, w5, w6⟩ :=
    categorize_stages order line a debug hwk
  have k1 : ∀ k : String, k ∉ floatGaugeNames → k ∉ gaugeNames → k ≠ "apm-alert-created-total" →
      s3.registry k = st.registry k := by
    intro k hk1 hk2 hk3
    have a1 : s1.registry k = st.registry k := by
      rw [← registry_of_eq_ok e1]
      split
      · exact keep_parseMemoryMessages (fun h => hk1 (by simp [h, floatGaugeNames]))
          (fun h => hk1 (by simp [h, floatGaugeNames])) _ _ _ _
      · rfl
    have a2 : s2.registry k = s1.registry k := by
      rw [← registry_of_eq_ok e2]
      exact keep_parseCommonMessages hk3 (fun h => hk1 (by simp [h, floatGaugeNames])) _ _ _ _
    have a3 : s3.registry k = s2.registry k := by
      rw [← registry_of_eq_ok e3]
      split
      · exact keep_parseMetricMessages hk2 _ _ _ _ _
      · rfl
    rw [a3, a2, a1]
  have b4 := severityBlock_counter "WARN" (c := "common-warn-messages-total") (by decide)
    line a debug w3 e4
  have b5 := severityBlock_counter "ERROR" (c := "common-error-messages-total") (by decide)
    line a debug w4 e5
  have b6 := severityBlock_counter "FATAL" (c := "apm-common-fatal-messages-total") (by decide)
    line a debug w5 e6
  have k4 : ∀ k : String, k ≠ "common-warn-messages-total" → s4.registry k = s3.registry k := by
    intro k hk
    rw [← registry_of_eq_ok e4]
    exact keep_severityBlock hk _ _ _ _ _
  have k5 : ∀ k : String, k ≠ "common-error-messages-total" → s5.registry k = s4.registry k := by
    intro k hk
    rw [← registry_of_eq_ok e5]
    exact keep_severityBlock hk _ _ _ _ _
  have k6 : ∀ k : String, k ≠ "apm-common-fatal-messages-total" →
      s6.registry k = s5.registry k := by
    intro k hk
    rw [← registry_of_eq_ok e6]
    exact keep_severityBlock hk _ _ _ _ _
  have cv : ∀ (r r' : Registry) (k : String), r k = r' k → counterValue r k = counterValue r' k := by
    intro r r' k h
    simp [counterValue, h]
  rw [e]
  refine ⟨rfl, ?_, ?_, ?_⟩
  · show s6.registry _ = _
    rw [k6 _ (by decide), k5 _ (by decide), b4,
      cv _ _ _ (k1 _ (by decide) (by decide) (by decide)), k1 _ (by decide) (by decide) (by decide),
      wrapInt64_of_range (by have := hw.1; omega) (by have := hw.2; omega)]
  · show s6.registry _ = _
    have h3 : s4.registry "common-error-messages-total" = st.registry _ :=
      (k4 _ (by decide)).trans (k1 _ (by decide) (by decide) (by decide))
    rw [k6 _ (by decide), b5, cv _ _ _ h3, h3,
      wrapInt64_of_range (by have := he.1; omega) (by have := he.2; omega)]
  · show s6.registry _ = _
    have h3 : s5.registry "apm-common-fatal-messages-total" = st.registry _ :=
      ((k5 _ (by decide)).trans (k4 _ (by decide))).trans
        (k1 _ (by decide) (by decide) (by decide))
    rw [b6, cv _ _ _ h3, h3,
      wrapInt64_of_range (by have := hf.1; omega) (by have := hf.2; omega)]

/-- Witness for C4: a line containing both `WARN` and `ERROR`, on a fresh sink. -/
theorem severity_counters_count_markers_witness :
    WellKinded State.fresh.registry ∧
    CounterRoom State.fresh.registry "common-warn-messages-total" ∧
    (CategorizeLogData id "12:00 WARN retry after ERROR 17" "app1" false State.fresh).registry
        "common-warn-messages-total" = some (.counter 1) ∧
    (CategorizeLogData id "12:00 WARN retry after ERROR 17" "app1" false State.fresh).registry
        "common-error-messages-total" = some (.counter 1) ∧
    (CategorizeLogData id "12:00 WARN retry after ERROR 17" "app1" false State.fresh).registry
        "apm-common-fatal-messages-total" = none :=
  have h := severity_counters_count_markers id "12:00 WARN retry after ERROR 17" "app1" false
    State.fresh wellKinded_fresh (counterRoom_fresh _) (counterRoom_fresh _) (counterRoom_fresh _)
  ⟨wellKinded_fresh, counterRoom_fresh _, h.2.1, h.2.2.1, h.2.2.2⟩

/-- Counterexample to C4 as stated: on a well-kinded sink whose counter
`common-warn-messages-total` stands at the largest `int64`, a line containing
`WARN` leaves the counter at the smallest `int64`, not one higher. -/
theorem warn_counter_wraps_at_max :
    WellKinded (NewRegistry.set "common-warn-messages-total" (.counter (2 ^ 63 - 1))) ∧
    Contains "12:00 WARN queue is full".data "WARN".data = true ∧
    (CategorizeLogData id "12:00 WARN queue is full" "app1" false
      ⟨NewRegistry.set "common-warn-messages-total" (.counter (2 ^ 63 - 1)), []⟩).registry
        "common-warn-messages-total" = some (.counter (-(2 ^ 63))) ∧
    (CategorizeLogData id "12:00 WARN queue is full" "app1" false
      ⟨NewRegistry.set "common-warn-messages-total" (.counter (2 ^ 63 - 1)), []⟩).registry
        "common-warn-messages-total" ≠ some (.counter (2 ^ 63 - 1 + 1)) :=
  ⟨wellKinded_set_counter wellKinded_NewRegistry (by decide) (by decide) _, by decide,
    by decide, by decide⟩

/-- C5: a line that contains none of the rule triggers leaves the sink exactly
as it was, for every application name, debug flag and sink: the call returns
the state it was given. -/
theorem classify_no_trigger_is_noop (order : KeyOrder) (line a : String) (debug : Bool)
    (st : State)
    (h1 : Contains line.data "memoryUsageIs".data = false)
    (h2 : Contains line.data "postPayloadStarted".data = false)
    (h3 : Contains line.data "scrapeExecuteFinished".data = false)
    (h4 : Contains line.data "jsonMetricsMessageToBeSent".data = false)
    (h5 : Contains line.data "WARN".data = false)
    (h6 : Contains line.data "ERROR".data = false)
    (h7 : Contains line.data "FATAL".data = false) :
    CategorizeLogData order line a debug st = .ok st := by
  simp [CategorizeLogData, parseCommonMessages, severityBlock, h1, h2, h3, h4, h5, h6, h7,
    Outcome.andThen]

/-- Witness for C5: an informational line. -/
theorem classify_no_trigger_is_noop_witness :
    Contains "2019-12-28 00:44:45,714 INFO heartbeat".data "WARN".data = false ∧
    CategorizeLogData id "2019-12-28 00:44:45,714 INFO heartbeat" "app1" true State.fresh
      = .ok State.fresh :=
  ⟨by decide, classify_no_trigger_is_noop id _ "app1" true State.fresh (by decide) (by decide)
    (by decide) (by decide) (by decide) (by decide) (by decide)⟩

/-- C6 (as amended): classification of a line on a well-kinded sink (a fresh
one in particular) ends in the same state whatever the order in which the keys
of the metrics object are visited, provided that no well-known key of that
object holds a value that is not an object. -/
theorem classification_ignores_key_order (order order' : KeyOrder) (line a : String)
    (debug : Bool) (st : State) (hwk : WellKinded st.registry)
    (hperm : ∀ ks, (order ks).Perm ks) (hperm' : ∀ ks, (order' ks).Perm ks)
    (hff : ∀ metric, lineMetrics line = some metric → FaultFree metric) :
    CategorizeLogData order line a debug st = CategorizeLogData order' line a debug st := by
  obtain ⟨s1, s2, s3, s4, s5, s6, e1, e2, e3, e4, e5, e6, e, w1, w2, -⟩ :=
    categorize_stages order line a debug hwk
  rw [e]
  unfold CategorizeLogData
  rw [e1]; simp only [Outcome.andThen]
  rw [e2]; simp only [Outcome.andThen]
  rw [← parseMetricMessages_order_irrelevant order order' w2 hperm hperm'
    hff, e3]
  simp only [Outcome.andThen]
  rw [e4]; simp only [Outcome.andThen]
  rw [e5]; simp only [Outcome.andThen]
  exact e6.symm

/-- Witness for C6: two well-known keys, visited in either order. -/
theorem classification_ignores_key_order_witness :
    (∀ ks : List (List Char), (List.reverse ks).Perm ks) ∧
    CategorizeLogData id
      "2019-12-28 00:44:45 jsonMetricsMessageToBeSent json=\x7b\"metrics\":\x7b\"apmAlertsRunning\":\x7b\"app1\":79\x7d,\"caseCreationRate\":\x7b\"app1\":3\x7d\x7d\x7d"
      "app1" false State.fresh
    = CategorizeLogData List.reverse
      "2019-12-28 00:44:45 jsonMetricsMessageToBeSent json=\x7b\"metrics\":\x7b\"apmAlertsRunning\":\x7b\"app1\":79\x7d,\"caseCreationRate\":\x7b\"app1\":3\x7d\x7d\x7d"
      "app1" false State.fresh :=
  ⟨fun ks => List.reverse_perm ks,
    classification_ignores_key_order id List.reverse
      "2019-12-28 00:44:45 jsonMetricsMessageToBeSent json=\x7b\"metrics\":\x7b\"apmAlertsRunning\":\x7b\"app1\":79\x7d,\"caseCreationRate\":\x7b\"app1\":3\x7d\x7d\x7d"
      "app1" false State.fresh wellKinded_fresh (fun ks => List.Perm.refl ks)
      (fun ks => List.reverse_perm ks) (faultFree_of_getD (by decide!))⟩

/-- Counterexample to C6 as stated: with `apmAlertsRunning` holding the scalar
5, the gauge of `caseCreationRate` is set when that key is visited first and
stays unset when `apmAlertsRunning` is visited first, on the same line and a
fresh sink. -/
theorem key_order_changes_final_sink :
    (∀ ks : List (List Char), (List.reverse ks).Perm ks) ∧
    (CategorizeLogData id
      "2019-12-28 00:44:45 jsonMetricsMessageToBeSent json=\x7b\"metrics\":\x7b\"apmAlertsRunning\":5,\"caseCreationRate\":\x7b\"app1\":3\x7d\x7d\x7d"
      "app1" false State.fresh).registry "apm-metric-casecreationrate-total" = none ∧
    (CategorizeLogData List.reverse
      "2019-12-28 00:44:45 jsonMetricsMessageToBeSent json=\x7b\"metrics\":\x7b\"apmAlertsRunning\":5,\"caseCreationRate\":\x7b\"app1\":3\x7d\x7d\x7d"
      "app1" false State.fresh).registry "apm-metric-casecreationrate-total"
      = some (.gauge 3) :=
  ⟨fun ks => List.reverse_perm ks, by decide!, by decide!⟩

/-- C7: on a line whose structured-metrics payload is faulty (no `json=`
delimiter, invalid JSON, no `metrics` key, or a `metrics` value that is no
object) the rule returns normally, its panic (raised whenever the trigger
matches) being recovered; it changes nothing in the sink, so none of the five
`apm-metric-*` gauges gets a value from the line; and the whole classification
ends with the same sink, and returns or panics alike, as the other rules
(memory, common messages, severity counters) run on their own. On a
well-kinded sink nothing panics at all. -/
theorem faulty_payload_skips_only_metrics (order : KeyOrder) (line a : String) (debug : Bool)
    (st : State) (hf : PayloadFault line) :
    (parseMetricMessages order line a debug st).panicked = false ∧
    (metricsFindString line.data ≠ [] →
      (parseMetricMessagesBody order line a debug st).panicked = true) ∧
    (parseMetricMessages order line a debug st).registry = st.registry ∧
    (∀ g ∈ gaugeNames, (CategorizeLogData order line a debug st).registry g = st.registry g) ∧
    (CategorizeLogData order line a debug st).registry
      = (classifyOtherRules line a debug st).registry ∧
    (CategorizeLogData order line a debug st).panicked
      = (classifyOtherRules line a debug st).panicked ∧
    (WellKinded st.registry → (CategorizeLogData order line a debug st).panicked = false) := by
  have hb := parseMetricMessagesBody_fault hf order a debug st
  have hag := categorize_agrees_otherRules hf order a debug st
  have hreg : (CategorizeLogData order line a debug st).registry
      = (classifyOtherRules line a debug st).registry := by
    funext k
    exact hag.2 k not_false
  refine ⟨parseMetricMessages_returns _ _ _ _ _, hb.2, ?_, ?_, hreg, hag.1, ?_⟩
  · unfold parseMetricMessages
    rw [keep_rescue]
    exact hb.1
  · intro g hg
    rw [hreg]
    exact keep_classifyOtherRules hg _ _ _ _
  · intro hwk
    exact (safe_CategorizeLogData order line a debug hwk).1

/-- Witness for C7: a triggering line with a truncated JSON payload and the
marker `ERROR`. -/
theorem faulty_payload_skips_only_metrics_witness :
    PayloadFault
      "2019-12-28 00:44:45,714 ERROR jsonMetricsMessageToBeSent json=\x7b\"metrics\":\x7b\"apmAlertsRunning\":" ∧
    metricsFindString
      "2019-12-28 00:44:45,714 ERROR jsonMetricsMessageToBeSent json=\x7b\"metrics\":\x7b\"apmAlertsRunning\":".data
      ≠ [] ∧
    (CategorizeLogData id
      "2019-12-28 00:44:45,714 ERROR jsonMetricsMessageToBeSent json=\x7b\"metrics\":\x7b\"apmAlertsRunning\":"
      "app1" false State.fresh).panicked = false ∧
    (CategorizeLogData id
      "2019-12-28 00:44:45,714 ERROR jsonMetricsMessageToBeSent json=\x7b\"metrics\":\x7b\"apmAlertsRunning\":"
      "app1" false State.fresh).registry "apm-metric-alertsrunning-total" = none :=
  have hf : PayloadFault
      "2019-12-28 00:44:45,714 ERROR jsonMetricsMessageToBeSent json=\x7b\"metrics\":\x7b\"apmAlertsRunning\":" :=
    Or.inr ⟨"\x7b\"metrics\":\x7b\"apmAlertsRunning\":".data, by decide, Or.inl (by decide)⟩
  have h := faulty_payload_skips_only_metrics id
    "2019-12-28 00:44:45,714 ERROR jsonMetricsMessageToBeSent json=\x7b\"metrics\":\x7b\"apmAlertsRunning\":"
    "app1" false State.fresh hf
  ⟨hf, by decide, h.2.2.2.2.2.2 wellKinded_fresh,
    h.2.2.2.1 "apm-metric-alertsrunning-total" (by decide)⟩

/-- C8 (the code at the failing input): `AddApplication` returns the supervisor
with its application sequence unchanged, so after a call on a supervisor
holding `n` applications the length is still `n` and `GetApplication n` hits
the index-out-of-range panic; from `NewApp` the sequence stays empty. -/
theorem addApplication_leaves_sequence (app : App) (id : Int) (name logPath : String)
    (maxRate : Int) (debugEnabled : Bool) :
    (AddApplication app id name logPath maxRate debugEnabled).1.Applications = app.Applications ∧
    (GetApplication (AddApplication app id name logPath maxRate debugEnabled).1
      app.Applications.length).isNone = true ∧
    (AddApplication NewApp id name logPath maxRate debugEnabled).1.Applications.length = 0 ∧
    (GetApplication (AddApplication NewApp id name logPath maxRate debugEnabled).1 0).isNone
      = true := by
  refine ⟨rfl, ?_, rfl, rfl⟩
  simp [GetApplication, AddApplication]

/-- C9: for every finite run of `N` delivered lines (each with any visiting
order for its metrics map), the ingestion loop started on a fresh registry
processes them all without being brought down, the counter
`apm-log-read-rate` and the monitor's line count both end at `N` (for `N`
within `int64`), and under every other name the final sink holds exactly what
classifying the lines one after another from a fresh sink leaves there; the
process-wide default registry is left as it was. -/
theorem queueWorker_counts_and_classifies (a0 : Application) (dflt : Registry)
    (feed : List (KeyOrder × String)) (hreg : a0.MetricsRegistry = some NewRegistry)
    (hzero : a0.TotalLinesRead = 0) (hN : feed.length < 2 ^ 63) :
    ∃ a' reg', queueWorker a0 dflt feed = .drained ⟨a', dflt⟩ ∧
      a'.TotalLinesRead = (feed.length : Int) ∧
      a'.MetricsRegistry = some reg' ∧
      reg' "apm-log-read-rate" = some (.counter (feed.length : Int)) ∧
      ∀ k, k ≠ "apm-log-read-rate" →
        reg' k =
          (classifyAll a0.ApplicationName a0.DebugEnabled feed State.fresh).registry k := by
  have hstate : Worker.state ⟨a0, dflt⟩ = ⟨NewRegistry, a0.stdout⟩ := by
    simp [Worker.state, hreg]
  have hsome : (Worker.mk a0 dflt).application.MetricsRegistry.isSome = true := by
    show a0.MetricsRegistry.isSome = true
    rw [hreg]; rfl
  have hget : GetOrRegisterCounter "apm-log-read-rate" (Worker.state ⟨a0, dflt⟩)
      = .ok ⟨NewRegistry.set "apm-log-read-rate" (.counter 0), a0.stdout⟩ := by
    rw [hstate]
    simp [GetOrRegisterCounter, NewRegistry]
  have hf := Worker.withState_fields ⟨a0, dflt⟩
    ⟨NewRegistry.set "apm-log-read-rate" (.counter 0), a0.stdout⟩
  have hs := Worker.withState_of_isSome ⟨a0, dflt⟩
    ⟨NewRegistry.set "apm-log-read-rate" (.counter 0), a0.stdout⟩ hsome
  have hst := Worker.state_withState ⟨a0, dflt⟩
    ⟨NewRegistry.set "apm-log-read-rate" (.counter 0), a0.stdout⟩
  unfold queueWorker
  rw [hget]
  simp only []
  obtain ⟨w', hw', h1, h2, h3, h4, h5⟩ := queueWorkerLoop_invariant a0.ApplicationName
    a0.DebugEnabled feed
    (Worker.withState ⟨a0, dflt⟩ ⟨NewRegistry.set "apm-log-read-rate" (.counter 0), a0.stdout⟩)
    State.fresh 0 hf.1 hf.2.1
    (by rw [hs.1]; rfl)
    (by
      rw [hst]
      exact wellKinded_set_counter wellKinded_NewRegistry (by decide) (by decide) _)
    wellKinded_fresh
    (by rw [hst]; simp [Registry.set])
    (by
      intro k hk
      rw [hst]
      simp [Registry.set, hk, State.fresh])
    (by rw [hf.2.2]; simpa using hzero) (by omega)
  obtain ⟨a', d'⟩ := w'
  cases hreg' : a'.MetricsRegistry with
  | none => rw [hreg'] at h4; cases h4
  | some reg' =>
    have hd : d' = dflt := h5.trans hs.2
    subst hd
    have hw : (Worker.mk a' d').state.registry = reg' := by
      simp [Worker.state, hreg']
    rw [hw] at h2 h3
    refine ⟨a', reg', hw', ?_, hreg', ?_, h3⟩
    · rw [h1]; simp
    · rw [h2]; simp

/-- Witness for C9: the monitor made by `AddApplication`, fed a line with a
malformed structured-metrics payload and then a `WARN` line. -/
theorem queueWorker_counts_and_classifies_witness :
    (AddApplication NewApp 0 "app1" "/var/log/app1.log" 10000 false).2.MetricsRegistry
      = some NewRegistry ∧
    ∃ a' reg', queueWorker (AddApplication NewApp 0 "app1" "/var/log/app1.log" 10000 false).2
        NewRegistry
        [(id, "2019-12-28 00:44:45 jsonMetricsMessageToBeSent json=\x7b\"metrics\":"),
         (id, "2019-12-28 00:44:46 WARN disk almost full")] = .drained ⟨a', NewRegistry⟩ ∧
      a'.TotalLinesRead = 2 ∧
      a'.MetricsRegistry = some reg' ∧
      reg' "apm-log-read-rate" = some (.counter 2) :=
  have h := queueWorker_counts_and_classifies
    (AddApplication NewApp 0 "app1" "/var/log/app1.log" 10000 false).2 NewRegistry
    [(id, "2019-12-28 00:44:45 jsonMetricsMessageToBeSent json=\x7b\"metrics\":"),
     (id, "2019-12-28 00:44:46 WARN disk almost full")] rfl rfl (by decide)
  ⟨rfl, h.elim fun a' ha => ha.elim fun reg' hr =>
    ⟨a', reg', hr.1, hr.2.1, hr.2.2.1, hr.2.2.2.1⟩⟩

/-- C10 (as amended): in a decoded metrics object in which every well-known
key present holds an object, a well-known key whose value under the
application name is missing or does not parse as a base-10 `int64` gets no
value from the line (its gauge keeps the metric it held, and is registered at
0 if it held none), while every well-known key whose value does parse is set
to that integer, for any visiting order, on a well-kinded sink. -/
theorem failed_key_skips_only_itself (order : KeyOrder) (line a : String) (debug : Bool)
    (st : State) (metric : List (List Char × JSONValue)) (p q : String × String) (n : Int)
    (hwk : WellKinded st.registry) (hperm : ∀ ks, (order ks).Perm ks)
    (htrig : metricsFindString line.data ≠ []) (hm : lineMetrics line = some metric)
    (hff : FaultFree metric) (hp : p ∈ wellKnownGauges) (hq : q ∈ wellKnownGauges)
    (hpk : p.1.data ∈ metric.map Prod.fst) (hfail : perAppInt metric a p.1 = none)
    (hparse : perAppInt metric a q.1 = some n) :
    (CategorizeLogData order line a debug st).registry p.2
      = some ((st.registry p.2).getD (.gauge 0)) ∧
    (CategorizeLogData order line a debug st).registry q.2 = some (.gauge n) := by
  constructor
  · rw [categorize_gauge hwk hperm htrig hm hff hp, if_pos hpk,
      gaugeStep_of_parse_failure (hff p hp hpk) hfail]
  · obtain ⟨hmem, hstep⟩ := gaugeStep_of_perAppInt hparse (st.registry q.2)
    rw [categorize_gauge hwk hperm htrig hm hff hq, if_pos hmem, hstep]

/-- Witness for C10: `apmAlertsRunning` has no entry for the application and
`caseTerminateRate` holds text, while `caseCreationRate` parses; the sink
already holds 7 under the gauge of `caseTerminateRate`. -/
theorem failed_key_skips_only_itself_witness :
    perAppInt ((lineMetrics
      "2019-12-28 00:44:45 jsonMetricsMessageToBeSent json=\x7b\"metrics\":\x7b\"apmAlertsRunning\":\x7b\"other\":1\x7d,\"caseTerminateRate\":\x7b\"app1\":\"soon\"\x7d,\"caseCreationRate\":\x7b\"app1\":3\x7d\x7d\x7d").getD [])
      "app1" "caseTerminateRate" = none ∧
    (CategorizeLogData List.reverse
      "2019-12-28 00:44:45 jsonMetricsMessageToBeSent json=\x7b\"metrics\":\x7b\"apmAlertsRunning\":\x7b\"other\":1\x7d,\"caseTerminateRate\":\x7b\"app1\":\"soon\"\x7d,\"caseCreationRate\":\x7b\"app1\":3\x7d\x7d\x7d"
      "app1" false
      ⟨NewRegistry.set "apm-metric-caseterminaterate-total" (.gauge 7), []⟩).registry
        "apm-metric-caseterminaterate-total" = some (.gauge 7) ∧
    (CategorizeLogData List.reverse
      "2019-12-28 00:44:45 jsonMetricsMessageToBeSent json=\x7b\"metrics\":\x7b\"apmAlertsRunning\":\x7b\"other\":1\x7d,\"caseTerminateRate\":\x7b\"app1\":\"soon\"\x7d,\"caseCreationRate\":\x7b\"app1\":3\x7d\x7d\x7d"
      "app1" false
      ⟨NewRegistry.set "apm-metric-caseterminaterate-total" (.gauge 7), []⟩).registry
        "apm-metric-casecreationrate-total" = some (.gauge 3) :=
  have h := failed_key_skips_only_itself List.reverse
    "2019-12-28 00:44:45 jsonMetricsMessageToBeSent json=\x7b\"metrics\":\x7b\"apmAlertsRunning\":\x7b\"other\":1\x7d,\"caseTerminateRate\":\x7b\"app1\":\"soon\"\x7d,\"caseCreationRate\":\x7b\"app1\":3\x7d\x7d\x7d"
    "app1" false ⟨NewRegistry.set "apm-metric-caseterminaterate-total" (.gauge 7), []⟩
    ((lineMetrics
      "2019-12-28 00:44:45 jsonMetricsMessageToBeSent json=\x7b\"metrics\":\x7b\"apmAlertsRunning\":\x7b\"other\":1\x7d,\"caseTerminateRate\":\x7b\"app1\":\"soon\"\x7d,\"caseCreationRate\":\x7b\"app1\":3\x7d\x7d\x7d").getD [])
    ("caseTerminateRate", "apm-metric-caseterminaterate-total")
    ("caseCreationRate", "apm-metric-casecreationrate-total") 3
    (wellKinded_set_gauge wellKinded_NewRegistry (by decide) (by decide) 7)
    (fun ks => List.reverse_perm ks) (by decide!)
    (eq_some_getD_of_isSome [] (by decide!)) (by decide!) (by decide) (by decide)
    (by decide!) (by decide!) (by decide!)
  ⟨by decide!, h.1, h.2⟩

/-- Counterexample to C10 as stated: `payloadReceptionRate` holds text, which
does not parse as an integer, and `apmAlertCreationRate` holds 12 for the
application; visited in the order of the payload, the first key ends the loop
and the gauge of `apmAlertCreationRate` is never set. -/
theorem unparsable_key_stops_later_keys :
    perAppInt ((lineMetrics
      "2019-12-28 00:44:45 jsonMetricsMessageToBeSent json=\x7b\"metrics\":\x7b\"payloadReceptionRate\":\"n/a\",\"apmAlertCreationRate\":\x7b\"app1\":12\x7d\x7d\x7d").getD [])
      "app1" "apmAlertCreationRate" = some 12 ∧
    (CategorizeLogData id
      "2019-12-28 00:44:45 jsonMetricsMessageToBeSent json=\x7b\"metrics\":\x7b\"payloadReceptionRate\":\"n/a\",\"apmAlertCreationRate\":\x7b\"app1\":12\x7d\x7d\x7d"
      "app1" false State.fresh).registry "apm-metric-alertcreationrate-total" = none := by
  decide!

/-- C11 (as amended): on a line whose decoded metrics object gives a well-known
key no value that parses as a base-10 `int64` under the application name (no
entry, or an entry that is not such an integer), classification never gives
that key's gauge a value from the line, for any sink and any visiting order: a
gauge that was registered still holds its previous value; a name that held
nothing is afterwards still absent or holds a gauge at 0; and it does hold a
gauge at 0 when the block of the key is reached (trigger matched, key in the
object, no well-known key holding a non-object, well-kinded sink), because
the gauge is fetched with `GetOrRegisterGauge` before the integer is parsed. -/
theorem failed_extraction_keeps_or_zeroes_gauge (order : KeyOrder) (line a : String)
    (debug : Bool) (st : State) (metric : List (List Char × JSONValue)) (p : String × String)
    (hm : lineMetrics line = some metric) (hp : p ∈ wellKnownGauges)
    (hfail : perAppInt metric a p.1 = none) :
    (∀ m, st.registry p.2 = some m →
      (CategorizeLogData order line a debug st).registry p.2 = some m) ∧
    (st.registry p.2 = none →
      (CategorizeLogData order line a debug st).registry p.2 = none ∨
      (CategorizeLogData order line a debug st).registry p.2 = some (.gauge 0)) ∧
    (WellKinded st.registry → (∀ ks, (order ks).Perm ks) → metricsFindString line.data ≠ [] →
      FaultFree metric → p.1.data ∈ metric.map Prod.fst → st.registry p.2 = none →
      (CategorizeLogData order line a debug st).registry p.2 = some (.gauge 0)) := by
  have h := stale_CategorizeLogData hm hp hfail order debug st
  refine ⟨?_, ?_, ?_⟩
  · intro m hold
    rcases h with h | ⟨hnone, -⟩
    · rw [h, hold]
    · rw [hold] at hnone
      cases hnone
  · intro hold
    rcases h with h | ⟨-, hnew⟩
    · exact Or.inl (h.trans hold)
    · exact Or.inr hnew
  · intro hwk hperm htrig hff hpk hold
    rw [categorize_gauge hwk hperm htrig hm hff hp, if_pos hpk,
      gaugeStep_of_parse_failure (hff p hp hpk) hfail, hold]
    rfl

/-- Witness for C11: `apmAlertsRunning` has no entry for `app1`, and the sink
already holds 42 under its gauge. -/
theorem failed_extraction_keeps_or_zeroes_gauge_witness :
    perAppInt ((lineMetrics
      "2019-12-28 00:44:45 jsonMetricsMessageToBeSent json=\x7b\"metrics\":\x7b\"apmAlertsRunning\":\x7b\"other\":1\x7d\x7d\x7d").getD [])
      "app1" "apmAlertsRunning" = none ∧
    (CategorizeLogData id
      "2019-12-28 00:44:45 jsonMetricsMessageToBeSent json=\x7b\"metrics\":\x7b\"apmAlertsRunning\":\x7b\"other\":1\x7d\x7d\x7d"
      "app1" false
      ⟨NewRegistry.set "apm-metric-alertsrunning-total" (.gauge 42), []⟩).registry
        "apm-metric-alertsrunning-total" = some (.gauge 42) :=
  ⟨by decide!,
    (failed_extraction_keeps_or_zeroes_gauge id
      "2019-12-28 00:44:45 jsonMetricsMessageToBeSent json=\x7b\"metrics\":\x7b\"apmAlertsRunning\":\x7b\"other\":1\x7d\x7d\x7d"
      "app1" false ⟨NewRegistry.set "apm-metric-alertsrunning-total" (.gauge 42), []⟩
      ((lineMetrics
        "2019-12-28 00:44:45 jsonMetricsMessageToBeSent json=\x7b\"metrics\":\x7b\"apmAlertsRunning\":\x7b\"other\":1\x7d\x7d\x7d").getD [])
      ("apmAlertsRunning", "apm-metric-alertsrunning-total")
      (eq_some_getD_of_isSome [] (by decide!)) (by decide) (by decide!)).1 (.gauge 42)
      (by decide)⟩

/-- Counterexample to C11 as stated: on a fresh sink, a line in which
`apmAlertsRunning` has no entry for `app1` leaves the gauge
`apm-metric-alertsrunning-total`, absent before, present with value 0. -/
theorem failed_extraction_registers_absent_gauge :
    perAppInt ((lineMetrics
      "2019-12-28 00:44:45 jsonMetricsMessageToBeSent json=\x7b\"metrics\":\x7b\"apmAlertsRunning\":\x7b\"other\":1\x7d\x7d\x7d").getD [])
      "app1" "apmAlertsRunning" = none ∧
    State.fresh.registry "apm-metric-alertsrunning-total" = none ∧
    (CategorizeLogData id
      "2019-12-28 00:44:45 jsonMetricsMessageToBeSent json=\x7b\"metrics\":\x7b\"apmAlertsRunning\":\x7b\"other\":1\x7d\x7d\x7d"
      "app1" false State.fresh).registry "apm-metric-alertsrunning-total"
      = some (.gauge 0) := by
  decide!

end PrometheusLog
